import Mathlib

/-!
PSA time-entry server: a shallow embedding of `src/server.js` and of two functions of
the client, `src/public/app.js`.

The Express handlers of `src/server.js` are embedded as pure functions
`Store → Store × Response`.  The persistent store is three tables held as lists;
request bodies carry JSON values, with `none` standing for `undefined`
(an absent field).  The token middleware is `authenticateToken`, and `withToken` is a
route behind it.  Of the client, `escHtml` is embedded on strings and `saveTimeEntries`
as a function of the client state and the store of the server.

JavaScript built-ins whose exact behaviour lies outside the repository
(`parseInt`, `new Date`, `JSON.parse` on client-supplied text, number formatting,
`bcrypt.hash`, `jwt.verify`) are fields of `JsEnv`; every general theorem holds for all
environments.
-/

set_option autoImplicit false

namespace PSA

/-! ## JSON values and JavaScript primitives -/

/-- JSON value, as produced by the body parser.  Finite numbers are represented by
the rational they denote. -/
inductive Json where
  | null
  | bool (b : Bool)
  | num (q : ℚ)
  | str (s : String)
  | arr (xs : List Json)
  | obj (kvs : List (String × Json))

/-- JavaScript value read from a request body: `none` is `undefined`. -/
abbrev JsVal := Option Json

/-- Built-ins of the JavaScript runtime and of the libraries the server calls. -/
structure JsEnv where
  /-- `parseInt(x)`; `none` is `NaN` (or a number the store rejects as an id). -/
  parseInt : Json → Option Int
  /-- `parseFloat(s)` on a string; `none` is `NaN`. -/
  parseFloatStr : String → Option ℚ
  /-- `new Date(x)` as epoch milliseconds; `none` is `Invalid Date`. -/
  newDate : Json → Option Int
  /-- `JSON.parse(s)`; `none` when it throws. -/
  jsonParse : String → Option Json
  /-- `String(x)` for numbers and arrays. -/
  toStr : Json → String
  /-- `bcrypt.hash(password, 10)`. -/
  hash : String → String
  /-- Whether the store accepts a string as a `role` (the column's type is declared in
  the schema, which is not among the sources). -/
  validRole : String → Bool
  /-- `bcrypt.compare(password, hash)` on two strings. -/
  compare : String → String → Bool
  /-- `jwt.sign(payload, JWT_SECRET, options)` for the payload `id`, `username`,
  `role`. -/
  sign : Int → String → String → String
  /-- `jwt.verify(token, JWT_SECRET, callback)` at the time of the request: the payload
  `id`, `username`, `role` of a token that carries a valid signature and has not
  expired, and `none` when verification fails. -/
  verify : String → Option (Int × String × String)

/-- JavaScript truthiness (`!x` is its negation). -/
def truthy : JsVal → Bool
  | none => false
  | some .null => false
  | some (.bool b) => b
  | some (.num q) => decide (q ≠ 0)
  | some (.str s) => decide (s ≠ "")
  | some (.arr _) => true
  | some (.obj _) => true

/-- The test `typeof x === 'object'`: true of `null`, arrays and objects. -/
def isObjectType : JsVal → Bool
  | some .null => true
  | some (.arr _) => true
  | some (.obj _) => true
  | _ => false

/-- `String(x)` as used by template literals. -/
def jsToString (env : JsEnv) : Json → String
  | .str s => s
  | .null => "null"
  | .bool true => "true"
  | .bool false => "false"
  | .obj _ => "[object Object]"
  | v => env.toStr v

/-- `parseFloat(x)`: the argument is converted to a string and its longest numeric
prefix is read; `none` is `NaN`.  A number parses back to itself. -/
def parseFloat (env : JsEnv) : JsVal → Option ℚ
  | none => none
  | some .null => none
  | some (.bool _) => none
  | some (.num q) => some q
  | some (.str s) => env.parseFloatStr s
  | some (.arr xs) => env.parseFloatStr (env.toStr (.arr xs))
  | some (.obj _) => none

/-- `parseFloat(x) || 0`: `NaN` and `0` are falsy, so both give `0`. -/
def hoursOf (env : JsEnv) (x : JsVal) : ℚ :=
  match parseFloat env x with
  | none => 0
  | some q => q

/-- Lower-case image of one character under `String.prototype.toLowerCase`.
Exact on every character whose image contains an ASCII letter (`A`–`Z`,
U+0130 and U+212A); the remaining characters, whose images are not ASCII,
are left in place. -/
def lowerChar (c : Char) : List Char :=
  if c.isUpper then [c.toLower]
  else if c.toNat = 0x130 then [Char.ofNat 0x69, Char.ofNat 0x307]
  else if c.toNat = 0x212A then [Char.ofNat 0x6B]
  else [c]

/-- `s.toLowerCase()`. -/
def toLowerCase (s : String) : String :=
  ⟨s.data.flatMap lowerChar⟩

/-- `s.substring(0, n)`. -/
def substring0 (s : String) (n : Nat) : String :=
  ⟨s.data.take n⟩

/-- `const validDays = ['mon', 'tue', 'wed', 'thu', 'fri', 'sat', 'sun']`. -/
def validDays : List String := ["mon", "tue", "wed", "thu", "fri", "sat", "sun"]

/-- `day.toLowerCase().substring(0, 3)`. -/
def dayKeyOf (day : String) : String :=
  substring0 (toLowerCase day) 3

/-! ## Data model (the three tables of the store) -/

/-- Row of the `User` table. -/
structure User where
  id : Int
  username : String
  password : String
  role : String
  createdAt : Nat

/-- Row of the `Schedule` table. -/
structure Schedule where
  id : Int
  userId : Int
  projectTitle : String
  isAssigned : Bool
  createdAt : Nat

/-- The `notes` column of a time entry is a string.  `json v` is the text
`JSON.stringify(v)` written by the server, which `JSON.parse` reads back as `v`;
`text s` is a string stored verbatim from a request. -/
inductive NotesCol where
  | json (v : Json)
  | text (s : String)

/-- Row of the `TimeEntry` table. -/
structure TimeEntry where
  id : Int
  scheduleId : Int
  weekEnding : Int
  mon : ℚ
  tue : ℚ
  wed : ℚ
  thu : ℚ
  fri : ℚ
  sat : ℚ
  sun : ℚ
  notes : NotesCol
  isSubmitted : Bool
  createdAt : Nat

/-- Modelled from the spec: the database schema (`prisma/schema.prisma`) is not among
the sources.  Following the spec's data model the store holds the three tables, each
id is system-generated (here from a counter per table), `username` is unique,
`(scheduleId, weekEnding)` is the unique key of a time entry, `isSubmitted` defaults
to `false`, and deleting a schedule cascades to its time entries. -/
structure Store where
  users : List User
  schedules : List Schedule
  entries : List TimeEntry
  nextUserId : Int
  nextScheduleId : Int
  nextEntryId : Int

/-- Decoded token payload `req.user`. -/
structure Identity where
  id : Int
  username : String
  role : String

/-- Selection `{ id, username }` of a user. -/
structure UserRef where
  id : Int
  username : String

/-- Row of the time-entry listing: the entry, its schedule with the schedule's user
(`include`), and the parsed notes. -/
structure ListedEntry where
  entry : TimeEntry
  schedule : Option Schedule
  user : Option UserRef
  notes : Json

/-- Row of the schedule listing: the schedule and its user (`include`). -/
structure ListedSchedule where
  schedule : Schedule
  user : Option UserRef

/-- Selection `{ id, projectTitle, isAssigned, createdAt }` of a schedule. -/
structure ScheduleInfo where
  id : Int
  projectTitle : String
  isAssigned : Bool
  createdAt : Nat

/-- JSON payload of a response. -/
inductive Body where
  /-- `{ error: msg }` with a message written in the handler. -/
  | error (msg : String)
  /-- `{ error: err.message }` produced by a `catch` block. -/
  | exception
  /-- `{ ...entry, notes: JSON.parse(entry.notes) }`. -/
  | entry (e : TimeEntry) (notes : Json)
  /-- `{ success: true, entryId, updatedDay, notes }`. -/
  | noteUpdated (entryId : Int) (updatedDay : String) (notes : Json)
  /-- `{ success: true, message, entry }`. -/
  | timesheet (e : TimeEntry) (notes : Json)
  /-- `{ id, username, role }` of a registered user. -/
  | user (id : Int) (username : String) (role : String)
  /-- Created schedule with its owner. -/
  | schedule (s : Schedule) (owner : Option User)
  /-- `{ success: true }`. -/
  | success
  /-- Array of time entries with parsed notes. -/
  | entries (rows : List ListedEntry)
  /-- Array of schedules. -/
  | schedules (rows : List ListedSchedule)
  /-- `{ user, schedules }`. -/
  | userSchedules (user : UserRef) (schedules : List ScheduleInfo)
  /-- `{ token, user: { id, username, role } }`. -/
  | login (token : String) (id : Int) (username : String) (role : String)

/-- HTTP response: status code and payload. -/
structure Response where
  status : Nat
  body : Body

/-- `res.status(500).json({ error: err.message })`. -/
def internalError : Response := ⟨500, .exception⟩

/-- The `error` message of a response written by a handler, if it has one. -/
def Response.errorMessage (r : Response) : Option String :=
  match r.body with
  | .error msg => some msg
  | _ => none

/-! ## Store queries and writes (Prisma client calls) -/

/-- `prisma.user.findUnique({ where: { username } })`. -/
def findUserByName (st : Store) (username : String) : Option User :=
  st.users.find? (fun u => decide (u.username = username))

/-- `prisma.schedule.findUnique({ where: { id } })`. -/
def findSchedule (st : Store) (id : Int) : Option Schedule :=
  st.schedules.find? (fun s => decide (s.id = id))

/-- `prisma.timeEntry.findUnique({ where: { id } })`. -/
def findEntry (st : Store) (id : Int) : Option TimeEntry :=
  st.entries.find? (fun e => decide (e.id = id))

/-- `prisma.timeEntry.update({ where: { id }, data })` with `data` given as the row
transformation it denotes. -/
def updateEntry (st : Store) (id : Int) (f : TimeEntry → TimeEntry) : Store :=
  { st with entries := st.entries.map (fun e => if e.id = id then f e else e) }

/-- The test of the unique key `scheduleId_weekEnding`. -/
def hasKey (sid w : Int) (e : TimeEntry) : Bool :=
  decide (e.scheduleId = sid) && decide (e.weekEnding = w)

/-- `prisma.timeEntry.upsert({ where: { scheduleId_weekEnding }, update, create })`:
the row with the key is updated in place, and when there is none the `create` row is
inserted under a fresh id.  Returns the new store and the written row. -/
def upsertEntry (st : Store) (sid w : Int) (update : TimeEntry → TimeEntry)
    (create : TimeEntry) : Store × TimeEntry :=
  match st.entries.find? (hasKey sid w) with
  | some e =>
    ({ st with entries := st.entries.map (fun x => if hasKey sid w x then update x else x) },
      update e)
  | none =>
    ({ st with entries := st.entries ++ [create], nextEntryId := st.nextEntryId + 1 },
      create)

/-- `JSON.parse(entry.notes)`; `none` when it throws. -/
def parseNotes (env : JsEnv) : NotesCol → Option Json
  | .json v => some v
  | .text s => env.jsonParse s

/-- `JSON.parse(entry.notes || '{}')`: the empty string is falsy. -/
def parseNotesOrEmpty (env : JsEnv) : NotesCol → Option Json
  | .json v => some v
  | .text s => if s = "" then some (.obj []) else env.jsonParse s

/-- The literal `'{"mon":"","tue":"","wed":"","thu":"","fri":"","sat":"","sun":""}'`,
which is the serialization of the object with the seven day keys and empty notes. -/
def defaultNotes : NotesCol :=
  .json (.obj [("mon", .str ""), ("tue", .str ""), ("wed", .str ""), ("thu", .str ""),
    ("fri", .str ""), ("sat", .str ""), ("sun", .str "")])

/-- Property read `o[k]` on a parsed JSON object (first binding of the key). -/
def lookupKey (k : String) : List (String × Json) → JsVal
  | [] => none
  | (k', v) :: rest => if k' = k then some v else lookupKey k rest

/-- Property write `o[k] = v` on a parsed JSON object: an existing key keeps its
position, a new key is added last. -/
def setKey (k : String) (v : Json) (kvs : List (String × Json)) : List (String × Json) :=
  if kvs.any (fun p => decide (p.1 = k)) then
    kvs.map (fun p => if p.1 = k then (p.1, v) else p)
  else kvs ++ [(k, v)]

/-! ## Request bodies -/

/-- Body of `POST /api/timeentries`. -/
structure EntryBody where
  scheduleId : JsVal
  weekEnding : JsVal
  mon : JsVal
  tue : JsVal
  wed : JsVal
  thu : JsVal
  fri : JsVal
  sat : JsVal
  sun : JsVal
  notes : JsVal

/-- Body of `PATCH /api/timeentries/:id/hours`. -/
structure HoursBody where
  mon : JsVal
  tue : JsVal
  wed : JsVal
  thu : JsVal
  fri : JsVal
  sat : JsVal
  sun : JsVal

/-- Body of `PATCH /api/timeentries/:id/notes/day`. -/
structure DayNoteBody where
  day : JsVal
  text : JsVal
  mode : JsVal

/-- Body of `PATCH /api/external/update-note`. -/
structure ExternalNoteBody where
  entryId : JsVal
  day : JsVal
  text : JsVal
  mode : JsVal

/-- Body of `POST /api/external/submit-timesheet`. -/
structure TimesheetBody where
  username : JsVal
  scheduleId : JsVal
  weekEnding : JsVal
  mon : JsVal
  tue : JsVal
  wed : JsVal
  thu : JsVal
  fri : JsVal
  sat : JsVal
  sun : JsVal
  notes : JsVal

/-- Body of `POST /api/auth/register`. -/
structure RegisterBody where
  username : JsVal
  password : JsVal
  role : JsVal

/-- Body of `POST /api/schedules`. -/
structure ScheduleBody where
  userId : JsVal
  projectTitle : JsVal

/-! ## Helpers shared by the handlers -/

/-- `JSON.stringify(x)` of a JSON value, as a notes column. -/
def jsonStringify (x : JsVal) : Option NotesCol :=
  x.map NotesCol.json

/-- Value handed to a string column: the store accepts strings and rejects every
other type with a validation error (`none`). -/
def stringColumn : JsVal → Option String
  | some (.str s) => some s
  | _ => none

/-- `typeof notes === 'object' ? JSON.stringify(notes) : (notes || DEFAULT)` of
`POST /api/timeentries`; `none` when the result is no string. -/
def saveNotesStr (notes : JsVal) : Option NotesCol :=
  if isObjectType notes then jsonStringify notes
  else if truthy notes then (stringColumn notes).map NotesCol.text
  else some defaultNotes

/-- `notes ? (typeof notes === 'object' ? JSON.stringify(notes) : notes) : DEFAULT`
of `POST /api/external/submit-timesheet`; `none` when the result is no string. -/
def timesheetNotesStr (notes : JsVal) : Option NotesCol :=
  if truthy notes then
    (if isObjectType notes then jsonStringify notes
     else (stringColumn notes).map NotesCol.text)
  else some defaultNotes

/-- `data: { notes: typeof notes === 'object' ? JSON.stringify(notes) : notes }` of
`PATCH /api/timeentries/:id/notes`, as a row transformation: an `undefined` field
leaves the column alone, and `none` is a value the store rejects. -/
def patchNotesData (notes : JsVal) : Option (TimeEntry → TimeEntry) :=
  if isObjectType notes then
    (jsonStringify notes).map (fun c e => { e with notes := c })
  else
    match notes with
    | none => some (fun e => e)
    | some (.str s) => some (fun e => { e with notes := .text s })
    | _ => none

/-- The seven assignments `mon: parseFloat(mon) || 0, …` of an upsert. -/
def setHours (env : JsEnv) (mon tue wed thu fri sat sun : JsVal) (e : TimeEntry) :
    TimeEntry :=
  { e with
    mon := hoursOf env mon, tue := hoursOf env tue, wed := hoursOf env wed,
    thu := hoursOf env thu, fri := hoursOf env fri, sat := hoursOf env sat,
    sun := hoursOf env sun }

/-- The `update` object of `PATCH /api/timeentries/:id/hours` as a row
transformation: only the supplied days are assigned. -/
def patchHours (env : JsEnv) (b : HoursBody) (e : TimeEntry) : TimeEntry :=
  { e with
    mon := if b.mon.isSome then hoursOf env b.mon else e.mon,
    tue := if b.tue.isSome then hoursOf env b.tue else e.tue,
    wed := if b.wed.isSome then hoursOf env b.wed else e.wed,
    thu := if b.thu.isSome then hoursOf env b.thu else e.thu,
    fri := if b.fri.isSome then hoursOf env b.fri else e.fri,
    sat := if b.sat.isSome then hoursOf env b.sat else e.sat,
    sun := if b.sun.isSome then hoursOf env b.sun else e.sun }

/-- `Object.keys(update).length === 0`: no day field was supplied. -/
def noHoursSupplied (b : HoursBody) : Bool :=
  !(b.mon.isSome || b.tue.isSome || b.wed.isSome || b.thu.isSome || b.fri.isSome ||
    b.sat.isSome || b.sun.isSome)

/-- Outcome of the ownership test on an entry fetched with `include: { schedule }`. -/
inductive Access where
  | granted
  | forbidden
  | fault

/-- `req.user.role !== 'ADMIN' && entry.schedule.userId !== req.user.id`.
Reading `entry.schedule.userId` of an entry without schedule throws (`fault`); the
read is skipped for an admin. -/
def checkOwner (st : Store) (user : Identity) (entry : TimeEntry) : Access :=
  if user.role ≠ "ADMIN" then
    match findSchedule st entry.scheduleId with
    | none => .fault
    | some schedule => if schedule.userId ≠ user.id then .forbidden else .granted
  else .granted

/-- The test `mode === 'append'`. -/
def isAppend : JsVal → Bool
  | some (.str s) => decide (s = "append")
  | _ => false

/-- The day-note assignment on the parsed notes, followed by `JSON.stringify`:
```
if (mode === 'append') currentNotes[dayKey] = currentNotes[dayKey] ? `…\n…` : text;
else currentNotes[dayKey] = text;
```
`none` when it throws (`currentNotes` is `null`).  A property set on an array is not
serialized, and a property set on a primitive is dropped. -/
def applyDayNote (env : JsEnv) (currentNotes : Json) (dayKey : String) (text : Json)
    (mode : JsVal) : Option Json :=
  match currentNotes with
  | .null => none
  | .obj kvs =>
    if isAppend mode then
      match lookupKey dayKey kvs with
      | some old =>
        if truthy (some old) then
          some (.obj (setKey dayKey
            (.str (jsToString env old ++ "\n" ++ jsToString env text)) kvs))
        else some (.obj (setKey dayKey text kvs))
      | none => some (.obj (setKey dayKey text kvs))
    else some (.obj (setKey dayKey text kvs))
  | v => some v

/-! ## Handlers of the time-entry routes -/

/-- `POST /api/timeentries`: create or update a time entry (upsert by
`scheduleId` and `weekEnding`). -/
def saveEntry (env : JsEnv) (now : Nat) (user : Identity) (body : EntryBody)
    (st : Store) : Store × Response :=
  if !truthy body.scheduleId || !truthy body.weekEnding then
    (st, ⟨400, .error "scheduleId and weekEnding required"⟩)
  else
    match body.scheduleId.bind env.parseInt with
    | none => (st, internalError)
    | some sid =>
      match findSchedule st sid with
      | none => (st, ⟨404, .error "Schedule not found"⟩)
      | some schedule =>
        if user.role ≠ "ADMIN" ∧ schedule.userId ≠ user.id then
          (st, ⟨403, .error "Not authorized"⟩)
        else
          match body.weekEnding.bind env.newDate, saveNotesStr body.notes with
          | some weekEndingDate, some notesStr =>
            let update := fun (e : TimeEntry) =>
              { setHours env body.mon body.tue body.wed body.thu body.fri body.sat
                  body.sun e with notes := notesStr }
            let create : TimeEntry :=
              { id := st.nextEntryId, scheduleId := sid, weekEnding := weekEndingDate,
                mon := hoursOf env body.mon, tue := hoursOf env body.tue,
                wed := hoursOf env body.wed, thu := hoursOf env body.thu,
                fri := hoursOf env body.fri, sat := hoursOf env body.sat,
                sun := hoursOf env body.sun, notes := notesStr,
                isSubmitted := false, createdAt := now }
            let written := upsertEntry st sid weekEndingDate update create
            match parseNotes env written.2.notes with
            | some notes => (written.1, ⟨200, .entry written.2 notes⟩)
            | none => (written.1, internalError)
          | _, _ => (st, internalError)

/-- `PATCH /api/timeentries/:id/submit`: submit a time entry. -/
def submitEntry (env : JsEnv) (user : Identity) (id : String) (st : Store) :
    Store × Response :=
  match env.parseInt (.str id) with
  | none => (st, internalError)
  | some eid =>
    match findEntry st eid with
    | none => (st, ⟨404, .error "Time entry not found"⟩)
    | some entry =>
      match checkOwner st user entry with
      | .fault => (st, internalError)
      | .forbidden => (st, ⟨403, .error "Not authorized"⟩)
      | .granted =>
        let data := fun (e : TimeEntry) => { e with isSubmitted := true }
        let st1 := updateEntry st eid data
        match parseNotes env (data entry).notes with
        | some notes => (st1, ⟨200, .entry (data entry) notes⟩)
        | none => (st1, internalError)

/-- `PATCH /api/timeentries/:id/notes`: update the notes of an entry. -/
def updateNotes (env : JsEnv) (user : Identity) (id : String) (notes : JsVal)
    (st : Store) : Store × Response :=
  match env.parseInt (.str id) with
  | none => (st, internalError)
  | some eid =>
    match findEntry st eid with
    | none => (st, ⟨404, .error "Time entry not found"⟩)
    | some entry =>
      match checkOwner st user entry with
      | .fault => (st, internalError)
      | .forbidden => (st, ⟨403, .error "Not authorized"⟩)
      | .granted =>
        if entry.isSubmitted then (st, ⟨400, .error "Cannot edit a submitted entry"⟩)
        else
          match patchNotesData notes with
          | none => (st, internalError)
          | some data =>
            let st1 := updateEntry st eid data
            match parseNotes env (data entry).notes with
            | some parsed => (st1, ⟨200, .entry (data entry) parsed⟩)
            | none => (st1, internalError)

/-- `PATCH /api/timeentries/:id/hours`: update hours only, for an existing entry. -/
def updateHours (env : JsEnv) (user : Identity) (id : String) (body : HoursBody)
    (st : Store) : Store × Response :=
  match env.parseInt (.str id) with
  | none => (st, internalError)
  | some eid =>
    match findEntry st eid with
    | none => (st, ⟨404, .error "Time entry not found"⟩)
    | some entry =>
      match checkOwner st user entry with
      | .fault => (st, internalError)
      | .forbidden => (st, ⟨403, .error "Not authorized"⟩)
      | .granted =>
        if entry.isSubmitted then (st, ⟨400, .error "Cannot edit a submitted entry"⟩)
        else if noHoursSupplied body then
          (st, ⟨400, .error "At least one day field (mon–sun) is required"⟩)
        else
          let st1 := updateEntry st eid (patchHours env body)
          match parseNotes env (patchHours env body entry).notes with
          | some notes => (st1, ⟨200, .entry (patchHours env body entry) notes⟩)
          | none => (st1, internalError)

/-- `PATCH /api/timeentries/:id/notes/day`: update a single day's note. -/
def updateDayNote (env : JsEnv) (user : Identity) (id : String) (body : DayNoteBody)
    (st : Store) : Store × Response :=
  if !truthy body.day || body.text.isNone then
    (st, ⟨400, .error "\"day\" and \"text\" are required"⟩)
  else
    match body.day, body.text with
    | some (.str day), some text =>
      let dayKey := dayKeyOf day
      if !validDays.contains dayKey then
        (st, ⟨400, .error ("Invalid day \"" ++ day ++
          "\". Use: mon, tue, wed, thu, fri, sat, sun")⟩)
      else
        match env.parseInt (.str id) with
        | none => (st, internalError)
        | some eid =>
          match findEntry st eid with
          | none => (st, ⟨404, .error "Time entry not found"⟩)
          | some entry =>
            match checkOwner st user entry with
            | .fault => (st, internalError)
            | .forbidden => (st, ⟨403, .error "Not authorized"⟩)
            | .granted =>
              if entry.isSubmitted then
                (st, ⟨400, .error "Cannot edit a submitted entry"⟩)
              else
                match (parseNotesOrEmpty env entry.notes).bind
                    (fun cur => applyDayNote env cur dayKey text body.mode) with
                | none => (st, internalError)
                | some currentNotes =>
                  let data := fun (e : TimeEntry) =>
                    { e with notes := NotesCol.json currentNotes }
                  (updateEntry st eid data, ⟨200, .entry (data entry) currentNotes⟩)
    | _, _ => (st, internalError)

/-! ## Handlers of the external routes (behind `authenticateApiKey`) -/

/-- `PATCH /api/external/update-note`. -/
def externalUpdateNote (env : JsEnv) (body : ExternalNoteBody) (st : Store) :
    Store × Response :=
  if !truthy body.entryId || !truthy body.day || body.text.isNone then
    (st, ⟨400, .error "entryId, day, and text are required"⟩)
  else
    match body.day, body.text with
    | some (.str day), some text =>
      let dayKey := dayKeyOf day
      if !validDays.contains dayKey then
        (st, ⟨400, .error ("Invalid day: " ++ day ++
          ". Use: monday, tuesday, wednesday, thursday, friday, saturday, sunday")⟩)
      else
        match body.entryId.bind env.parseInt with
        | none => (st, internalError)
        | some eid =>
          match findEntry st eid with
          | none => (st, ⟨404, .error "Time entry not found"⟩)
          | some entry =>
            if entry.isSubmitted then
              (st, ⟨400, .error "Cannot update a submitted entry"⟩)
            else
              match (parseNotesOrEmpty env entry.notes).bind
                  (fun cur => applyDayNote env cur dayKey text body.mode) with
              | none => (st, internalError)
              | some currentNotes =>
                let data := fun (e : TimeEntry) =>
                  { e with notes := NotesCol.json currentNotes }
                (updateEntry st eid data,
                  ⟨200, .noteUpdated (data entry).id dayKey currentNotes⟩)
    | _, _ => (st, internalError)

/-- `POST /api/external/submit-timesheet`. -/
def externalSubmitTimesheet (env : JsEnv) (now : Nat) (body : TimesheetBody)
    (st : Store) : Store × Response :=
  if !truthy body.username || !truthy body.scheduleId || !truthy body.weekEnding then
    (st, ⟨400, .error "username, scheduleId, and weekEnding are required"⟩)
  else
    match stringColumn body.username with
    | none => (st, internalError)
    | some username =>
      match findUserByName st username with
      | none => (st, ⟨404, .error ("User \x27" ++ username ++ "\x27 not found")⟩)
      | some user =>
        match body.scheduleId.bind env.parseInt with
        | none => (st, internalError)
        | some sid =>
          match st.schedules.find?
              (fun s => decide (s.id = sid) && decide (s.userId = user.id)) with
          | none => (st, ⟨404, .error "Schedule not found for this user"⟩)
          | some _ =>
            match body.weekEnding.bind env.newDate, timesheetNotesStr body.notes with
            | some weekEndingDate, some notesStr =>
              let update := fun (e : TimeEntry) =>
                { setHours env body.mon body.tue body.wed body.thu body.fri body.sat
                    body.sun e with notes := notesStr, isSubmitted := true }
              let create : TimeEntry :=
                { id := st.nextEntryId, scheduleId := sid, weekEnding := weekEndingDate,
                  mon := hoursOf env body.mon, tue := hoursOf env body.tue,
                  wed := hoursOf env body.wed, thu := hoursOf env body.thu,
                  fri := hoursOf env body.fri, sat := hoursOf env body.sat,
                  sun := hoursOf env body.sun, notes := notesStr,
                  isSubmitted := true, createdAt := now }
              let written := upsertEntry st sid weekEndingDate update create
              match parseNotes env written.2.notes with
              | some notes => (written.1, ⟨200, .timesheet written.2 notes⟩)
              | none => (written.1, internalError)
            | _, _ => (st, internalError)

/-! ## Handlers of the admin routes (behind `requireAdmin`) -/

/-- `POST /api/auth/register`. -/
def register (env : JsEnv) (now : Nat) (user : Identity) (body : RegisterBody)
    (st : Store) : Store × Response :=
  if user.role ≠ "ADMIN" then (st, ⟨403, .error "Admin access required"⟩)
  else if !truthy body.username || !truthy body.password then
    (st, ⟨400, .error "Username and password required"⟩)
  else
    match stringColumn body.password, stringColumn body.username,
        (if truthy body.role then stringColumn body.role else some "USER") with
    | some password, some username, some role =>
      if !env.validRole role then (st, internalError)
      else if (findUserByName st username).isSome then
        (st, ⟨409, .error "Username already exists"⟩)
      else
        let created : User :=
          { id := st.nextUserId, username := username, password := env.hash password,
            role := role, createdAt := now }
        ({ st with users := st.users ++ [created], nextUserId := st.nextUserId + 1 },
          ⟨201, .user created.id created.username created.role⟩)
    | _, _, _ => (st, internalError)

/-- `POST /api/schedules`: create a schedule (admin only). -/
def createSchedule (env : JsEnv) (now : Nat) (user : Identity) (body : ScheduleBody)
    (st : Store) : Store × Response :=
  if user.role ≠ "ADMIN" then (st, ⟨403, .error "Admin access required"⟩)
  else if !truthy body.userId || !truthy body.projectTitle then
    (st, ⟨400, .error "userId and projectTitle required"⟩)
  else
    match body.userId.bind env.parseInt, stringColumn body.projectTitle with
    | some userId, some projectTitle =>
      match st.users.find? (fun u => decide (u.id = userId)) with
      | none => (st, internalError)
      | some owner =>
        let created : Schedule :=
          { id := st.nextScheduleId, userId := userId, projectTitle := projectTitle,
            isAssigned := true, createdAt := now }
        ({ st with schedules := st.schedules ++ [created],
                   nextScheduleId := st.nextScheduleId + 1 },
          ⟨201, .schedule created (some owner)⟩)
    | _, _ => (st, internalError)

/-- Modelled from the spec: what the store does with the time entries of a deleted
schedule is declared in the schema (`prisma/schema.prisma`), which is not among the
sources.  Following the spec, deleting the schedule of id `sid` removes it and cascades
to all time entries that reference it. -/
def cascadeDelete (st : Store) (sid : Int) : Store :=
  { st with
    schedules := st.schedules.filter (fun s => !decide (s.id = sid)),
    entries := st.entries.filter (fun e => !decide (e.scheduleId = sid)) }

/-- `DELETE /api/schedules/:id`: delete a schedule (admin only).  `schedule.delete`
throws when no row has the id. -/
def deleteSchedule (env : JsEnv) (user : Identity) (id : String) (st : Store) :
    Store × Response :=
  if user.role ≠ "ADMIN" then (st, ⟨403, .error "Admin access required"⟩)
  else
    match env.parseInt (.str id) with
    | none => (st, internalError)
    | some sid =>
      match findSchedule st sid with
      | none => (st, internalError)
      | some _ => (cascadeDelete st sid, ⟨200, .success⟩)

/-- The `saveEntry` body with the `scheduleId`, `weekEnding`, hours and notes of a
`submit-timesheet` body. -/
def TimesheetBody.toEntryBody (b : TimesheetBody) : EntryBody :=
  { scheduleId := b.scheduleId, weekEnding := b.weekEnding, mon := b.mon, tue := b.tue,
    wed := b.wed, thu := b.thu, fri := b.fri, sat := b.sat, sun := b.sun,
    notes := b.notes }

/-- The identity a token issued to a user carries. -/
def User.identity (u : User) : Identity :=
  { id := u.id, username := u.username, role := u.role }

/-! ## Handlers of the read routes -/

/-- Body of `POST /api/auth/login`. -/
structure LoginBody where
  username : JsVal
  password : JsVal

/-- The order `a` before `b` of `orderBy: { createdAt: 'desc' }`. -/
def NewerFirst {α : Type} (createdAt : α → Nat) (a b : α) : Prop :=
  createdAt b ≤ createdAt a

instance {α : Type} (createdAt : α → Nat) : DecidableRel (NewerFirst createdAt) :=
  fun a b => inferInstanceAs (Decidable (createdAt b ≤ createdAt a))

instance {α : Type} (createdAt : α → Nat) : IsTotal α (NewerFirst createdAt) :=
  ⟨fun a b => Nat.le_total (createdAt b) (createdAt a)⟩

instance {α : Type} (createdAt : α → Nat) : IsTrans α (NewerFirst createdAt) :=
  ⟨fun _ _ _ hab hbc => Nat.le_trans hbc hab⟩

/-- `orderBy: { createdAt: 'desc' }`: newest first.  Rows created at the same time,
whose order the database leaves open, stay in table order. -/
def orderByCreatedAtDesc {α : Type} (createdAt : α → Nat) (rows : List α) : List α :=
  rows.insertionSort (NewerFirst createdAt)

/-- `rows.map(f)` for an `f` that may throw: `none` as soon as one call throws. -/
def mapAll {α β : Type} (f : α → Option β) : List α → Option (List β)
  | [] => some []
  | a :: rest =>
    match f a, mapAll f rest with
    | some b, some bs => some (b :: bs)
    | _, _ => none

/-- `include: { user: { select: { id: true, username: true } } }` for a schedule. -/
def scheduleUser (st : Store) (s : Schedule) : Option UserRef :=
  (st.users.find? (fun u => decide (u.id = s.userId))).map
    (fun u => { id := u.id, username := u.username })

/-- The `where` object built by `GET /api/timeentries`, as a test on rows; `none` when
the store rejects it.  For a caller who is no admin the assignment
`where.scheduleId = { in: userScheduleIds }` replaces the `scheduleId` set from the
query. -/
def entriesWhere (env : JsEnv) (user : Identity) (scheduleId weekEnding : JsVal)
    (st : Store) : Option (TimeEntry → Bool) :=
  let bySchedule : Option (TimeEntry → Bool) :=
    if user.role ≠ "ADMIN" then
      let userScheduleIds :=
        (st.schedules.filter (fun s => decide (s.userId = user.id))).map (fun s => s.id)
      some (fun e => userScheduleIds.contains e.scheduleId)
    else if truthy scheduleId then
      (scheduleId.bind env.parseInt).map (fun sid e => decide (e.scheduleId = sid))
    else some (fun _ => true)
  let byWeek : Option (TimeEntry → Bool) :=
    if truthy weekEnding then
      (weekEnding.bind env.newDate).map (fun w e => decide (e.weekEnding = w))
    else some (fun _ => true)
  match bySchedule, byWeek with
  | some p, some q => some (fun e => p e && q e)
  | _, _ => none

/-- `GET /api/timeentries`: time entries, for the schedules of the caller unless the
caller is an admin. -/
def listEntries (env : JsEnv) (user : Identity) (scheduleId weekEnding : JsVal)
    (st : Store) : Response :=
  match entriesWhere env user scheduleId weekEnding st with
  | none => internalError
  | some p =>
    let entries := orderByCreatedAtDesc (fun e : TimeEntry => e.createdAt)
      (st.entries.filter p)
    match mapAll (fun e => (parseNotesOrEmpty env e.notes).map (fun notes =>
        ({ entry := e, schedule := findSchedule st e.scheduleId,
           user := (findSchedule st e.scheduleId).bind (scheduleUser st),
           notes := notes } : ListedEntry))) entries with
    | some parsed => ⟨200, .entries parsed⟩
    | none => internalError

/-- `GET /api/schedules`: admin sees all, user sees their own. -/
def listSchedules (user : Identity) (st : Store) : Response :=
  let schedules := orderByCreatedAtDesc (fun s : Schedule => s.createdAt)
    (st.schedules.filter (fun s =>
      if user.role = "ADMIN" then true else decide (s.userId = user.id)))
  ⟨200, .schedules (schedules.map (fun s => { schedule := s, user := scheduleUser st s }))⟩

/-- `GET /api/users/:userId/schedules`: schedules of a user (an admin can query any
user, a user only themselves). -/
def listForUser (env : JsEnv) (user : Identity) (userId : String) (st : Store) :
    Response :=
  let targetId := env.parseInt (.str userId)
  if user.role ≠ "ADMIN" ∧ some user.id ≠ targetId then
    ⟨403, .error "Not authorized to view another user\x27s schedules"⟩
  else
    match targetId with
    | none => internalError
    | some tid =>
      match st.users.find? (fun u => decide (u.id = tid)) with
      | none => ⟨404, .error ("User with id " ++ toString tid ++ " not found")⟩
      | some u =>
        let schedules := orderByCreatedAtDesc (fun s : Schedule => s.createdAt)
          (st.schedules.filter (fun s => decide (s.userId = tid)))
        ⟨200, .userSchedules { id := u.id, username := u.username }
          (schedules.map (fun s =>
            { id := s.id, projectTitle := s.projectTitle, isAssigned := s.isAssigned,
              createdAt := s.createdAt }))⟩

/-- `POST /api/auth/login`.  The user lookup rejects a `username` that is no string and
`bcrypt.compare` throws on a `password` that is no string. -/
def login (env : JsEnv) (body : LoginBody) (st : Store) : Response :=
  if !truthy body.username || !truthy body.password then
    ⟨400, .error "Username and password required"⟩
  else
    match stringColumn body.username with
    | none => internalError
    | some username =>
      match findUserByName st username with
      | none => ⟨401, .error "Invalid credentials"⟩
      | some user =>
        match stringColumn body.password with
        | none => internalError
        | some password =>
          if !env.compare password user.password then
            ⟨401, .error "Invalid credentials"⟩
          else
            ⟨200, .login (env.sign user.id user.username user.role) user.id user.username
              user.role⟩

/-! ## Authentication middleware -/

/-- `s.split(' ')` on the characters of a string: the pieces between single spaces. -/
def splitSpace : List Char → List (List Char)
  | [] => [[]]
  | c :: cs =>
    if c = Char.ofNat 32 then [] :: splitSpace cs
    else
      match splitSpace cs with
      | [] => [[c]]
      | w :: ws => (c :: w) :: ws

/-- `authHeader && authHeader.split(' ')[1]` for the `authorization` header of a
request (`none` when the header is absent): the second piece of the header, `none`
when there is none, and the header itself when it is the empty string. -/
def bearerToken (authHeader : Option String) : Option String :=
  match authHeader with
  | none => none
  | some h => if h = "" then some "" else ((splitSpace h.data)[1]?).map String.mk

/-- `authenticateToken`: the response that ends the request, or the identity
`req.user` with which the next handler of the route is called. -/
def authenticateToken (env : JsEnv) (authHeader : Option String) :
    Except Response Identity :=
  match bearerToken authHeader with
  | none => .error ⟨401, .error "Access token required"⟩
  | some token =>
    if token = "" then .error ⟨401, .error "Access token required"⟩
    else
      match env.verify token with
      | none => .error ⟨403, .error "Invalid or expired token"⟩
      | some (id, username, role) => .ok { id := id, username := username, role := role }

/-- A route `app.METHOD(path, authenticateToken, handler)`: the handler runs, with the
identity of the token, only when the middleware calls `next()`. -/
def withToken (env : JsEnv) (authHeader : Option String)
    (handler : Identity → Store → Store × Response) (st : Store) : Store × Response :=
  match authenticateToken env authHeader with
  | .error r => (st, r)
  | .ok user => handler user st

/-! ## The client (`public/app.js`) -/

/-- `s.replace(/c/g, r)` for a single character `c`, on the characters of a string:
every occurrence of `c` is replaced by `r`. -/
def replaceAll (c : Char) (r : String) (s : List Char) : List Char :=
  s.flatMap (fun x => if x = c then r.data else [x])

/-- `escHtml(str)` for a string: the four replacements, in the order of the source. -/
def escHtml (str : String) : String :=
  String.mk
    (replaceAll (Char.ofNat 34) "&quot;"
      (replaceAll (Char.ofNat 62) "&gt;"
        (replaceAll (Char.ofNat 60) "&lt;"
          (replaceAll (Char.ofNat 38) "&amp;" str.data))))

/-- Reading the characters left to right, replaces each of the entities `&amp;`,
`&lt;`, `&gt;` and `&quot;` by its character. -/
def unescChars : List Char → List Char
  | '&' :: 'a' :: 'm' :: 'p' :: ';' :: rest => Char.ofNat 38 :: unescChars rest
  | '&' :: 'l' :: 't' :: ';' :: rest => Char.ofNat 60 :: unescChars rest
  | '&' :: 'g' :: 't' :: ';' :: rest => Char.ofNat 62 :: unescChars rest
  | '&' :: 'q' :: 'u' :: 'o' :: 't' :: ';' :: rest => Char.ofNat 34 :: unescChars rest
  | c :: rest => c :: unescChars rest
  | [] => []

/-- The inverse reading of `escHtml` on strings. -/
def unescHtml (s : String) : String :=
  String.mk (unescChars s.data)

/-- What `escHtml` writes for one character. -/
def escChar (c : Char) : List Char :=
  if c = Char.ofNat 38 then "&amp;".data
  else if c = Char.ofNat 60 then "&lt;".data
  else if c = Char.ofNat 62 then "&gt;".data
  else if c = Char.ofNat 34 then "&quot;".data
  else [c]

/-- A row of the time-entry table (`state.entryRows[i]`); `entryId` is `null` until the
row has been saved. -/
structure EntryRow where
  scheduleId : JsVal
  entryId : Option Int
  mon : JsVal
  tue : JsVal
  wed : JsVal
  thu : JsVal
  fri : JsVal
  sat : JsVal
  sun : JsVal
  notes : JsVal
  isSubmitted : Bool

/-- The part of the client `state` that `saveTimeEntries` reads and writes. -/
structure ClientState where
  token : Option String
  weekEnding : JsVal
  entryRows : List EntryRow
  currentEntryId : Option Int
  isSubmitted : Bool

/-- A request sent by `saveTimeEntries`. -/
inductive Request where
  /-- `POST /api/timeentries` with the given body. -/
  | saveEntry (body : EntryBody)
  /-- `PATCH /api/timeentries/:id/submit`. -/
  | submitEntry (id : String)

/-- The `Authorization` header set by `api`: `Bearer <token>` when `state.token` is
truthy. -/
def authorization (token : Option String) : Option String :=
  match token with
  | none => none
  | some t => if t = "" then none else some ("Bearer " ++ t)

/-- The server side of a request of the client: the route behind `authenticateToken`,
served at time `now`. -/
def serve (env : JsEnv) (now : Nat) (authHeader : Option String) (req : Request)
    (st : Store) : Store × Response :=
  match req with
  | .saveEntry body => withToken env authHeader (fun user => saveEntry env now user body) st
  | .submitEntry id => withToken env authHeader (fun user => submitEntry env user id) st

/-- Serving a list of requests one after the other: the final store and the
responses. -/
def replay (env : JsEnv) (now : Nat) (authHeader : Option String) :
    List Request → Store → Store × List Response
  | [], st => (st, [])
  | q :: qs, st =>
    ((replay env now authHeader qs (serve env now authHeader q st).1).1,
      (serve env now authHeader q st).2 ::
        (replay env now authHeader qs (serve env now authHeader q st).1).2)

/-- `res.ok`: the status is in the range 200–299; `api` throws when it is not. -/
def Response.ok (r : Response) : Bool :=
  decide (200 ≤ r.status) && decide (r.status ≤ 299)

/-- `saved.id` of a parsed response body. -/
def Body.id : Body → Option Int
  | .entry e _ => some e.id
  | _ => none

/-- The template text of `saved.id` in the path of the submit request. -/
def idText : Option Int → String
  | some i => toString i
  | none => "undefined"

/-- The body of the save request for a row. -/
def EntryRow.body (weekEnding : JsVal) (row : EntryRow) : EntryBody :=
  { scheduleId := row.scheduleId, weekEnding := weekEnding,
    mon := row.mon, tue := row.tue, wed := row.wed, thu := row.thu,
    fri := row.fri, sat := row.sat, sun := row.sun, notes := row.notes }

/-- One iteration of the `for` loop of `saveTimeEntries`. -/
structure RowResult where
  /-- The store of the server after the iteration. -/
  store : Store
  /-- The row after the iteration. -/
  row : EntryRow
  /-- The requests sent for the row, in order, with their responses. -/
  log : List (Request × Response)
  /-- The response on which `api` threw, if it did. -/
  thrown : Option Response

/-- Body of the `for` loop of `saveTimeEntries` for one row: the save request, the
assignment of `entryId`, and when submitting the submit request and the assignment of
`isSubmitted`; a response that is not `ok` ends the iteration at once. -/
def saveRow (env : JsEnv) (now : Nat) (authHeader : Option String) (weekEnding : JsVal)
    (andSubmit : Bool) (row : EntryRow) (st : Store) : RowResult :=
  let saved := serve env now authHeader (.saveEntry (row.body weekEnding)) st
  if !saved.2.ok then
    { store := saved.1, row := row,
      log := [(.saveEntry (row.body weekEnding), saved.2)], thrown := some saved.2 }
  else if andSubmit then
    let submitted := serve env now authHeader (.submitEntry (idText saved.2.body.id)) saved.1
    if !submitted.2.ok then
      { store := submitted.1, row := { row with entryId := saved.2.body.id },
        log := [(.saveEntry (row.body weekEnding), saved.2),
          (.submitEntry (idText saved.2.body.id), submitted.2)],
        thrown := some submitted.2 }
    else
      { store := submitted.1,
        row := { row with entryId := saved.2.body.id, isSubmitted := true },
        log := [(.saveEntry (row.body weekEnding), saved.2),
          (.submitEntry (idText saved.2.body.id), submitted.2)],
        thrown := none }
  else
    { store := saved.1, row := { row with entryId := saved.2.body.id },
      log := [(.saveEntry (row.body weekEnding), saved.2)], thrown := none }

/-- The `for` loop of `saveTimeEntries`. -/
structure LoopResult where
  /-- The store of the server after the loop. -/
  store : Store
  /-- The rows the loop has reached, in order, each as the loop left it and with the
  requests sent for it. -/
  processed : List (EntryRow × List (Request × Response))
  /-- The rows the loop has not reached. -/
  rest : List EntryRow
  /-- The response on which `api` threw, if it did. -/
  thrown : Option Response

/-- The `for` loop of `saveTimeEntries`: the rows are processed in order, and the first
exception leaves the loop. -/
def saveLoop (env : JsEnv) (now : Nat) (authHeader : Option String) (weekEnding : JsVal)
    (andSubmit : Bool) : List EntryRow → Store → LoopResult
  | [], st => { store := st, processed := [], rest := [], thrown := none }
  | row :: rows, st =>
    match (saveRow env now authHeader weekEnding andSubmit row st).thrown with
    | some r =>
      { store := (saveRow env now authHeader weekEnding andSubmit row st).store,
        processed := [((saveRow env now authHeader weekEnding andSubmit row st).row,
          (saveRow env now authHeader weekEnding andSubmit row st).log)],
        rest := rows, thrown := some r }
    | none =>
      { store := (saveLoop env now authHeader weekEnding andSubmit rows
          (saveRow env now authHeader weekEnding andSubmit row st).store).store,
        processed :=
          ((saveRow env now authHeader weekEnding andSubmit row st).row,
            (saveRow env now authHeader weekEnding andSubmit row st).log) ::
          (saveLoop env now authHeader weekEnding andSubmit rows
            (saveRow env now authHeader weekEnding andSubmit row st).store).processed,
        rest := (saveLoop env now authHeader weekEnding andSubmit rows
          (saveRow env now authHeader weekEnding andSubmit row st).store).rest,
        thrown := (saveLoop env now authHeader weekEnding andSubmit rows
          (saveRow env now authHeader weekEnding andSubmit row st).store).thrown }

/-- The toast shown by `saveTimeEntries`. -/
inductive Toast where
  /-- `showToast(msg, 'warning')`. -/
  | warning (msg : String)
  /-- `showToast(msg)` or `showToast(msg, 'success', 5000)`. -/
  | success (msg : String)
  /-- `showToast('Failed to save: ' + err.message, 'error')` for the response on which
  `api` threw. -/
  | error (r : Response)

/-- Outcome of `saveTimeEntries`. -/
structure SaveResult where
  /-- The client state afterwards. -/
  state : ClientState
  /-- The store of the server afterwards. -/
  store : Store
  /-- For each row the loop has reached, in order, the requests sent for it with their
  responses. -/
  log : List (List (Request × Response))
  /-- The toast shown. -/
  toast : Toast

/-- `saveTimeEntries(andSubmit)` against the server with the given store, all requests
being served at time `now`; `andSubmit` is the truthiness of the argument.  The calls
run one after the other (each is awaited) and no other event handler runs in
between. -/
def saveTimeEntries (env : JsEnv) (now : Nat) (andSubmit : Bool) (state : ClientState)
    (st : Store) : SaveResult :=
  if !truthy state.weekEnding then
    { state := state, store := st, log := [],
      toast := .warning "Please select a week ending date." }
  else if state.entryRows.isEmpty then
    { state := state, store := st, log := [],
      toast := .warning "No time entry rows to save." }
  else
    let loop := saveLoop env now (authorization state.token) state.weekEnding andSubmit
      state.entryRows st
    match loop.thrown with
    | some r =>
      { state := { state with entryRows := loop.processed.map Prod.fst ++ loop.rest },
        store := loop.store, log := loop.processed.map Prod.snd, toast := .error r }
    | none =>
      { state :=
          { state with
            entryRows := loop.processed.map Prod.fst ++ loop.rest,
            isSubmitted := andSubmit || state.isSubmitted,
            currentEntryId := loop.processed.getLast?.bind (fun p => p.1.entryId) },
        store := loop.store, log := loop.processed.map Prod.snd,
        toast := .success
          (if andSubmit then "Timesheet submitted successfully! All entries are now locked."
           else "Time entries saved successfully!") }

/-! ## The API as a transition system -/

/-- Authenticated request to a route that can write to the store. -/
inductive Op where
  | register (now : Nat) (user : Identity) (body : RegisterBody)
  | createSchedule (now : Nat) (user : Identity) (body : ScheduleBody)
  | deleteSchedule (user : Identity) (id : String)
  | saveEntry (now : Nat) (user : Identity) (body : EntryBody)
  | submitEntry (user : Identity) (id : String)
  | updateNotes (user : Identity) (id : String) (notes : JsVal)
  | updateHours (user : Identity) (id : String) (body : HoursBody)
  | updateDayNote (user : Identity) (id : String) (body : DayNoteBody)
  | externalUpdateNote (body : ExternalNoteBody)
  | externalSubmitTimesheet (now : Nat) (body : TimesheetBody)

/-- One request: the handler of the route applied to the store. -/
def step (env : JsEnv) (op : Op) (st : Store) : Store × Response :=
  match op with
  | .register now user body => register env now user body st
  | .createSchedule now user body => createSchedule env now user body st
  | .deleteSchedule user id => deleteSchedule env user id st
  | .saveEntry now user body => saveEntry env now user body st
  | .submitEntry user id => submitEntry env user id st
  | .updateNotes user id notes => updateNotes env user id notes st
  | .updateHours user id body => updateHours env user id body st
  | .updateDayNote user id body => updateDayNote env user id body st
  | .externalUpdateNote body => externalUpdateNote env body st
  | .externalSubmitTimesheet now body => externalSubmitTimesheet env now body st

/-- Store after a sequence of requests, served one after the other. -/
def run (env : JsEnv) : List Op → Store → Store
  | [], st => st
  | op :: ops, st => run env ops (step env op st).1

/-- Whether an operation is a schedule deletion. -/
def Op.isDelete : Op → Bool
  | .deleteSchedule _ _ => true
  | _ => false

/-! ## A concrete environment and sample data for evaluating the handlers -/

/-- Reads an optional sign and the leading decimal digits of a character list. -/
def leadingInt (cs : List Char) : Option Int :=
  let body : List Char → Option Nat := fun ds =>
    match ds.takeWhile Char.isDigit with
    | [] => none
    | d :: rest => some ((d :: rest).foldl (fun (acc : Nat) (c : Char) => acc * 10 + (c.toNat - 48)) 0)
  match cs.dropWhile Char.isWhitespace with
  | c :: rest =>
    if c.toNat = 45 then (body rest).map (fun n : Nat => - (n : Int))
    else if c.toNat = 43 then (body rest).map (fun n : Nat => (n : Int))
    else (body (c :: rest)).map (fun n : Nat => (n : Int))
  | [] => none

/-- A concrete environment.  It agrees with JavaScript on the arguments the examples
of this file use: `parseInt` on integers and on decimal strings, `new Date` on a number
of epoch milliseconds, `JSON.parse` and `parseFloat` on text that is neither JSON nor
numeric.  Date strings, number formatting and password hashing are not interpreted;
the tokens of the three sample users verify and no other string does. -/
def demoEnv : JsEnv where
  parseInt := fun v =>
    match v with
    | .num q => if q.den = 1 then some q.num else none
    | .str s => leadingInt s.data
    | _ => none
  parseFloatStr := fun _ => none
  newDate := fun v =>
    match v with
    | .num q => if q.den = 1 then some q.num else none
    | _ => none
  jsonParse := fun _ => none
  toStr := fun _ => ""
  hash := fun p => "hash:" ++ p
  validRole := fun _ => true
  compare := fun p h => decide ("hash:" ++ p = h)
  sign := fun _ username _ => "token:" ++ username
  verify := fun t =>
    if t = "token:admin" then some (1, "admin", "ADMIN")
    else if t = "token:alice" then some (2, "alice", "USER")
    else if t = "token:bob" then some (3, "bob", "USER")
    else none

/-- Modelled from the spec: the type of the `role` column of `User` is declared in the
schema (`prisma/schema.prisma`), which is not among the sources.  Following the spec
(`role ∈ {ADMIN, USER}`), the column accepts the two values `ADMIN` and `USER` and
rejects every other string. -/
def roleColumn (r : String) : Bool :=
  decide (r = "ADMIN") || decide (r = "USER")

/-- The concrete environment with the role column of the spec. -/
def schemaEnv : JsEnv :=
  { demoEnv with validRole := roleColumn }

/-- A user with role `USER` and id 2. -/
def alice : Identity := { id := 2, username := "alice", role := "USER" }

/-- Another user with role `USER`, id 3. -/
def bob : Identity := { id := 3, username := "bob", role := "USER" }

/-- An administrator, id 1. -/
def root : Identity := { id := 1, username := "admin", role := "ADMIN" }

/-- A week's entry of schedule 1 with `mon = 8`. -/
def sampleEntry (submitted : Bool) (notes : NotesCol) : TimeEntry :=
  { id := 1, scheduleId := 1, weekEnding := 1717718400000,
    mon := 8, tue := 0, wed := 0, thu := 0, fri := 0, sat := 0, sun := 0,
    notes := notes, isSubmitted := submitted, createdAt := 0 }

/-- A store with users `admin`, `alice` and `bob`, one schedule owned by `alice`, and
the given time entries. -/
def sampleStore (entries : List TimeEntry) : Store :=
  { users := [⟨1, "admin", "hash:admin123", "ADMIN", 0⟩,
              ⟨2, "alice", "hash:user123", "USER", 0⟩,
              ⟨3, "bob", "hash:user123", "USER", 0⟩],
    schedules := [⟨1, 2, "X", true, 0⟩],
    entries := entries,
    nextUserId := 4, nextScheduleId := 2, nextEntryId := 2 }

/-- Request body of `POST /api/timeentries` with only `scheduleId`, `weekEnding`,
`mon` and `notes`. -/
def entryBody (scheduleId weekEnding mon notes : JsVal) : EntryBody :=
  { scheduleId := scheduleId, weekEnding := weekEnding, mon := mon, tue := none,
    wed := none, thu := none, fri := none, sat := none, sun := none, notes := notes }

/-- The note stored for a day: the property `d` of the parsed notes when they are an
object, and `undefined` otherwise. -/
def storedNote (env : JsEnv) (e : TimeEntry) (d : String) : JsVal :=
  match parseNotesOrEmpty env e.notes with
  | some (.obj kvs) => lookupKey d kvs
  | _ => none

/-- Notes object with the seven day keys, `mon` holding the given text. -/
def notesWithMon (a : String) : List (String × Json) :=
  [("mon", .str a), ("tue", .str ""), ("wed", .str ""), ("thu", .str ""),
    ("fri", .str ""), ("sat", .str ""), ("sun", .str "")]

/-- The sample store after its owner saved a first entry (id 2) with the given
`notes` field. -/
def storeAfterSave (notes : JsVal) : Store :=
  (saveEntry demoEnv 5 alice
    (entryBody (some (.num 1)) (some (.num 1717718400000)) (some (.num 8)) notes)
    (sampleStore [])).1

/-- A time entry of the given id and schedule for the sample week, created at the
given time, with zero hours and default notes. -/
def entryOf (id scheduleId : Int) (createdAt : Nat) : TimeEntry :=
  { id := id, scheduleId := scheduleId, weekEnding := 1717718400000,
    mon := 0, tue := 0, wed := 0, thu := 0, fri := 0, sat := 0, sun := 0,
    notes := defaultNotes, isSubmitted := false, createdAt := createdAt }

/-- A store in which `alice` owns schedules 1 and 2 and `bob` owns schedule 3, with
one time entry for each schedule. -/
def teamStore : Store :=
  { users := [⟨1, "admin", "hash:admin123", "ADMIN", 0⟩,
              ⟨2, "alice", "hash:user123", "USER", 0⟩,
              ⟨3, "bob", "hash:user123", "USER", 0⟩],
    schedules := [⟨1, 2, "X", true, 10⟩, ⟨2, 2, "Y", true, 20⟩, ⟨3, 3, "Z", true, 30⟩],
    entries := [entryOf 1 1 11, entryOf 2 2 21, entryOf 3 3 31],
    nextUserId := 4, nextScheduleId := 4, nextEntryId := 4 }

/-- A `submit-timesheet` body for `alice`, schedule 1 and the sample week with the
given `mon` and `notes`. -/
def timesheetBody (mon notes : JsVal) : TimesheetBody :=
  { username := some (.str "alice"), scheduleId := some (.num 1),
    weekEnding := some (.num 1717718400000), mon := mon, tue := none, wed := none,
    thu := none, fri := none, sat := none, sun := none, notes := notes }

/-- The `(id, scheduleId)` pairs of the time entries listed in a response. -/
def Response.listedEntries (r : Response) : List (Int × Int) :=
  match r.body with
  | .entries rows => rows.map (fun row => (row.entry.id, row.entry.scheduleId))
  | _ => []

/-- The `(id, userId, createdAt)` triples of the schedules listed in a response. -/
def Response.listedSchedules (r : Response) : List (Int × Int × Nat) :=
  match r.body with
  | .schedules rows =>
    rows.map (fun row => (row.schedule.id, row.schedule.userId, row.schedule.createdAt))
  | _ => []

/-- A row of the time-entry table for the given schedule, with `mon = 8` and empty
notes, not saved yet. -/
def sampleRow (scheduleId : ℚ) : EntryRow :=
  { scheduleId := some (.num scheduleId), entryId := none,
    mon := some (.num 8), tue := some (.num 0), wed := some (.num 0),
    thu := some (.num 0), fri := some (.num 0), sat := some (.num 0),
    sun := some (.num 0), notes := some (.obj (notesWithMon "")), isSubmitted := false }

/-- The client of `alice`, logged in, with the given week and rows. -/
def aliceClient (weekEnding : JsVal) (rows : List EntryRow) : ClientState :=
  { token := some "token:alice", weekEnding := weekEnding, entryRows := rows,
    currentEntryId := none, isSubmitted := false }

/-! ## Invariants and auxiliary notions used by the theorems -/

/-- Primary-key discipline of the `TimeEntry` table: ids are pairwise distinct and
below the id counter. -/
def EntryIdsOk (st : Store) : Prop :=
  (st.entries.map (fun e => e.id)).Nodup ∧ ∀ e ∈ st.entries, e.id < st.nextEntryId

/-- At most one time entry for each `(scheduleId, weekEnding)` pair. -/
def KeyUnique (st : Store) : Prop :=
  (st.entries.map (fun e => (e.scheduleId, e.weekEnding))).Nodup

instance (st : Store) : Decidable (EntryIdsOk st) := by
  unfold EntryIdsOk
  exact inferInstance

instance (st : Store) : Decidable (KeyUnique st) := by
  unfold KeyUnique
  exact inferInstance

/-- How one request may change the `TimeEntry` table: rows are rewritten in place by
a function that keeps id and key and never clears the submitted flag, or one row with
a fresh id and an unused key is added, or rows are removed. -/
def EntriesEvolve (st st1 : Store) : Prop :=
  (∃ f : TimeEntry → TimeEntry,
      (∀ e, (f e).id = e.id ∧ (f e).scheduleId = e.scheduleId ∧
        (f e).weekEnding = e.weekEnding ∧
        (e.isSubmitted = true → (f e).isSubmitted = true)) ∧
      st1.entries = st.entries.map f ∧ st1.nextEntryId = st.nextEntryId) ∨
  (∃ c : TimeEntry, st1.entries = st.entries ++ [c] ∧ c.id = st.nextEntryId ∧
      st1.nextEntryId = st.nextEntryId + 1 ∧
      ∀ e ∈ st.entries, ¬ (e.scheduleId = c.scheduleId ∧ e.weekEnding = c.weekEnding)) ∨
  (∃ p : TimeEntry → Bool, st1.entries = st.entries.filter p ∧
      st1.nextEntryId = st.nextEntryId)

/-- Shape of the store after a request to one of the routes that write a single entry
by id: nothing is written, or the rows with the id of a found entry are rewritten,
where that entry is a draft or the rewriting leaves submitted rows as they are. -/
def WritesById (st st1 : Store) : Prop :=
  st1 = st ∨ ∃ (eid : Int) (entry : TimeEntry) (f : TimeEntry → TimeEntry),
    findEntry st eid = some entry ∧
    (entry.isSubmitted = false ∨ ∀ x : TimeEntry, x.isSubmitted = true → f x = x) ∧
    st1 = updateEntry st eid f

/-- Referential integrity: the `scheduleId` of every time entry is the id of a schedule
of the store. -/
def RefInt (st : Store) : Prop :=
  ∀ e ∈ st.entries, ∃ s ∈ st.schedules, s.id = e.scheduleId

instance (st : Store) : Decidable (RefInt st) := by
  unfold RefInt
  exact inferInstance

/-- How a request other than a deletion may change schedules and entries: no schedule
is removed, and every entry afterwards has the `scheduleId` of an entry or the id of a
schedule from before. -/
def RefStep (st st1 : Store) : Prop :=
  (∀ s ∈ st.schedules, s ∈ st1.schedules) ∧
  ∀ e1 ∈ st1.entries,
    (∃ e ∈ st.entries, e.scheduleId = e1.scheduleId) ∨
    (∃ s ∈ st.schedules, s.id = e1.scheduleId)

/-- The unique index on `User.username`: no two users of the store share a username. -/
def UsernamesUnique (st : Store) : Prop :=
  (st.users.map (fun u => u.username)).Nodup

instance (st : Store) : Decidable (UsernamesUnique st) := by
  unfold UsernamesUnique
  exact inferInstance

/-- Whether a JSON value is a string. -/
def isStr : Json → Bool
  | .str _ => true
  | _ => false

/-- Whether the keys of an object are exactly the seven day keys, each with a string
value. -/
def sevenDayKeys (kvs : List (String × Json)) : Bool :=
  kvs.all (fun p => validDays.contains p.1 && isStr p.2) &&
    validDays.all (fun d => kvs.any (fun p => decide (p.1 = d)))

/-- Whether a persisted `notes` column is the serialization of an object whose key set
is exactly `mon`, …, `sun`, with string values. -/
def NotesShape : NotesCol → Bool
  | .json (.obj kvs) => sevenDayKeys kvs
  | _ => false

/-- Every time entry of the store has notes of the seven-day shape. -/
def NotesInv (st : Store) : Prop :=
  ∀ e ∈ st.entries, NotesShape e.notes = true

instance (st : Store) : Decidable (NotesInv st) := by
  unfold NotesInv
  exact inferInstance

/-- Whether a `notes` field of a request is absent or an object of the seven-day
shape. -/
def shapedNotes : JsVal → Bool
  | none => true
  | some (.obj kvs) => sevenDayKeys kvs
  | _ => false

/-- Whether a `text` field of a request is absent or a string. -/
def stringText : JsVal → Bool
  | none => true
  | some v => isStr v

/-- Whether the notes a request carries respect the transport format: the `notes` of
`saveEntry`, `updateNotes` and `submit-timesheet` are absent or a seven-day object, and
the `text` of the two day-note routes is a string. -/
def Op.shaped : Op → Bool
  | .saveEntry _ _ body => shapedNotes body.notes
  | .externalSubmitTimesheet _ body => shapedNotes body.notes
  | .updateNotes _ _ notes => shapedNotes notes
  | .updateDayNote _ _ body => stringText body.text
  | .externalUpdateNote body => stringText body.text
  | _ => true

/-- What the loop of `saveTimeEntries` leaves for a row whose requests were all answered
`ok`: the save request of the row and, when submitting, the submit request for the
saved id, and the row with `entryId` (and `isSubmitted`) assigned. -/
def RowDone (andSubmit : Bool) (weekEnding : JsVal) (row : EntryRow)
    (p : EntryRow × List (Request × Response)) : Prop :=
  ∃ saved : Response, saved.ok = true ∧
    if andSubmit = true then
      ∃ submitted : Response, submitted.ok = true ∧
        p.2 = [(.saveEntry (row.body weekEnding), saved),
          (.submitEntry (idText saved.body.id), submitted)] ∧
        p.1 = { row with entryId := saved.body.id, isSubmitted := true }
    else
      p.2 = [(.saveEntry (row.body weekEnding), saved)] ∧
        p.1 = { row with entryId := saved.body.id }

/-- What the loop of `saveTimeEntries` leaves for the row on which `api` threw with the
response `r`: the save request failed, or the save request was answered `ok` and the
submit request failed. -/
def RowFailed (andSubmit : Bool) (weekEnding : JsVal) (row : EntryRow)
    (p : EntryRow × List (Request × Response)) (r : Response) : Prop :=
  r.ok = false ∧
    ((p.2 = [(.saveEntry (row.body weekEnding), r)] ∧ p.1 = row) ∨
     (andSubmit = true ∧ ∃ saved : Response, saved.ok = true ∧
        p.2 = [(.saveEntry (row.body weekEnding), saved),
          (.submitEntry (idText saved.body.id), r)] ∧
        p.1 = { row with entryId := saved.body.id }))

/-- The entry of a processed row is in the store: the row holds an entry id, an entry
with that id is in the store, and when submitting the entry that the submit request
addressed is in the store and is submitted. -/
def RowKept (env : JsEnv) (andSubmit : Bool) (row : EntryRow) (st : Store) : Prop :=
  ∃ id : Int, row.entryId = some id ∧ (∃ e ∈ st.entries, e.id = id) ∧
    (andSubmit = true →
      ∃ eid : Int, env.parseInt (.str (idText (some id))) = some eid ∧
        ∃ e ∈ st.entries, e.id = eid ∧ e.isSubmitted = true)

/-- No entry is lost or unlocked between two stores: every entry of the first has an
entry of the same id in the second, submitted if it was. -/
def Keeps (st st1 : Store) : Prop :=
  ∀ e ∈ st.entries, ∃ e1 ∈ st1.entries,
    e1.id = e.id ∧ (e.isSubmitted = true → e1.isSubmitted = true)

/-- The empty store. -/
def emptyStore : Store :=
  { users := [], schedules := [], entries := [],
    nextUserId := 1, nextScheduleId := 1, nextEntryId := 1 }

/-! ## Basic lemmas on the store primitives -/

theorem findEntry_some {st : Store} {i : Int} {e : TimeEntry}
    (h : findEntry st i = some e) : e ∈ st.entries ∧ e.id = i := by
  unfold findEntry at h
  exact ⟨List.mem_of_find?_eq_some h, by simpa using List.find?_some h⟩

theorem findSchedule_some {st : Store} {i : Int} {s : Schedule}
    (h : findSchedule st i = some s) : s ∈ st.schedules ∧ s.id = i := by
  unfold findSchedule at h
  exact ⟨List.mem_of_find?_eq_some h, by simpa using List.find?_some h⟩

theorem evolve_refl (st : Store) : EntriesEvolve st st :=
  Or.inl ⟨fun e => e, fun _ => ⟨rfl, rfl, rfl, fun h => h⟩, by simp, rfl⟩

theorem evolve_of_entries_eq {st st1 : Store} (h : st1.entries = st.entries)
    (hn : st1.nextEntryId = st.nextEntryId) : EntriesEvolve st st1 :=
  Or.inl ⟨fun e => e, fun _ => ⟨rfl, rfl, rfl, fun h => h⟩, by simpa using h, hn⟩

theorem evolve_updateEntry (st : Store) (i : Int) (f : TimeEntry → TimeEntry)
    (hf : ∀ e, (f e).id = e.id ∧ (f e).scheduleId = e.scheduleId ∧
      (f e).weekEnding = e.weekEnding ∧
      (e.isSubmitted = true → (f e).isSubmitted = true)) :
    EntriesEvolve st (updateEntry st i f) := by
  refine Or.inl ⟨fun e => if e.id = i then f e else e, ?_, rfl, rfl⟩
  intro e
  by_cases h : e.id = i
  · simpa [h] using hf e
  · simp [h]

theorem evolve_upsertEntry (st : Store) (sid w : Int) (f : TimeEntry → TimeEntry)
    (c : TimeEntry)
    (hf : ∀ e, (f e).id = e.id ∧ (f e).scheduleId = e.scheduleId ∧
      (f e).weekEnding = e.weekEnding ∧
      (e.isSubmitted = true → (f e).isSubmitted = true))
    (hc : c.id = st.nextEntryId ∧ c.scheduleId = sid ∧ c.weekEnding = w) :
    EntriesEvolve st (upsertEntry st sid w f c).1 := by
  unfold upsertEntry
  split
  · refine Or.inl ⟨fun e => if hasKey sid w e then f e else e, ?_, rfl, rfl⟩
    intro e
    by_cases h : hasKey sid w e = true
    · simpa [h] using hf e
    · simp [h]
  · next hnone =>
    refine Or.inr (Or.inl ⟨c, rfl, hc.1, rfl, ?_⟩)
    intro e he hk
    have := List.find?_eq_none.mp hnone e he
    simp [hasKey, hk.1, hk.2, hc.2.1, hc.2.2] at this

/-! ## Every handler changes the entry table in one of the three ways -/

theorem setHours_keeps (env : JsEnv) (a b c d e f g : JsVal) (x : TimeEntry) :
    (setHours env a b c d e f g x).id = x.id ∧
    (setHours env a b c d e f g x).scheduleId = x.scheduleId ∧
    (setHours env a b c d e f g x).weekEnding = x.weekEnding ∧
    (setHours env a b c d e f g x).isSubmitted = x.isSubmitted ∧
    (setHours env a b c d e f g x).notes = x.notes :=
  ⟨rfl, rfl, rfl, rfl, rfl⟩

theorem patchNotesData_keeps {notes : JsVal} {data : TimeEntry → TimeEntry}
    (h : patchNotesData notes = some data) (x : TimeEntry) :
    (data x).id = x.id ∧ (data x).scheduleId = x.scheduleId ∧
    (data x).weekEnding = x.weekEnding ∧ (data x).isSubmitted = x.isSubmitted := by
  unfold patchNotesData at h
  split at h
  · cases notes with
    | none => simp [jsonStringify] at h
    | some v =>
      simp only [jsonStringify, Option.map_some', Option.some.injEq] at h
      subst h
      exact ⟨rfl, rfl, rfl, rfl⟩
  · split at h
    · simp only [Option.some.injEq] at h; subst h; exact ⟨rfl, rfl, rfl, rfl⟩
    · simp only [Option.some.injEq] at h; subst h; exact ⟨rfl, rfl, rfl, rfl⟩
    · simp at h

theorem evolve_patchNotes (st : Store) (i : Int) {notes : JsVal}
    {data : TimeEntry → TimeEntry} (hd : patchNotesData notes = some data) :
    EntriesEvolve st (updateEntry st i data) :=
  evolve_updateEntry st i data (fun e =>
    ⟨(patchNotesData_keeps hd e).1, (patchNotesData_keeps hd e).2.1,
      (patchNotesData_keeps hd e).2.2.1,
      fun h => by rw [(patchNotesData_keeps hd e).2.2.2]; exact h⟩)

theorem saveEntry_evolves (env : JsEnv) (now : Nat) (user : Identity) (body : EntryBody)
    (st : Store) : EntriesEvolve st (saveEntry env now user body st).1 := by
  simp only [saveEntry]
  repeat' split
  all_goals first
    | exact evolve_refl st
    | exact evolve_upsertEntry st _ _ _ _ (fun _ => ⟨rfl, rfl, rfl, fun h => h⟩)
        ⟨rfl, rfl, rfl⟩

theorem submitEntry_evolves (env : JsEnv) (user : Identity) (id : String) (st : Store) :
    EntriesEvolve st (submitEntry env user id st).1 := by
  simp only [submitEntry]
  repeat' split
  all_goals first
    | exact evolve_refl st
    | exact evolve_updateEntry st _ _ (fun e => ⟨rfl, rfl, rfl, fun _ => rfl⟩)

theorem updateNotes_evolves (env : JsEnv) (user : Identity) (id : String) (notes : JsVal)
    (st : Store) : EntriesEvolve st (updateNotes env user id notes st).1 := by
  simp only [updateNotes]
  repeat' split
  all_goals first
    | exact evolve_refl st
    | exact evolve_patchNotes st _ (by assumption)

theorem updateHours_evolves (env : JsEnv) (user : Identity) (id : String)
    (body : HoursBody) (st : Store) :
    EntriesEvolve st (updateHours env user id body st).1 := by
  simp only [updateHours]
  repeat' split
  all_goals first
    | exact evolve_refl st
    | exact evolve_updateEntry st _ _ (fun e => ⟨rfl, rfl, rfl, fun h => h⟩)

theorem updateDayNote_evolves (env : JsEnv) (user : Identity) (id : String)
    (body : DayNoteBody) (st : Store) :
    EntriesEvolve st (updateDayNote env user id body st).1 := by
  simp only [updateDayNote]
  repeat' split
  all_goals first
    | exact evolve_refl st
    | exact evolve_updateEntry st _ _ (fun e => ⟨rfl, rfl, rfl, fun h => h⟩)

theorem externalUpdateNote_evolves (env : JsEnv) (body : ExternalNoteBody) (st : Store) :
    EntriesEvolve st (externalUpdateNote env body st).1 := by
  simp only [externalUpdateNote]
  repeat' split
  all_goals first
    | exact evolve_refl st
    | exact evolve_updateEntry st _ _ (fun e => ⟨rfl, rfl, rfl, fun h => h⟩)

theorem externalSubmitTimesheet_evolves (env : JsEnv) (now : Nat) (body : TimesheetBody)
    (st : Store) : EntriesEvolve st (externalSubmitTimesheet env now body st).1 := by
  simp only [externalSubmitTimesheet]
  repeat' split
  all_goals first
    | exact evolve_refl st
    | exact evolve_upsertEntry st _ _ _ _ (fun e => ⟨rfl, rfl, rfl, fun _ => rfl⟩)
        ⟨rfl, rfl, rfl⟩

theorem register_evolves (env : JsEnv) (now : Nat) (user : Identity) (body : RegisterBody)
    (st : Store) : EntriesEvolve st (register env now user body st).1 := by
  simp only [register]
  repeat' split
  all_goals first
    | exact evolve_refl st

theorem createSchedule_evolves (env : JsEnv) (now : Nat) (user : Identity)
    (body : ScheduleBody) (st : Store) :
    EntriesEvolve st (createSchedule env now user body st).1 := by
  simp only [createSchedule]
  repeat' split
  all_goals first
    | exact evolve_refl st

theorem deleteSchedule_evolves (env : JsEnv) (user : Identity) (id : String) (st : Store) :
    EntriesEvolve st (deleteSchedule env user id st).1 := by
  simp only [deleteSchedule]
  repeat' split
  all_goals first
    | exact evolve_refl st
    | exact Or.inr (Or.inr ⟨_, rfl, rfl⟩)

theorem step_evolves (env : JsEnv) (op : Op) (st : Store) :
    EntriesEvolve st (step env op st).1 := by
  cases op with
  | register now user body => exact register_evolves env now user body st
  | createSchedule now user body => exact createSchedule_evolves env now user body st
  | deleteSchedule user id => exact deleteSchedule_evolves env user id st
  | saveEntry now user body => exact saveEntry_evolves env now user body st
  | submitEntry user id => exact submitEntry_evolves env user id st
  | updateNotes user id notes => exact updateNotes_evolves env user id notes st
  | updateHours user id body => exact updateHours_evolves env user id body st
  | updateDayNote user id body => exact updateDayNote_evolves env user id body st
  | externalUpdateNote body => exact externalUpdateNote_evolves env body st
  | externalSubmitTimesheet now body =>
    exact externalSubmitTimesheet_evolves env now body st

/-! ## Consequences of `EntriesEvolve` -/

theorem evolve_keyUnique {st st1 : Store} (h : EntriesEvolve st st1)
    (hk : KeyUnique st) : KeyUnique st1 := by
  unfold KeyUnique at *
  rcases h with ⟨f, hf, he, -⟩ | ⟨c, he, -, -, hfresh⟩ | ⟨p, he, -⟩
  · rw [he, List.map_map]
    have : ((fun e : TimeEntry => (e.scheduleId, e.weekEnding)) ∘ f) =
        (fun e : TimeEntry => (e.scheduleId, e.weekEnding)) := by
      funext e
      simp [(hf e).2.1, (hf e).2.2.1]
    rw [this]
    exact hk
  · rw [he, List.map_append, List.nodup_append]
    refine ⟨hk, by simp, ?_⟩
    intro a ha hb
    simp only [List.map_cons, List.map_nil, List.mem_singleton] at hb
    rcases List.mem_map.mp ha with ⟨e, hmem, hkey⟩
    apply hfresh e hmem
    rw [hb] at hkey
    simpa using hkey
  · rw [he]
    exact (List.filter_sublist _).map _ |>.nodup hk

theorem evolve_idsOk {st st1 : Store} (h : EntriesEvolve st st1)
    (hk : EntryIdsOk st) : EntryIdsOk st1 := by
  unfold EntryIdsOk at *
  rcases h with ⟨f, hf, he, hn⟩ | ⟨c, he, hc, hn, -⟩ | ⟨p, he, hn⟩
  · have hmap : (fun e : TimeEntry => e.id) ∘ f = (fun e : TimeEntry => e.id) := by
      funext e
      simp [(hf e).1]
    refine ⟨?_, ?_⟩
    · rw [he, List.map_map, hmap]
      exact hk.1
    · intro e1 h1
      rw [he] at h1
      rcases List.mem_map.mp h1 with ⟨e, hmem, rfl⟩
      rw [(hf e).1, hn]
      exact hk.2 e hmem
  · refine ⟨?_, ?_⟩
    · rw [he, List.map_append, List.nodup_append]
      refine ⟨hk.1, by simp, ?_⟩
      intro a ha hb
      simp only [List.map_cons, List.map_nil, List.mem_singleton] at hb
      rcases List.mem_map.mp ha with ⟨e, hmem, hid⟩
      have := hk.2 e hmem
      rw [hid, hb, hc] at this
      exact lt_irrefl _ this
    · intro e1 h1
      rw [he] at h1
      rw [hn]
      rcases List.mem_append.mp h1 with h1 | h1
      · exact lt_trans (hk.2 e1 h1) (by omega)
      · simp only [List.mem_singleton] at h1
        rw [h1, hc]
        omega
  · refine ⟨?_, ?_⟩
    · rw [he]
      exact (List.filter_sublist _).map _ |>.nodup hk.1
    · intro e1 h1
      rw [he] at h1
      rw [hn]
      exact hk.2 e1 (List.mem_of_mem_filter h1)

theorem nodup_ids_eq {l : List TimeEntry} (hnd : (l.map (fun e => e.id)).Nodup)
    {a b : TimeEntry} (ha : a ∈ l) (hb : b ∈ l) (hid : a.id = b.id) : a = b :=
  List.inj_on_of_nodup_map hnd ha hb hid

theorem evolve_lock {st st1 : Store} (h : EntriesEvolve st st1) (hk : EntryIdsOk st)
    {e e1 : TimeEntry} (he : e ∈ st.entries) (hs : e.isSubmitted = true)
    (h1 : e1 ∈ st1.entries) (hid : e1.id = e.id) : e1.isSubmitted = true := by
  rcases h with ⟨f, hf, heq, -⟩ | ⟨c, heq, hc, -, -⟩ | ⟨p, heq, -⟩
  · rw [heq] at h1
    rcases List.mem_map.mp h1 with ⟨e0, hmem, rfl⟩
    have : e0 = e := nodup_ids_eq hk.1 hmem he (by rw [← (hf e0).1]; exact hid)
    subst this
    exact (hf e0).2.2.2 hs
  · rw [heq] at h1
    rcases List.mem_append.mp h1 with h1 | h1
    · have : e1 = e := nodup_ids_eq hk.1 h1 he hid
      rw [this]; exact hs
    · simp only [List.mem_singleton] at h1
      have := hk.2 e he
      rw [← hid, h1, hc] at this
      exact absurd this (lt_irrefl _)
  · rw [heq] at h1
    have : e1 = e := nodup_ids_eq hk.1 (List.mem_of_mem_filter h1) he hid
    rw [this]; exact hs

theorem step_idsOk (env : JsEnv) (op : Op) (st : Store) (h : EntryIdsOk st) :
    EntryIdsOk (step env op st).1 :=
  evolve_idsOk (step_evolves env op st) h

theorem emptyStore_idsOk : EntryIdsOk emptyStore := by
  simp [EntryIdsOk, emptyStore]

theorem step_keyUnique (env : JsEnv) (op : Op) (st : Store) (h : KeyUnique st) :
    KeyUnique (step env op st).1 :=
  evolve_keyUnique (step_evolves env op st) h

/-! ## The upsert -/

theorem upsertEntry_users (st : Store) (sid w : Int) (f : TimeEntry → TimeEntry)
    (c : TimeEntry) :
    (upsertEntry st sid w f c).1.users = st.users ∧
    (upsertEntry st sid w f c).1.schedules = st.schedules := by
  unfold upsertEntry
  split <;> exact ⟨rfl, rfl⟩

theorem upsertEntry_of_exists (st : Store) (sid w : Int) (f : TimeEntry → TimeEntry)
    (c : TimeEntry) (h : ∃ e ∈ st.entries, hasKey sid w e = true) :
    (upsertEntry st sid w f c).1.entries =
      st.entries.map (fun x => if hasKey sid w x then f x else x) := by
  unfold upsertEntry
  split
  · rfl
  · next hnone =>
    rcases h with ⟨e, he, hk⟩
    have := List.find?_eq_none.mp hnone e he
    exact absurd hk this

theorem upsertEntry_of_not_exists (st : Store) (sid w : Int) (f : TimeEntry → TimeEntry)
    (c : TimeEntry) (h : ¬ ∃ e ∈ st.entries, hasKey sid w e = true) :
    (upsertEntry st sid w f c).1.entries = st.entries ++ [c] := by
  unfold upsertEntry
  split
  · next e hsome =>
    exact absurd ⟨e, List.mem_of_find?_eq_some hsome, List.find?_some hsome⟩ h
  · rfl

/-- The store written by a `saveEntry` request that reaches the upsert. -/
theorem saveEntry_store (env : JsEnv) (now : Nat) (user : Identity) (body : EntryBody)
    (st : Store) (sid : Int) (schedule : Schedule) (w : Int) (n : NotesCol)
    (hs : truthy body.scheduleId = true) (hw : truthy body.weekEnding = true)
    (hsid : body.scheduleId.bind env.parseInt = some sid)
    (hsch : findSchedule st sid = some schedule)
    (hauth : user.role = "ADMIN" ∨ schedule.userId = user.id)
    (hdate : body.weekEnding.bind env.newDate = some w)
    (hnotes : saveNotesStr body.notes = some n) :
    (saveEntry env now user body st).1 =
      (upsertEntry st sid w
        (fun e => { setHours env body.mon body.tue body.wed body.thu body.fri body.sat
                      body.sun e with notes := n })
        { id := st.nextEntryId, scheduleId := sid, weekEnding := w,
          mon := hoursOf env body.mon, tue := hoursOf env body.tue,
          wed := hoursOf env body.wed, thu := hoursOf env body.thu,
          fri := hoursOf env body.fri, sat := hoursOf env body.sat,
          sun := hoursOf env body.sun, notes := n,
          isSubmitted := false, createdAt := now }).1 := by
  have hna : ¬ (user.role ≠ "ADMIN" ∧ schedule.userId ≠ user.id) := by
    rcases hauth with h | h
    · simp [h]
    · simp [h]
  simp only [saveEntry, hs, hw, hsid, hsch, hdate, hnotes, hna]
  simp only [Bool.not_true, Bool.or_self, Bool.false_eq_true, if_false]
  split <;> rfl

/-- The store written by a `submit-timesheet` request that reaches the upsert. -/
theorem externalSubmitTimesheet_store (env : JsEnv) (now : Nat) (body : TimesheetBody)
    (st : Store) (username : String) (owner : User) (sid : Int) (schedule : Schedule)
    (w : Int) (n : NotesCol)
    (hu : body.username = some (.str username)) (hne : username ≠ "")
    (hs : truthy body.scheduleId = true) (hw : truthy body.weekEnding = true)
    (huser : findUserByName st username = some owner)
    (hsid : body.scheduleId.bind env.parseInt = some sid)
    (hsch : st.schedules.find?
      (fun s => decide (s.id = sid) && decide (s.userId = owner.id)) = some schedule)
    (hdate : body.weekEnding.bind env.newDate = some w)
    (hnotes : timesheetNotesStr body.notes = some n) :
    (externalSubmitTimesheet env now body st).1 =
      (upsertEntry st sid w
        (fun e => { setHours env body.mon body.tue body.wed body.thu body.fri body.sat
                      body.sun e with notes := n, isSubmitted := true })
        { id := st.nextEntryId, scheduleId := sid, weekEnding := w,
          mon := hoursOf env body.mon, tue := hoursOf env body.tue,
          wed := hoursOf env body.wed, thu := hoursOf env body.thu,
          fri := hoursOf env body.fri, sat := hoursOf env body.sat,
          sun := hoursOf env body.sun, notes := n,
          isSubmitted := true, createdAt := now }).1 := by
  have htu : truthy body.username = true := by simp [hu, truthy, hne]
  have hcol : stringColumn body.username = some username := by simp [hu, stringColumn]
  simp only [externalSubmitTimesheet, hs, hw, htu, hcol, huser, hsid, hsch, hdate, hnotes]
  simp only [Bool.not_true, Bool.or_self, Bool.false_eq_true, if_false]
  split <;> rfl

/-! ## Reading and writing a key of the notes object -/

theorem lookupKey_append (k : String) (a b : List (String × Json)) :
    lookupKey k (a ++ b) =
      match lookupKey k a with
      | some v => some v
      | none => lookupKey k b := by
  induction a with
  | nil => simp [lookupKey]
  | cons p rest ih =>
    obtain ⟨k1, v1⟩ := p
    by_cases h : k1 = k
    · simp [lookupKey, h]
    · simp [lookupKey, h, ih]

theorem lookupKey_none_of_any_false (k : String) (kvs : List (String × Json))
    (h : kvs.any (fun p => decide (p.1 = k)) = false) : lookupKey k kvs = none := by
  induction kvs with
  | nil => rfl
  | cons p rest ih =>
    obtain ⟨k1, v1⟩ := p
    simp only [List.any_cons, Bool.or_eq_false_iff, decide_eq_false_iff_not] at h
    simp [lookupKey, h.1, ih h.2]

theorem lookupKey_map_same (k : String) (v : Json) (kvs : List (String × Json))
    (h : kvs.any (fun p => decide (p.1 = k)) = true) :
    lookupKey k (kvs.map (fun p => if p.1 = k then (p.1, v) else p)) = some v := by
  induction kvs with
  | nil => simp at h
  | cons p rest ih =>
    obtain ⟨k1, v1⟩ := p
    rw [List.map_cons]
    by_cases hk : k1 = k
    · rw [if_pos (show (k1, v1).1 = k from hk)]
      show lookupKey k ((k1, v) :: _) = some v
      rw [lookupKey, if_pos hk]
    · rw [if_neg (show ¬ (k1, v1).1 = k from hk)]
      rw [lookupKey, if_neg hk]
      apply ih
      simpa [hk] using h

theorem lookupKey_map_other (k k1 : String) (v : Json) (kvs : List (String × Json))
    (hne : k1 ≠ k) :
    lookupKey k1 (kvs.map (fun p => if p.1 = k then (p.1, v) else p)) =
      lookupKey k1 kvs := by
  induction kvs with
  | nil => rfl
  | cons p rest ih =>
    obtain ⟨k2, v2⟩ := p
    rw [List.map_cons]
    by_cases hk : k2 = k
    · rw [if_pos (show (k2, v2).1 = k from hk)]
      show lookupKey k1 ((k2, v) :: _) = lookupKey k1 ((k2, v2) :: rest)
      have : ¬ k2 = k1 := fun h => hne (h ▸ hk)
      rw [lookupKey, lookupKey, if_neg this, if_neg this, ih]
    · rw [if_neg (show ¬ (k2, v2).1 = k from hk)]
      rw [lookupKey, lookupKey, ih]

theorem lookupKey_setKey_same (k : String) (v : Json) (kvs : List (String × Json)) :
    lookupKey k (setKey k v kvs) = some v := by
  unfold setKey
  by_cases h : kvs.any (fun p => decide (p.1 = k)) = true
  · simp only [h, if_true]
    exact lookupKey_map_same k v kvs h
  · simp only [h, Bool.false_eq_true, if_false]
    rw [lookupKey_append, lookupKey_none_of_any_false k kvs (Bool.eq_false_iff.mpr h)]
    simp [lookupKey]

theorem lookupKey_setKey_other (k k1 : String) (v : Json) (kvs : List (String × Json))
    (hne : k1 ≠ k) : lookupKey k1 (setKey k v kvs) = lookupKey k1 kvs := by
  unfold setKey
  by_cases h : kvs.any (fun p => decide (p.1 = k)) = true
  · simp only [h, if_true]
    exact lookupKey_map_other k k1 v kvs hne
  · simp only [h, Bool.false_eq_true, if_false]
    rw [lookupKey_append]
    have : ¬ k = k1 := fun h => hne h.symm
    cases hl : lookupKey k1 kvs <;> simp [lookupKey, this]

/-! ## Reading back an updated entry -/

theorem find_map_update (l : List TimeEntry) (i : Int) (f : TimeEntry → TimeEntry)
    (hf : ∀ x, (f x).id = x.id) :
    (l.map (fun e => if e.id = i then f e else e)).find? (fun e => decide (e.id = i)) =
      (l.find? (fun e => decide (e.id = i))).map f := by
  induction l with
  | nil => rfl
  | cons x rest ih =>
    by_cases h : x.id = i
    · simp [List.find?, h, hf]
    · simp [List.find?, h, ih]

theorem findEntry_updateEntry (st : Store) (i : Int) (f : TimeEntry → TimeEntry)
    (hf : ∀ x, (f x).id = x.id) :
    findEntry (updateEntry st i f) i = (findEntry st i).map f := by
  unfold findEntry updateEntry
  exact find_map_update st.entries i f hf

theorem valid_day_ne_empty {day : String} (h : dayKeyOf day ∈ validDays) : day ≠ "" := by
  rintro rfl
  revert h
  decide

/-! ## Truthiness and validity facts -/

theorem truthy_str_of_ne {s : String} (h : s ≠ "") : truthy (some (.str s)) = true := by
  simp [truthy, h]

theorem contains_of_valid {k : String} (h : k ∈ validDays) :
    validDays.contains k = true := by
  simpa using h

theorem contains_of_invalid {k : String} (h : k ∉ validDays) :
    validDays.contains k = false := by
  simpa using h

/-! ## Telling error messages apart -/

theorem append_ne_of_head (a b m : String) (c : Char) (cs : List Char)
    (ha : a.data = c :: cs) (hm : m.data.head? ≠ some c) : a ++ b ≠ m := by
  intro h
  apply hm
  rw [← h, String.data_append, ha]
  rfl

theorem invalid_day_ne (day m : String) (hm : m.data.head? ≠ some (Char.ofNat 73)) :
    "Invalid day \"" ++ day ++ "\". Use: mon, tue, wed, thu, fri, sat, sun" ≠ m := by
  rw [String.append_assoc]
  exact append_ne_of_head _ _ m (Char.ofNat 73) _ rfl hm

theorem invalid_day_colon_ne (day m : String)
    (hm : m.data.head? ≠ some (Char.ofNat 73)) :
    "Invalid day: " ++ day ++
      ". Use: monday, tuesday, wednesday, thursday, friday, saturday, sunday" ≠ m := by
  rw [String.append_assoc]
  exact append_ne_of_head _ _ m (Char.ofNat 73) _ rfl hm

/-! ## Authorization lemmas -/

theorem checkOwner_granted {st : Store} {user : Identity} {e : TimeEntry}
    (h : user.role = "ADMIN" ∨
      ∃ s, findSchedule st e.scheduleId = some s ∧ s.userId = user.id) :
    checkOwner st user e = .granted := by
  unfold checkOwner
  rcases h with h | ⟨s, hs, hu⟩
  · simp [h]
  · simp [hs, hu]

theorem checkOwner_forbidden {st : Store} {user : Identity} {e : TimeEntry}
    {s : Schedule} (hr : user.role ≠ "ADMIN") (hs : findSchedule st e.scheduleId = some s)
    (hu : s.userId ≠ user.id) : checkOwner st user e = .forbidden := by
  unfold checkOwner
  simp [hr, hs, hu]

/-! ## The handlers that test the lock -/

theorem submitEntry_writesById (env : JsEnv) (user : Identity) (id : String)
    (st : Store) : WritesById st (submitEntry env user id st).1 := by
  simp only [submitEntry]
  repeat' split
  all_goals first
    | exact Or.inl rfl
    | exact Or.inr ⟨_, _, _, by assumption,
        Or.inr (fun x hx => by cases x; simp_all), rfl⟩

theorem updateNotes_writesById (env : JsEnv) (user : Identity) (id : String)
    (notes : JsVal) (st : Store) : WritesById st (updateNotes env user id notes st).1 := by
  simp only [updateNotes]
  repeat' split
  all_goals first
    | exact Or.inl rfl
    | exact Or.inr ⟨_, _, _, by assumption, Or.inl (by simp_all), rfl⟩

theorem updateHours_writesById (env : JsEnv) (user : Identity) (id : String)
    (body : HoursBody) (st : Store) : WritesById st (updateHours env user id body st).1 := by
  simp only [updateHours]
  repeat' split
  all_goals first
    | exact Or.inl rfl
    | exact Or.inr ⟨_, _, _, by assumption, Or.inl (by simp_all), rfl⟩

theorem updateDayNote_writesById (env : JsEnv) (user : Identity) (id : String)
    (body : DayNoteBody) (st : Store) :
    WritesById st (updateDayNote env user id body st).1 := by
  simp only [updateDayNote]
  repeat' split
  all_goals first
    | exact Or.inl rfl
    | exact Or.inr ⟨_, _, _, by assumption, Or.inl (by simp_all), rfl⟩

theorem externalUpdateNote_writesById (env : JsEnv) (body : ExternalNoteBody)
    (st : Store) : WritesById st (externalUpdateNote env body st).1 := by
  simp only [externalUpdateNote]
  repeat' split
  all_goals first
    | exact Or.inl rfl
    | exact Or.inr ⟨_, _, _, by assumption, Or.inl (by simp_all), rfl⟩

/-- A submitted entry is left in the table, with every field as it was, by a write of
the shape `WritesById`. -/
theorem writesById_keeps_submitted {st st1 : Store} (h : WritesById st st1)
    (hk : EntryIdsOk st) {e : TimeEntry} (he : e ∈ st.entries)
    (hs : e.isSubmitted = true) : e ∈ st1.entries := by
  rcases h with rfl | ⟨eid, entry, f, hfind, hcase, rfl⟩
  · exact he
  · unfold updateEntry
    refine List.mem_map.mpr ⟨e, he, ?_⟩
    by_cases hid : e.id = eid
    · rcases hcase with hd | hf
      · have hent := findEntry_some hfind
        have : entry = e := nodup_ids_eq hk.1 hent.1 he (by rw [hent.2, hid])
        rw [this, hs] at hd
        exact absurd hd (by decide)
      · simp [hid, hf e hs]
    · simp [hid]

/-- The five operations that do not upsert keep every submitted entry, fields included
(in a store whose entry ids are distinct). -/
theorem guarded_ops_keep_submitted (env : JsEnv) (st : Store) (hk : EntryIdsOk st)
    (e : TimeEntry) (he : e ∈ st.entries) (hs : e.isSubmitted = true) :
    (∀ user id, e ∈ (submitEntry env user id st).1.entries) ∧
    (∀ user id notes, e ∈ (updateNotes env user id notes st).1.entries) ∧
    (∀ user id body, e ∈ (updateHours env user id body st).1.entries) ∧
    (∀ user id body, e ∈ (updateDayNote env user id body st).1.entries) ∧
    (∀ body, e ∈ (externalUpdateNote env body st).1.entries) :=
  ⟨fun user id => writesById_keeps_submitted (submitEntry_writesById env user id st) hk he hs,
   fun user id notes =>
     writesById_keeps_submitted (updateNotes_writesById env user id notes st) hk he hs,
   fun user id body =>
     writesById_keeps_submitted (updateHours_writesById env user id body st) hk he hs,
   fun user id body =>
     writesById_keeps_submitted (updateDayNote_writesById env user id body st) hk he hs,
   fun body =>
     writesById_keeps_submitted (externalUpdateNote_writesById env body st) hk he hs⟩

/-- A `saveEntry` request answered with 200 has passed every check before the upsert:
the hypotheses of `saveEntry_store` hold for it. -/
theorem saveEntry_ok_reaches_upsert (env : JsEnv) (now : Nat) (user : Identity)
    (body : EntryBody) (st : Store)
    (hok : (saveEntry env now user body st).2.status = 200) :
    ∃ (sid : Int) (schedule : Schedule) (w : Int) (n : NotesCol),
      truthy body.scheduleId = true ∧ truthy body.weekEnding = true ∧
      body.scheduleId.bind env.parseInt = some sid ∧
      findSchedule st sid = some schedule ∧
      (user.role = "ADMIN" ∨ schedule.userId = user.id) ∧
      body.weekEnding.bind env.newDate = some w ∧
      saveNotesStr body.notes = some n := by
  simp only [saveEntry] at hok
  repeat' split at hok
  all_goals first
    | (exfalso; revert hok; simp only [internalError]; decide)
    | (rename_i hv _ sid _ _ schedule _ hauth _ _ w n _ _ _ _ _
       refine ⟨sid, schedule, w, n, ?_, ?_, by assumption, by assumption, ?_,
         by assumption, by assumption⟩
       · simp only [Bool.or_eq_true, Bool.not_eq_true', not_or, Bool.not_eq_false] at hv
         exact hv.1
       · simp only [Bool.or_eq_true, Bool.not_eq_true', not_or, Bool.not_eq_false] at hv
         exact hv.2
       · by_cases hr : user.role = "ADMIN"
         · exact Or.inl hr
         · right
           by_contra hu
           exact hauth ⟨hr, hu⟩)

/-! ## C1 -/

/-- C1 (the code departs from the claim).  `POST /api/timeentries` has no check of
`isSubmitted`: the owner saves `mon = 4` for the key of a submitted entry whose `mon`
is 8, the request succeeds, and the submitted entry now stores `mon = 4`.  The external
`submit-timesheet` overwrites the submitted entry in the same way (`mon = 2`). -/
theorem saveEntry_overwrites_submitted :
    (sampleStore [sampleEntry true defaultNotes]).entries.map
        (fun e => (e.id, e.isSubmitted, e.mon)) = [(1, true, 8)] ∧
    (saveEntry demoEnv 5 alice
        (entryBody (some (.num 1)) (some (.num 1717718400000)) (some (.num 4)) none)
        (sampleStore [sampleEntry true defaultNotes])).1.entries.map
        (fun e => (e.id, e.isSubmitted, e.mon)) = [(1, true, 4)] ∧
    (saveEntry demoEnv 5 alice
        (entryBody (some (.num 1)) (some (.num 1717718400000)) (some (.num 4)) none)
        (sampleStore [sampleEntry true defaultNotes])).2.status = 200 ∧
    (externalSubmitTimesheet demoEnv 5
        { username := some (.str "alice"), scheduleId := some (.num 1),
          weekEnding := some (.num 1717718400000), mon := some (.num 2), tue := none,
          wed := none, thu := none, fri := none, sat := none, sun := none,
          notes := none }
        (sampleStore [sampleEntry true defaultNotes])).1.entries.map
        (fun e => (e.id, e.isSubmitted, e.mon)) = [(1, true, 2)] := by
  refine ⟨by decide, by decide, by decide, by decide⟩

/-! ## C2 -/

/-- C2 as stated fails: on a submitted entry, a day-note update by the owner with the
day `"xyz"` is rejected by the day validation, which runs before the entry is read;
the error is the invalid-day message, not the locked one. -/
theorem updateDayNote_invalid_day_not_locked :
    findEntry (sampleStore [sampleEntry true defaultNotes]) 1 =
      some (sampleEntry true defaultNotes) ∧
    (updateDayNote demoEnv alice "1" ⟨some (.str "xyz"), some (.str "B"), none⟩
        (sampleStore [sampleEntry true defaultNotes])).2.errorMessage =
      some "Invalid day \"xyz\". Use: mon, tue, wed, thu, fri, sat, sun" ∧
    (updateDayNote demoEnv alice "1" ⟨some (.str "xyz"), some (.str "B"), none⟩
        (sampleStore [sampleEntry true defaultNotes])).2.errorMessage ≠
      some "Cannot edit a submitted entry" := by
  refine ⟨rfl, by decide, by decide⟩

/-- C2 (amended).  For a submitted entry and a caller who is its owner or an admin:
every `updateNotes` and every `updateHours` call returns 400 "Cannot edit a submitted
entry" and leaves the store unchanged; so does every `updateDayNote` call whose `day`
is a string with a valid day code and whose `text` is present; and every
`updateDayNote` call whatsoever fails with status 400 or 500 and leaves the store
unchanged. -/
theorem locked_entry_rejects_updates (env : JsEnv) (st : Store) (user : Identity)
    (id : String) (eid : Int) (e : TimeEntry)
    (hid : env.parseInt (.str id) = some eid)
    (hfind : findEntry st eid = some e)
    (hsub : e.isSubmitted = true)
    (hauth : user.role = "ADMIN" ∨
      ∃ s, findSchedule st e.scheduleId = some s ∧ s.userId = user.id) :
    (∀ notes, updateNotes env user id notes st =
      (st, ⟨400, .error "Cannot edit a submitted entry"⟩)) ∧
    (∀ body, updateHours env user id body st =
      (st, ⟨400, .error "Cannot edit a submitted entry"⟩)) ∧
    (∀ (body : DayNoteBody) (day : String) (text : Json),
      body.day = some (.str day) → dayKeyOf day ∈ validDays → body.text = some text →
      updateDayNote env user id body st =
        (st, ⟨400, .error "Cannot edit a submitted entry"⟩)) ∧
    (∀ body, (updateDayNote env user id body st).1 = st ∧
      ((updateDayNote env user id body st).2.status = 400 ∨
       (updateDayNote env user id body st).2.status = 500)) := by
  have hgr := @checkOwner_granted st user e hauth
  refine ⟨?_, ?_, ?_, ?_⟩
  · intro notes
    simp [updateNotes, hid, hfind, hgr, hsub]
  · intro body
    simp [updateHours, hid, hfind, hgr, hsub]
  · intro body day text hday hvalid htext
    have hne : day ≠ "" := by
      rintro rfl
      revert hvalid
      decide
    simp [updateDayNote, hid, hfind, hgr, hsub, hday, htext, truthy, hne, hvalid]
  · intro body
    simp only [updateDayNote]
    repeat' split
    all_goals first
      | exact ⟨rfl, Or.inl rfl⟩
      | exact ⟨rfl, Or.inr rfl⟩
      | (exfalso; simp_all)

/-- Witness of C2 (amended): on the submitted sample entry, its owner's notes update,
hours update and valid day-note update are each answered with the locked error and
leave the store as it was. -/
theorem locked_entry_rejects_updates_witness :
    updateNotes demoEnv alice "1" (some (.obj (notesWithMon "x")))
        (sampleStore [sampleEntry true defaultNotes]) =
      (sampleStore [sampleEntry true defaultNotes],
        ⟨400, .error "Cannot edit a submitted entry"⟩) ∧
    updateHours demoEnv alice "1" ⟨some (.num 4), none, none, none, none, none, none⟩
        (sampleStore [sampleEntry true defaultNotes]) =
      (sampleStore [sampleEntry true defaultNotes],
        ⟨400, .error "Cannot edit a submitted entry"⟩) ∧
    updateDayNote demoEnv alice "1" ⟨some (.str "mon"), some (.str "B"), none⟩
        (sampleStore [sampleEntry true defaultNotes]) =
      (sampleStore [sampleEntry true defaultNotes],
        ⟨400, .error "Cannot edit a submitted entry"⟩) :=
  have h := locked_entry_rejects_updates demoEnv
    (sampleStore [sampleEntry true defaultNotes]) alice "1" 1
    (sampleEntry true defaultNotes) (by decide) rfl rfl
    (Or.inr ⟨⟨1, 2, "X", true, 0⟩, rfl, rfl⟩)
  ⟨h.1 _, h.2.1 _,
    h.2.2.1 ⟨some (.str "mon"), some (.str "B"), none⟩ "mon" (.str "B") rfl (by decide) rfl⟩

/-! ## C3 -/

/-- C3.  The submitted flag is a one-way lock: in a store whose entry ids are distinct
and below the id counter, whatever request is served, an entry that was submitted
before and is still present afterwards (same id) is still submitted. -/
theorem submitted_flag_one_way (env : JsEnv) (op : Op) (st : Store)
    (hk : EntryIdsOk st) (e : TimeEntry) (he : e ∈ st.entries)
    (hs : e.isSubmitted = true) (e1 : TimeEntry)
    (h1 : e1 ∈ (step env op st).1.entries) (hid : e1.id = e.id) :
    e1.isSubmitted = true :=
  evolve_lock (step_evolves env op st) hk he hs h1 hid

/-- Witness of C3: the owner saves over the submitted sample entry; the resulting
row is still submitted. -/
theorem submitted_flag_one_way_witness :
    ({ sampleEntry true defaultNotes with mon := 4 } : TimeEntry).isSubmitted = true :=
  submitted_flag_one_way demoEnv
    (.saveEntry 5 alice
      (entryBody (some (.num 1)) (some (.num 1717718400000)) (some (.num 4)) none))
    (sampleStore [sampleEntry true defaultNotes])
    ⟨by decide, by decide⟩
    (sampleEntry true defaultNotes) (List.mem_singleton.mpr rfl) rfl
    { sampleEntry true defaultNotes with mon := 4 }
    (by
      have h : (step demoEnv (.saveEntry 5 alice
          (entryBody (some (.num 1)) (some (.num 1717718400000)) (some (.num 4)) none))
          (sampleStore [sampleEntry true defaultNotes])).1.entries =
          [{ sampleEntry true defaultNotes with mon := 4 }] := by
        rfl
      rw [h]
      exact List.mem_singleton.mpr rfl)
    rfl

/-! ## C4 -/

/-- C4.  Uniqueness of the composite key is preserved by every finite sequence of
requests: from a ledger with at most one entry per `(scheduleId, weekEnding)`, the
ledger reached still has at most one entry per pair. -/
theorem key_unique_reachable (env : JsEnv) (ops : List Op) (st : Store)
    (h : KeyUnique st) : KeyUnique (run env ops st) := by
  induction ops generalizing st with
  | nil => exact h
  | cons op ops ih => exact ih _ (step_keyUnique env op st h)

/-- Witness of C4: two saves for the key of the sample entry, a save for another week
and an external submission, served in sequence. -/
theorem key_unique_reachable_witness :
    KeyUnique (run demoEnv
      [.saveEntry 5 alice
          (entryBody (some (.num 1)) (some (.num 1717718400000)) (some (.num 4)) none),
        .saveEntry 6 alice
          (entryBody (some (.num 1)) (some (.num 1717718400000)) (some (.num 6)) none),
        .saveEntry 7 alice
          (entryBody (some (.num 1)) (some (.num 1718323200000)) (some (.num 7)) none),
        .externalSubmitTimesheet 8
          { username := some (.str "alice"), scheduleId := some (.num 1),
            weekEnding := some (.num 1717718400000), mon := some (.num 2), tue := none,
            wed := none, thu := none, fri := none, sat := none, sun := none,
            notes := none }]
      (sampleStore [sampleEntry false defaultNotes])) :=
  key_unique_reachable demoEnv _ (sampleStore [sampleEntry false defaultNotes])
    (by decide)

/-! ## C5 -/

/-- C5.  Postcondition of `saveEntry` for a request that carries `scheduleId` and
`weekEnding`, names an existing schedule, comes from its owner or an admin, and whose
`weekEnding` is a date and whose notes normalize to a string `n`: users and schedules
are untouched; if a row has the key, each row with the key keeps its id, key,
`isSubmitted` and `createdAt` and gets the normalized hours and `n`, every other row
is unchanged and none is added; otherwise exactly one row is appended, with those
hours and notes and `isSubmitted = false`. -/
theorem saveEntry_postcondition (env : JsEnv) (now : Nat) (user : Identity)
    (body : EntryBody) (st : Store) (sid : Int) (schedule : Schedule) (w : Int)
    (n : NotesCol)
    (hs : truthy body.scheduleId = true) (hw : truthy body.weekEnding = true)
    (hsid : body.scheduleId.bind env.parseInt = some sid)
    (hsch : findSchedule st sid = some schedule)
    (hauth : user.role = "ADMIN" ∨ schedule.userId = user.id)
    (hdate : body.weekEnding.bind env.newDate = some w)
    (hnotes : saveNotesStr body.notes = some n) :
    (saveEntry env now user body st).1.users = st.users ∧
    (saveEntry env now user body st).1.schedules = st.schedules ∧
    ((∃ e ∈ st.entries, e.scheduleId = sid ∧ e.weekEnding = w) →
      (saveEntry env now user body st).1.entries =
        st.entries.map (fun x =>
          if x.scheduleId = sid ∧ x.weekEnding = w then
            { x with
              mon := hoursOf env body.mon, tue := hoursOf env body.tue,
              wed := hoursOf env body.wed, thu := hoursOf env body.thu,
              fri := hoursOf env body.fri, sat := hoursOf env body.sat,
              sun := hoursOf env body.sun, notes := n }
          else x)) ∧
    ((¬ ∃ e ∈ st.entries, e.scheduleId = sid ∧ e.weekEnding = w) →
      (saveEntry env now user body st).1.entries =
        st.entries ++
          [{ id := st.nextEntryId, scheduleId := sid, weekEnding := w,
             mon := hoursOf env body.mon, tue := hoursOf env body.tue,
             wed := hoursOf env body.wed, thu := hoursOf env body.thu,
             fri := hoursOf env body.fri, sat := hoursOf env body.sat,
             sun := hoursOf env body.sun, notes := n,
             isSubmitted := false, createdAt := now }]) := by
  rw [saveEntry_store env now user body st sid schedule w n hs hw hsid hsch hauth hdate
    hnotes]
  refine ⟨(upsertEntry_users _ _ _ _ _).1, (upsertEntry_users _ _ _ _ _).2, ?_, ?_⟩
  · intro hex
    rw [upsertEntry_of_exists _ _ _ _ _ (by simpa [hasKey] using hex)]
    apply List.map_congr_left
    intro x _
    simp [hasKey, setHours]
  · intro hex
    rw [upsertEntry_of_not_exists _ _ _ _ _ (by simpa [hasKey] using hex)]

/-- Witness of C5: the owner saves `mon = 4` over the draft sample entry (`mon = 8`);
the one row is rewritten in place and keeps its id and its draft state. -/
theorem saveEntry_postcondition_witness :
    (saveEntry demoEnv 5 alice
        (entryBody (some (.num 1)) (some (.num 1717718400000)) (some (.num 4)) none)
        (sampleStore [sampleEntry false defaultNotes])).1.entries =
      [{ sampleEntry false defaultNotes with mon := 4 }] :=
  (saveEntry_postcondition demoEnv 5 alice
    (entryBody (some (.num 1)) (some (.num 1717718400000)) (some (.num 4)) none)
    (sampleStore [sampleEntry false defaultNotes]) 1 ⟨1, 2, "X", true, 0⟩ 1717718400000
    defaultNotes (by decide) (by decide) (by decide) rfl (Or.inr rfl) (by decide)
    rfl).2.2.1 ⟨sampleEntry false defaultNotes, List.mem_singleton.mpr rfl, rfl, rfl⟩

/-! ## C6 -/

theorem hoursOf_num (env : JsEnv) (h : ℚ) : hoursOf env (some (.num h)) = h := rfl

theorem hoursOf_absent (env : JsEnv) : hoursOf env none = 0 := rfl

theorem upsertEntry_written (st : Store) (sid w : Int) (f : TimeEntry → TimeEntry)
    (c : TimeEntry) (hc : hasKey sid w c = true)
    (hf : ∀ x, hasKey sid w (f x) = hasKey sid w x) :
    (∃ e ∈ (upsertEntry st sid w f c).1.entries, hasKey sid w e = true) ∧
    ∀ e ∈ (upsertEntry st sid w f c).1.entries, hasKey sid w e = true →
      e = c ∨ ∃ x, e = f x := by
  by_cases hex : ∃ e ∈ st.entries, hasKey sid w e = true
  · rw [upsertEntry_of_exists _ _ _ _ _ hex]
    refine ⟨?_, ?_⟩
    · rcases hex with ⟨x, hx, hk⟩
      exact ⟨f x, List.mem_map.mpr ⟨x, hx, by simp [hk]⟩, by rw [hf]; exact hk⟩
    · intro e he hk
      rcases List.mem_map.mp he with ⟨x, _, rfl⟩
      by_cases hx : hasKey sid w x = true
      · right; exact ⟨x, by simp [hx]⟩
      · simp only [hx, Bool.false_eq_true, if_false] at hk
  · rw [upsertEntry_of_not_exists _ _ _ _ _ hex]
    refine ⟨⟨c, by simp, hc⟩, ?_⟩
    intro e he hk
    rcases List.mem_append.mp he with he | he
    · exact absurd ⟨e, he, hk⟩ hex
    · left; simpa using he

/-- C6.  Day-hour normalization.  A number is stored as it is, whatever its size, and an
absent value as 0; a value that does not parse is stored as 0 and one that parses to `q`
as `q`.  After a `saveEntry` request that reaches the upsert, and likewise after an
external `submit-timesheet` request that does, the ledger has an entry for the key and
every entry for the key stores, for each of the seven days, the normalized value of the
request; so saving `mon = h` for a number `h` stores `mon = h`. -/
theorem day_hours_normalized (env : JsEnv) (now : Nat) (st : Store) :
    (∀ h : ℚ, hoursOf env (some (.num h)) = h) ∧
    hoursOf env none = 0 ∧
    (∀ x, parseFloat env x = none → hoursOf env x = 0) ∧
    (∀ x q, parseFloat env x = some q → hoursOf env x = q) ∧
    (∀ (user : Identity) (body : EntryBody) (sid : Int) (schedule : Schedule) (w : Int)
        (n : NotesCol),
      truthy body.scheduleId = true → truthy body.weekEnding = true →
      body.scheduleId.bind env.parseInt = some sid →
      findSchedule st sid = some schedule →
      (user.role = "ADMIN" ∨ schedule.userId = user.id) →
      body.weekEnding.bind env.newDate = some w →
      saveNotesStr body.notes = some n →
      (∃ e ∈ (saveEntry env now user body st).1.entries,
        e.scheduleId = sid ∧ e.weekEnding = w) ∧
      ∀ e ∈ (saveEntry env now user body st).1.entries,
        e.scheduleId = sid → e.weekEnding = w →
        (e.mon = hoursOf env body.mon ∧ e.tue = hoursOf env body.tue ∧
         e.wed = hoursOf env body.wed ∧ e.thu = hoursOf env body.thu ∧
         e.fri = hoursOf env body.fri ∧ e.sat = hoursOf env body.sat ∧
         e.sun = hoursOf env body.sun) ∧
        ∀ h : ℚ, body.mon = some (.num h) → e.mon = h) ∧
    (∀ (body : TimesheetBody) (username : String) (owner : User) (sid : Int)
        (schedule : Schedule) (w : Int) (n : NotesCol),
      body.username = some (.str username) → username ≠ "" →
      truthy body.scheduleId = true → truthy body.weekEnding = true →
      findUserByName st username = some owner →
      body.scheduleId.bind env.parseInt = some sid →
      st.schedules.find?
        (fun s => decide (s.id = sid) && decide (s.userId = owner.id)) = some schedule →
      body.weekEnding.bind env.newDate = some w →
      timesheetNotesStr body.notes = some n →
      (∃ e ∈ (externalSubmitTimesheet env now body st).1.entries,
        e.scheduleId = sid ∧ e.weekEnding = w) ∧
      ∀ e ∈ (externalSubmitTimesheet env now body st).1.entries,
        e.scheduleId = sid → e.weekEnding = w →
        (e.mon = hoursOf env body.mon ∧ e.tue = hoursOf env body.tue ∧
         e.wed = hoursOf env body.wed ∧ e.thu = hoursOf env body.thu ∧
         e.fri = hoursOf env body.fri ∧ e.sat = hoursOf env body.sat ∧
         e.sun = hoursOf env body.sun) ∧
        ∀ h : ℚ, body.mon = some (.num h) → e.mon = h) := by
  refine ⟨fun h => rfl, rfl, ?_, ?_, ?_, ?_⟩
  · intro x hx
    simp [hoursOf, hx]
  · intro x q hx
    simp [hoursOf, hx]
  · intro user body sid schedule w n hs hw hsid hsch hauth hdate hnotes
    rw [saveEntry_store env now user body st sid schedule w n hs hw hsid hsch hauth hdate
      hnotes]
    have key := upsertEntry_written st sid w
      (fun e => { setHours env body.mon body.tue body.wed body.thu body.fri body.sat
                    body.sun e with notes := n })
      { id := st.nextEntryId, scheduleId := sid, weekEnding := w,
        mon := hoursOf env body.mon, tue := hoursOf env body.tue,
        wed := hoursOf env body.wed, thu := hoursOf env body.thu,
        fri := hoursOf env body.fri, sat := hoursOf env body.sat,
        sun := hoursOf env body.sun, notes := n,
        isSubmitted := false, createdAt := now }
      (by simp [hasKey]) (fun x => rfl)
    refine ⟨?_, ?_⟩
    · rcases key.1 with ⟨e, he, hk⟩
      exact ⟨e, he, by simpa [hasKey] using hk⟩
    · intro e he h1 h2
      have hvals : e.mon = hoursOf env body.mon ∧ e.tue = hoursOf env body.tue ∧
          e.wed = hoursOf env body.wed ∧ e.thu = hoursOf env body.thu ∧
          e.fri = hoursOf env body.fri ∧ e.sat = hoursOf env body.sat ∧
          e.sun = hoursOf env body.sun := by
        rcases key.2 e he (by simp [hasKey, h1, h2]) with rfl | ⟨x, rfl⟩
        · exact ⟨rfl, rfl, rfl, rfl, rfl, rfl, rfl⟩
        · exact ⟨rfl, rfl, rfl, rfl, rfl, rfl, rfl⟩
      refine ⟨hvals, ?_⟩
      intro h hm
      rw [hvals.1, hm]
      rfl
  · intro body username owner sid schedule w n hu hne hs hw huser hsid hsch hdate hnotes
    rw [externalSubmitTimesheet_store env now body st username owner sid schedule w n hu
      hne hs hw huser hsid hsch hdate hnotes]
    have key := upsertEntry_written st sid w
      (fun e => { setHours env body.mon body.tue body.wed body.thu body.fri body.sat
                    body.sun e with notes := n, isSubmitted := true })
      { id := st.nextEntryId, scheduleId := sid, weekEnding := w,
        mon := hoursOf env body.mon, tue := hoursOf env body.tue,
        wed := hoursOf env body.wed, thu := hoursOf env body.thu,
        fri := hoursOf env body.fri, sat := hoursOf env body.sat,
        sun := hoursOf env body.sun, notes := n,
        isSubmitted := true, createdAt := now }
      (by simp [hasKey]) (fun x => rfl)
    refine ⟨?_, ?_⟩
    · rcases key.1 with ⟨e, he, hk⟩
      exact ⟨e, he, by simpa [hasKey] using hk⟩
    · intro e he h1 h2
      have hvals : e.mon = hoursOf env body.mon ∧ e.tue = hoursOf env body.tue ∧
          e.wed = hoursOf env body.wed ∧ e.thu = hoursOf env body.thu ∧
          e.fri = hoursOf env body.fri ∧ e.sat = hoursOf env body.sat ∧
          e.sun = hoursOf env body.sun := by
        rcases key.2 e he (by simp [hasKey, h1, h2]) with rfl | ⟨x, rfl⟩
        · exact ⟨rfl, rfl, rfl, rfl, rfl, rfl, rfl⟩
        · exact ⟨rfl, rfl, rfl, rfl, rfl, rfl, rfl⟩
      refine ⟨hvals, ?_⟩
      intro h hm
      rw [hvals.1, hm]
      rfl

/-- Witness of C6: the owner saves `mon = 25` for a new week; the ledger then has an
entry for that week that stores `mon = 25`. -/
theorem day_hours_normalized_witness :
    ∃ e ∈ (saveEntry demoEnv 5 alice
        (entryBody (some (.num 1)) (some (.num 1718323200000)) (some (.num 25)) none)
        (sampleStore [sampleEntry false defaultNotes])).1.entries,
      e.scheduleId = 1 ∧ e.weekEnding = 1718323200000 ∧ e.mon = 25 :=
  have h := (day_hours_normalized demoEnv 5
      (sampleStore [sampleEntry false defaultNotes])).2.2.2.2.1 alice
    (entryBody (some (.num 1)) (some (.num 1718323200000)) (some (.num 25)) none)
    1 ⟨1, 2, "X", true, 0⟩ 1718323200000 defaultNotes
    (by decide) (by decide) (by decide) rfl (Or.inr rfl) (by decide) rfl
  match h.1 with
  | ⟨e, he, h1, h2⟩ => ⟨e, he, h1, h2, ((h.2 e he h1 h2).2 25 rfl)⟩

/-! ## C7 -/

/-- C7 as stated fails: the owner first saves an entry with `notes: null`, which is
stored as the text `null`; the entry is a draft, yet a day-note update of `mon` with
text `"B"` throws on the assignment to `null`, answers 500, and no note is stored for
`mon`. -/
theorem updateDayNote_on_null_notes :
    (storeAfterSave (some .null)).entries.map (fun e => (e.id, e.isSubmitted)) =
      [(2, false)] ∧
    (updateDayNote demoEnv alice "2" ⟨some (.str "mon"), some (.str "B"), none⟩
        (storeAfterSave (some .null))).2.status = 500 ∧
    (updateDayNote demoEnv alice "2" ⟨some (.str "mon"), some (.str "B"), none⟩
        (storeAfterSave (some .null))).1.entries.map
        (fun e => (storedNote demoEnv e "mon").isSome) = [false] := by
  refine ⟨by decide, by decide, by decide⟩

/-- C7 (amended).  `updateDayNote` on a draft entry whose stored notes parse to a JSON
object, by its owner or an admin, for a valid day `d` and a text `t`: the call succeeds
and rewrites only the notes of that entry; the note for `d` becomes
`existing + "\n" + t` under mode `append` when the existing note is a non-empty string,
`t` under `append` when the existing note is absent or empty, and `t` under any other or
no mode; the notes of every other key are as before, and the entry read back differs
from the old one in its notes only. -/
theorem updateDayNote_sets_note (env : JsEnv) (user : Identity) (id : String)
    (body : DayNoteBody) (st : Store) (eid : Int) (e : TimeEntry)
    (kvs : List (String × Json)) (day t : String)
    (hid : env.parseInt (.str id) = some eid)
    (hfind : findEntry st eid = some e)
    (hdraft : e.isSubmitted = false)
    (hauth : user.role = "ADMIN" ∨
      ∃ s, findSchedule st e.scheduleId = some s ∧ s.userId = user.id)
    (hnotes : parseNotesOrEmpty env e.notes = some (.obj kvs))
    (hday : body.day = some (.str day)) (hvalid : dayKeyOf day ∈ validDays)
    (htext : body.text = some (.str t)) :
    ∃ kvs1 : List (String × Json),
      (updateDayNote env user id body st).1 =
        updateEntry st eid (fun x => { x with notes := .json (.obj kvs1) }) ∧
      (updateDayNote env user id body st).2.status = 200 ∧
      findEntry (updateDayNote env user id body st).1 eid =
        some { e with notes := .json (.obj kvs1) } ∧
      (∀ k, k ≠ dayKeyOf day → lookupKey k kvs1 = lookupKey k kvs) ∧
      (isAppend body.mode = false → lookupKey (dayKeyOf day) kvs1 = some (.str t)) ∧
      (isAppend body.mode = true → ∀ a, lookupKey (dayKeyOf day) kvs = some (.str a) →
        a ≠ "" → lookupKey (dayKeyOf day) kvs1 = some (.str (a ++ "\n" ++ t))) ∧
      (isAppend body.mode = true →
        (lookupKey (dayKeyOf day) kvs = none ∨
          lookupKey (dayKeyOf day) kvs = some (.str "")) →
        lookupKey (dayKeyOf day) kvs1 = some (.str t)) := by
  have hgr := @checkOwner_granted st user e hauth
  have hne := valid_day_ne_empty hvalid
  -- the value assigned to the day key
  obtain ⟨v, hv, hrep, happ, hemp⟩ : ∃ v : Json,
      applyDayNote env (.obj kvs) (dayKeyOf day) (.str t) body.mode =
        some (.obj (setKey (dayKeyOf day) v kvs)) ∧
      (isAppend body.mode = false → v = .str t) ∧
      (isAppend body.mode = true → ∀ a, lookupKey (dayKeyOf day) kvs = some (.str a) →
        a ≠ "" → v = .str (a ++ "\n" ++ t)) ∧
      (isAppend body.mode = true →
        (lookupKey (dayKeyOf day) kvs = none ∨
          lookupKey (dayKeyOf day) kvs = some (.str "")) → v = .str t) := by
    by_cases hm : isAppend body.mode = true
    · cases hl : lookupKey (dayKeyOf day) kvs with
      | none =>
        exact ⟨.str t, by simp [applyDayNote, hm, hl], by simp [hm], by simp,
          fun _ _ => rfl⟩
      | some old =>
        by_cases ht : truthy (some old) = true
        · refine ⟨.str (jsToString env old ++ "\n" ++ t), ?_, by simp [hm], ?_, ?_⟩
          · simp [applyDayNote, hm, hl, ht, jsToString]
          · intro _ a ha _
            simp only [Option.some.injEq] at ha
            subst ha
            rfl
          · intro _ h
            rcases h with h | h
            · simp at h
            · simp only [Option.some.injEq] at h
              subst h
              simp [truthy] at ht
        · refine ⟨.str t, by simp [applyDayNote, hm, hl, ht], by simp [hm], ?_,
            fun _ _ => rfl⟩
          intro _ a ha hane
          simp only [Option.some.injEq] at ha
          subst ha
          simp [truthy, hane] at ht
    · exact ⟨.str t, by simp [applyDayNote, hm], fun _ => rfl, by simp [hm], by simp [hm]⟩
  have hres : updateDayNote env user id body st =
      (updateEntry st eid
          (fun x => { x with notes := .json (.obj (setKey (dayKeyOf day) v kvs)) }),
        ⟨200, .entry { e with notes := .json (.obj (setKey (dayKeyOf day) v kvs)) }
          (.obj (setKey (dayKeyOf day) v kvs))⟩) := by
    simp [updateDayNote, hid, hfind, hgr, hdraft, hday, htext, truthy, hne, hvalid,
      hnotes, hv]
  refine ⟨setKey (dayKeyOf day) v kvs, by rw [hres], by rw [hres], ?_, ?_, ?_, ?_, ?_⟩
  · rw [hres]
    show findEntry (updateEntry st eid
      (fun x => { x with notes := .json (.obj (setKey (dayKeyOf day) v kvs)) })) eid = _
    rw [findEntry_updateEntry st eid
      (fun x => { x with notes := .json (.obj (setKey (dayKeyOf day) v kvs)) })
      (fun _ => rfl), hfind]
    rfl
  · intro k hk
    exact lookupKey_setKey_other _ _ _ _ hk
  · intro hm
    rw [lookupKey_setKey_same, hrep hm]
  · intro hm a ha hane
    rw [lookupKey_setKey_same, happ hm a ha hane]
  · intro hm h
    rw [lookupKey_setKey_same, hemp hm h]

/-- Witness of C7 (amended): on the draft sample entry with `mon` note `"A"`, the
owner's update of `Monday` with text `"B"` stores `"A\nB"` under `append` and `"B"`
under `replace`; the note of `tue` stays empty. -/
theorem updateDayNote_sets_note_witness :
    ((findEntry (updateDayNote demoEnv alice "1"
          ⟨some (.str "Monday"), some (.str "B"), some (.str "append")⟩
          (sampleStore [sampleEntry false (.json (.obj (notesWithMon "A")))])).1 1).bind
        (fun e => storedNote demoEnv e "mon") = some (.str "A\nB") ∧
      (findEntry (updateDayNote demoEnv alice "1"
          ⟨some (.str "Monday"), some (.str "B"), some (.str "append")⟩
          (sampleStore [sampleEntry false (.json (.obj (notesWithMon "A")))])).1 1).bind
        (fun e => storedNote demoEnv e "tue") = some (.str "")) ∧
    (findEntry (updateDayNote demoEnv alice "1"
          ⟨some (.str "Monday"), some (.str "B"), some (.str "replace")⟩
          (sampleStore [sampleEntry false (.json (.obj (notesWithMon "A")))])).1 1).bind
        (fun e => storedNote demoEnv e "mon") = some (.str "B") := by
  constructor
  · obtain ⟨kvs1, -, -, h3, h4, -, h6, -⟩ :=
      updateDayNote_sets_note demoEnv alice "1"
        ⟨some (.str "Monday"), some (.str "B"), some (.str "append")⟩
        (sampleStore [sampleEntry false (.json (.obj (notesWithMon "A")))]) 1
        (sampleEntry false (.json (.obj (notesWithMon "A")))) (notesWithMon "A")
        "Monday" "B" (by decide) rfl rfl (Or.inr ⟨⟨1, 2, "X", true, 0⟩, rfl, rfl⟩) rfl rfl
        (by decide) rfl
    rw [h3]
    exact ⟨h6 (by decide) "A" rfl (by decide), (h4 "tue" (by decide)).trans rfl⟩
  · obtain ⟨kvs1, -, -, h3, -, h5, -, -⟩ :=
      updateDayNote_sets_note demoEnv alice "1"
        ⟨some (.str "Monday"), some (.str "B"), some (.str "replace")⟩
        (sampleStore [sampleEntry false (.json (.obj (notesWithMon "A")))]) 1
        (sampleEntry false (.json (.obj (notesWithMon "A")))) (notesWithMon "A")
        "Monday" "B" (by decide) rfl rfl (Or.inr ⟨⟨1, 2, "X", true, 0⟩, rfl, rfl⟩) rfl rfl
        (by decide) rfl
    rw [h3]
    exact h5 (by decide)

/-! ## C8 -/

theorem updateDayNote_invalid (env : JsEnv) (user : Identity) (id : String)
    (body : DayNoteBody) (st : Store) (day : String)
    (hday : body.day = some (.str day)) (hv : dayKeyOf day ∉ validDays) :
    updateDayNote env user id body st =
        (st, ⟨400, .error "\"day\" and \"text\" are required"⟩) ∨
    updateDayNote env user id body st =
        (st, ⟨400, .error ("Invalid day \"" ++ day ++
          "\". Use: mon, tue, wed, thu, fri, sat, sun")⟩) := by
  cases ht : body.text with
  | none => left; simp [updateDayNote, ht]
  | some text =>
    by_cases hne : day = ""
    · left; simp [updateDayNote, hday, truthy, hne]
    · right; simp [updateDayNote, hday, ht, truthy, hne, hv]

theorem updateDayNote_valid (env : JsEnv) (user : Identity) (id : String)
    (body : DayNoteBody) (st : Store) (day : String) (text : Json)
    (hday : body.day = some (.str day)) (hv : dayKeyOf day ∈ validDays)
    (ht : body.text = some text) :
    ∀ m, (updateDayNote env user id body st).2.errorMessage = some m →
      m ≠ "\"day\" and \"text\" are required" ∧
      m.data.head? ≠ some (Char.ofNat 73) := by
  have htr := truthy_str_of_ne (valid_day_ne_empty hv)
  have hc := contains_of_valid hv
  intro m
  simp only [updateDayNote, hday, ht, htr, hc, Bool.not_true, Option.isNone_some,
    Bool.or_self, Bool.false_eq_true, if_false]
  repeat' split
  all_goals
    simp only [Response.errorMessage, internalError, Option.some.injEq, reduceCtorEq,
      false_implies]
  all_goals
    rintro rfl
    decide

theorem externalUpdateNote_invalid (env : JsEnv) (body : ExternalNoteBody) (st : Store)
    (day : String) (hday : body.day = some (.str day)) (hv : dayKeyOf day ∉ validDays) :
    externalUpdateNote env body st =
        (st, ⟨400, .error "entryId, day, and text are required"⟩) ∨
    externalUpdateNote env body st =
        (st, ⟨400, .error ("Invalid day: " ++ day ++
          ". Use: monday, tuesday, wednesday, thursday, friday, saturday, sunday")⟩) := by
  cases ht : body.text with
  | none => left; simp [externalUpdateNote, ht]
  | some text =>
    by_cases hne : day = ""
    · left; simp [externalUpdateNote, hday, truthy, hne]
    · by_cases hid : truthy body.entryId = true
      · right
        simp [externalUpdateNote, hday, ht, truthy_str_of_ne hne, hv, hid]
      · left; simp [externalUpdateNote, hid]

theorem externalUpdateNote_valid (env : JsEnv) (body : ExternalNoteBody) (st : Store)
    (day : String) (text : Json)
    (hday : body.day = some (.str day)) (hv : dayKeyOf day ∈ validDays)
    (hid : truthy body.entryId = true) (ht : body.text = some text) :
    ∀ m, (externalUpdateNote env body st).2.errorMessage = some m →
      m ≠ "entryId, day, and text are required" ∧
      m.data.head? ≠ some (Char.ofNat 73) := by
  have htr := truthy_str_of_ne (valid_day_ne_empty hv)
  have hc := contains_of_valid hv
  intro m
  simp only [externalUpdateNote, hday, ht, hid, htr, hc, Bool.not_true, Option.isNone_some,
    Bool.or_self, Bool.false_eq_true, if_false]
  repeat' split
  all_goals
    simp only [Response.errorMessage, internalError, Option.some.injEq, reduceCtorEq,
      false_implies]
  all_goals
    rintro rfl
    decide

/-- C8.  Day-code validation in `updateDayNote` and in the external `update-note`.  The
day string is lower-cased and cut to three characters (`"Monday"` and `"MON"` both give
`mon`).  If the code is not one of the seven day codes, the request fails with status
400, with the missing-field or the invalid-day message, and the store is unchanged.  When
the other required fields are present, the request is rejected with one of those two
validation messages exactly when the code is not a day code. -/
theorem day_code_validation (env : JsEnv) (st : Store) (day : String) :
    dayKeyOf "Monday" = "mon" ∧ dayKeyOf "MON" = "mon" ∧
    (∀ (user : Identity) (id : String) (body : DayNoteBody),
      body.day = some (.str day) →
      (dayKeyOf day ∉ validDays →
        (updateDayNote env user id body st).1 = st ∧
        (updateDayNote env user id body st).2.status = 400 ∧
        ((updateDayNote env user id body st).2.errorMessage =
            some "\"day\" and \"text\" are required" ∨
          (updateDayNote env user id body st).2.errorMessage =
            some ("Invalid day \"" ++ day ++
              "\". Use: mon, tue, wed, thu, fri, sat, sun"))) ∧
      (body.text.isSome = true →
        (dayKeyOf day ∈ validDays ↔
          ¬ ((updateDayNote env user id body st).2.errorMessage =
              some "\"day\" and \"text\" are required" ∨
            (updateDayNote env user id body st).2.errorMessage =
              some ("Invalid day \"" ++ day ++
                "\". Use: mon, tue, wed, thu, fri, sat, sun"))))) ∧
    (∀ (body : ExternalNoteBody),
      body.day = some (.str day) →
      (dayKeyOf day ∉ validDays →
        (externalUpdateNote env body st).1 = st ∧
        (externalUpdateNote env body st).2.status = 400 ∧
        ((externalUpdateNote env body st).2.errorMessage =
            some "entryId, day, and text are required" ∨
          (externalUpdateNote env body st).2.errorMessage =
            some ("Invalid day: " ++ day ++
              ". Use: monday, tuesday, wednesday, thursday, friday, saturday, sunday"))) ∧
      (truthy body.entryId = true → body.text.isSome = true →
        (dayKeyOf day ∈ validDays ↔
          ¬ ((externalUpdateNote env body st).2.errorMessage =
              some "entryId, day, and text are required" ∨
            (externalUpdateNote env body st).2.errorMessage =
              some ("Invalid day: " ++ day ++
                ". Use: monday, tuesday, wednesday, thursday, friday, saturday, sunday"))))) := by
  refine ⟨by decide, by decide, ?_, ?_⟩
  · intro user id body hday
    refine ⟨?_, ?_⟩
    · intro hv
      rcases updateDayNote_invalid env user id body st day hday hv with h | h
      · rw [h]; exact ⟨rfl, rfl, Or.inl rfl⟩
      · rw [h]; exact ⟨rfl, rfl, Or.inr rfl⟩
    · intro ht
      obtain ⟨text, ht⟩ := Option.isSome_iff_exists.mp ht
      constructor
      · intro hv
        have hm := updateDayNote_valid env user id body st day text hday hv ht
        rintro (h | h)
        · have := hm _ h
          revert this
          decide
        · exact invalid_day_ne day _ (hm _ h).2 rfl
      · intro hnot
        by_contra hv
        apply hnot
        rcases updateDayNote_invalid env user id body st day hday hv with h | h
        · rw [h]; exact Or.inl rfl
        · rw [h]; exact Or.inr rfl
  · intro body hday
    refine ⟨?_, ?_⟩
    · intro hv
      rcases externalUpdateNote_invalid env body st day hday hv with h | h
      · rw [h]; exact ⟨rfl, rfl, Or.inl rfl⟩
      · rw [h]; exact ⟨rfl, rfl, Or.inr rfl⟩
    · intro hid ht
      obtain ⟨text, ht⟩ := Option.isSome_iff_exists.mp ht
      constructor
      · intro hv
        have hm := externalUpdateNote_valid env body st day text hday hv hid ht
        rintro (h | h)
        · have := hm _ h
          revert this
          decide
        · exact invalid_day_colon_ne day _ (hm _ h).2 rfl
      · intro hnot
        by_contra hv
        apply hnot
        rcases externalUpdateNote_invalid env body st day hday hv with h | h
        · rw [h]; exact Or.inl rfl
        · rw [h]; exact Or.inr rfl

/-- Witness of C8: `"Funday"` normalizes to `fun`, which is no day code; the request
is rejected with status 400 and the store is unchanged. -/
theorem day_code_validation_witness :
    (updateDayNote demoEnv alice "1" ⟨some (.str "Funday"), some (.str "B"), none⟩
        (sampleStore [sampleEntry false defaultNotes])).1 =
      sampleStore [sampleEntry false defaultNotes] ∧
    (updateDayNote demoEnv alice "1" ⟨some (.str "Funday"), some (.str "B"), none⟩
        (sampleStore [sampleEntry false defaultNotes])).2.status = 400 ∧
    ((updateDayNote demoEnv alice "1" ⟨some (.str "Funday"), some (.str "B"), none⟩
        (sampleStore [sampleEntry false defaultNotes])).2.errorMessage =
        some "\"day\" and \"text\" are required" ∨
      (updateDayNote demoEnv alice "1" ⟨some (.str "Funday"), some (.str "B"), none⟩
        (sampleStore [sampleEntry false defaultNotes])).2.errorMessage =
        some ("Invalid day \"" ++ "Funday" ++
          "\". Use: mon, tue, wed, thu, fri, sat, sun")) :=
  ((day_code_validation demoEnv (sampleStore [sampleEntry false defaultNotes])
    "Funday").2.2.1 alice "1" ⟨some (.str "Funday"), some (.str "B"), none⟩ rfl).1
    (by decide)

/-! ## C9 -/

/-- C9 as stated fails: `bob` is neither an admin nor the owner of schedule 1 and of
its entry 1.  His day-note update of that entry with the day `"xyz"` is answered 400 by
the day validation, and his time entry for the schedule without `weekEnding` is answered
400 by the required-field check; both checks run before the target is read, and neither
answer is 403. -/
theorem validation_before_authorization :
    findEntry (sampleStore [sampleEntry false defaultNotes]) 1 =
      some (sampleEntry false defaultNotes) ∧
    findSchedule (sampleStore [sampleEntry false defaultNotes]) 1 =
      some ⟨1, 2, "X", true, 0⟩ ∧
    bob.role ≠ "ADMIN" ∧ bob.id ≠ 2 ∧
    (updateDayNote demoEnv bob "1" ⟨some (.str "xyz"), some (.str "B"), none⟩
        (sampleStore [sampleEntry false defaultNotes])).2.status = 400 ∧
    (saveEntry demoEnv 5 bob (entryBody (some (.num 1)) none (some (.num 4)) none)
        (sampleStore [sampleEntry false defaultNotes])).2.status = 400 := by
  refine ⟨rfl, rfl, by decide, by decide, by decide, by decide⟩

theorem saveEntry_status_ne_403 (env : JsEnv) (now : Nat) (user : Identity)
    (body : EntryBody) (st : Store)
    (h : user.role = "ADMIN" ∨ ∀ sid s, body.scheduleId.bind env.parseInt = some sid →
      findSchedule st sid = some s → s.userId = user.id) :
    (saveEntry env now user body st).2.status ≠ 403 := by
  simp only [saveEntry]
  repeat' split
  all_goals first
    | (simp only [internalError]; decide)
    | (exfalso
       rcases h with h | h
       · simp_all
       · have := h _ _ (by assumption) (by assumption)
         simp_all)

theorem checkOwner_ne_forbidden {env : JsEnv} {st : Store} {user : Identity}
    {id : String} {eid : Int} {e : TimeEntry}
    (h : user.role = "ADMIN" ∨ ∀ eid e s, env.parseInt (.str id) = some eid →
      findEntry st eid = some e → findSchedule st e.scheduleId = some s →
      s.userId = user.id)
    (hid : env.parseInt (.str id) = some eid) (hfind : findEntry st eid = some e) :
    checkOwner st user e ≠ .forbidden := by
  unfold checkOwner
  rcases h with h | h
  · simp [h]
  · split
    · split
      · simp
      · next s hs =>
        have := h eid e s hid hfind hs
        simp [this]
    · simp

theorem entry_ops_status_ne_403 (env : JsEnv) (user : Identity) (id : String)
    (st : Store)
    (h : user.role = "ADMIN" ∨ ∀ eid e s, env.parseInt (.str id) = some eid →
      findEntry st eid = some e → findSchedule st e.scheduleId = some s →
      s.userId = user.id) :
    (submitEntry env user id st).2.status ≠ 403 ∧
    (∀ notes, (updateNotes env user id notes st).2.status ≠ 403) ∧
    (∀ body, (updateHours env user id body st).2.status ≠ 403) ∧
    (∀ body, (updateDayNote env user id body st).2.status ≠ 403) := by
  refine ⟨?_, fun notes => ?_, fun body => ?_, fun body => ?_⟩
  · simp only [submitEntry]
    repeat' split
    all_goals first
      | (simp only [internalError]; decide)
      | exact absurd (by assumption)
          (checkOwner_ne_forbidden h (by assumption) (by assumption))
  · simp only [updateNotes]
    repeat' split
    all_goals first
      | (simp only [internalError]; decide)
      | exact absurd (by assumption)
          (checkOwner_ne_forbidden h (by assumption) (by assumption))
  · simp only [updateHours]
    repeat' split
    all_goals first
      | (simp only [internalError]; decide)
      | exact absurd (by assumption)
          (checkOwner_ne_forbidden h (by assumption) (by assumption))
  · simp only [updateDayNote]
    repeat' split
    all_goals first
      | (simp only [internalError]; decide)
      | exact absurd (by assumption)
          (checkOwner_ne_forbidden h (by assumption) (by assumption))

theorem updateDayNote_fails_of_forbidden (env : JsEnv) (user : Identity) (id : String)
    (body : DayNoteBody) (st : Store) (eid : Int) (e : TimeEntry)
    (hid : env.parseInt (.str id) = some eid) (hfind : findEntry st eid = some e)
    (hforb : checkOwner st user e = .forbidden) :
    (updateDayNote env user id body st).1 = st ∧
    (updateDayNote env user id body st).2.status ≠ 200 := by
  simp only [updateDayNote, hid, hfind, hforb]
  repeat' split
  all_goals exact ⟨rfl, by simp only [internalError]; decide⟩

/-- C9 (amended).  Ownership-or-admin authorization of `saveEntry`, `submitEntry`,
`updateNotes`, `updateHours` and `updateDayNote`.
(1) For a caller who is neither an admin nor the owner of the existing target, the
request answers 403 "Not authorized" with the store unchanged, provided it passes the
checks the handler makes before reading the target (`saveEntry`: `scheduleId` and
`weekEnding` present; `updateDayNote`: valid day string and `text` present); every
`updateDayNote` request of such a caller fails and leaves the store unchanged.
(2) For an admin, or a caller who owns the target, no request answers 403.
(3) A request that passes those checks and names a missing target answers 404 with
the store unchanged. -/
theorem ownership_or_admin (env : JsEnv) (st : Store) (user : Identity) :
    (user.role ≠ "ADMIN" →
      (∀ (now : Nat) (body : EntryBody) (sid : Int) (s : Schedule),
        truthy body.scheduleId = true → truthy body.weekEnding = true →
        body.scheduleId.bind env.parseInt = some sid → findSchedule st sid = some s →
        s.userId ≠ user.id →
        saveEntry env now user body st = (st, ⟨403, .error "Not authorized"⟩)) ∧
      (∀ (id : String) (eid : Int) (e : TimeEntry) (s : Schedule),
        env.parseInt (.str id) = some eid → findEntry st eid = some e →
        findSchedule st e.scheduleId = some s → s.userId ≠ user.id →
        submitEntry env user id st = (st, ⟨403, .error "Not authorized"⟩) ∧
        (∀ notes, updateNotes env user id notes st =
          (st, ⟨403, .error "Not authorized"⟩)) ∧
        (∀ body, updateHours env user id body st =
          (st, ⟨403, .error "Not authorized"⟩)) ∧
        (∀ (body : DayNoteBody) (day : String) (text : Json),
          body.day = some (.str day) → dayKeyOf day ∈ validDays →
          body.text = some text →
          updateDayNote env user id body st = (st, ⟨403, .error "Not authorized"⟩)) ∧
        (∀ body, (updateDayNote env user id body st).1 = st ∧
          (updateDayNote env user id body st).2.status ≠ 200))) ∧
    ((∀ (now : Nat) (body : EntryBody),
        (user.role = "ADMIN" ∨ ∀ sid s, body.scheduleId.bind env.parseInt = some sid →
          findSchedule st sid = some s → s.userId = user.id) →
        (saveEntry env now user body st).2.status ≠ 403) ∧
      (∀ (id : String),
        (user.role = "ADMIN" ∨ ∀ eid e s, env.parseInt (.str id) = some eid →
          findEntry st eid = some e → findSchedule st e.scheduleId = some s →
          s.userId = user.id) →
        (submitEntry env user id st).2.status ≠ 403 ∧
        (∀ notes, (updateNotes env user id notes st).2.status ≠ 403) ∧
        (∀ body, (updateHours env user id body st).2.status ≠ 403) ∧
        (∀ body, (updateDayNote env user id body st).2.status ≠ 403))) ∧
    ((∀ (now : Nat) (body : EntryBody) (sid : Int),
        truthy body.scheduleId = true → truthy body.weekEnding = true →
        body.scheduleId.bind env.parseInt = some sid → findSchedule st sid = none →
        saveEntry env now user body st = (st, ⟨404, .error "Schedule not found"⟩)) ∧
      (∀ (id : String) (eid : Int),
        env.parseInt (.str id) = some eid → findEntry st eid = none →
        submitEntry env user id st = (st, ⟨404, .error "Time entry not found"⟩) ∧
        (∀ notes, updateNotes env user id notes st =
          (st, ⟨404, .error "Time entry not found"⟩)) ∧
        (∀ body, updateHours env user id body st =
          (st, ⟨404, .error "Time entry not found"⟩)) ∧
        (∀ (body : DayNoteBody) (day : String) (text : Json),
          body.day = some (.str day) → dayKeyOf day ∈ validDays →
          body.text = some text →
          updateDayNote env user id body st =
            (st, ⟨404, .error "Time entry not found"⟩)))) := by
  refine ⟨fun hr => ⟨?_, ?_⟩, ⟨?_, ?_⟩, ⟨?_, ?_⟩⟩
  · intro now body sid s hs hw hsid hsch hu
    simp [saveEntry, hs, hw, hsid, hsch, hr, hu]
  · intro id eid e s hid hfind hsch hu
    have hforb := checkOwner_forbidden hr hsch hu
    refine ⟨?_, fun notes => ?_, fun body => ?_, ?_, fun body => ?_⟩
    · simp [submitEntry, hid, hfind, hforb]
    · simp [updateNotes, hid, hfind, hforb]
    · simp [updateHours, hid, hfind, hforb]
    · intro body day text hday hv ht
      simp [updateDayNote, hid, hfind, hforb, hday, ht,
        truthy_str_of_ne (valid_day_ne_empty hv), hv]
    · exact updateDayNote_fails_of_forbidden env user id body st eid e hid hfind hforb
  · intro now body h
    exact saveEntry_status_ne_403 env now user body st h
  · intro id h
    exact entry_ops_status_ne_403 env user id st h
  · intro now body sid hs hw hsid hnone
    simp [saveEntry, hs, hw, hsid, hnone]
  · intro id eid hid hnone
    refine ⟨?_, fun notes => ?_, fun body => ?_, ?_⟩
    · simp [submitEntry, hid, hnone]
    · simp [updateNotes, hid, hnone]
    · simp [updateHours, hid, hnone]
    · intro body day text hday hv ht
      simp [updateDayNote, hid, hnone, hday, ht,
        truthy_str_of_ne (valid_day_ne_empty hv), hv]

/-- Witness of C9 (amended): `bob` posts a complete time entry for `alice`'s schedule
and is refused with 403; the store is unchanged. -/
theorem ownership_or_admin_witness :
    saveEntry demoEnv 5 bob
        (entryBody (some (.num 1)) (some (.num 1717718400000)) (some (.num 4)) none)
        (sampleStore [sampleEntry false defaultNotes]) =
      (sampleStore [sampleEntry false defaultNotes], ⟨403, .error "Not authorized"⟩) :=
  ((ownership_or_admin demoEnv (sampleStore [sampleEntry false defaultNotes]) bob).1
    (by decide)).1 5
    (entryBody (some (.num 1)) (some (.num 1717718400000)) (some (.num 4)) none)
    1 ⟨1, 2, "X", true, 0⟩ (by decide) (by decide) (by decide) rfl (by decide)

/-! ## C10 -/

/-- C10 as stated fails: the owner first saves an entry with `notes: "hello"`, which
is stored verbatim; submitting that entry writes `isSubmitted = true` and then throws
while parsing the stored notes for the response, so the request answers 500. -/
theorem submitEntry_fails_on_unparseable_notes :
    (storeAfterSave (some (.str "hello"))).entries.map
        (fun e => (e.id, e.isSubmitted, (parseNotes demoEnv e.notes).isSome)) =
      [(2, false, false)] ∧
    (submitEntry demoEnv alice "2" (storeAfterSave (some (.str "hello")))).2.status =
      500 ∧
    (submitEntry demoEnv alice "2" (storeAfterSave (some (.str "hello")))).1.entries.map
        (fun e => (e.id, e.isSubmitted)) = [(2, true)] := by
  refine ⟨by decide, by decide, by decide⟩

theorem submitEntry_store (env : JsEnv) (user : Identity) (id : String) (st : Store)
    (eid : Int) (e : TimeEntry)
    (hid : env.parseInt (.str id) = some eid) (hfind : findEntry st eid = some e)
    (hgr : checkOwner st user e = .granted) :
    (submitEntry env user id st).1 =
      updateEntry st eid (fun x => { x with isSubmitted := true }) := by
  simp only [submitEntry, hid, hfind, hgr]
  split <;> rfl

theorem updateEntry_twice (st : Store) (i : Int) (f : TimeEntry → TimeEntry)
    (hid : ∀ x, (f x).id = x.id) (hff : ∀ x, f (f x) = f x) :
    updateEntry (updateEntry st i f) i f = updateEntry st i f := by
  unfold updateEntry
  simp only [List.map_map]
  congr 1
  apply List.map_congr_left
  intro x _
  by_cases h : x.id = i
  · simp [h, hid, hff]
  · simp [h]

theorem checkOwner_updateEntry (st : Store) (user : Identity) (i : Int)
    (f : TimeEntry → TimeEntry) (e : TimeEntry) (hs : (f e).scheduleId = e.scheduleId) :
    checkOwner (updateEntry st i f) user (f e) = checkOwner st user e := by
  unfold checkOwner findSchedule updateEntry
  rw [hs]

/-- C10 (amended).  `submitEntry` for an existing entry and a caller who is its owner or
an admin, whatever the hours are: the store written is the old one with `isSubmitted`
set on the entry of that id and nothing else changed (the entry read back differs from
the old one in that flag only); the request answers 200 with that entry whenever the
stored notes of the entry parse as JSON; and a second `submitEntry` leaves the store as
the first one left it. -/
theorem submitEntry_effect (env : JsEnv) (user : Identity) (id : String) (st : Store)
    (eid : Int) (e : TimeEntry)
    (hid : env.parseInt (.str id) = some eid) (hfind : findEntry st eid = some e)
    (hauth : user.role = "ADMIN" ∨
      ∃ s, findSchedule st e.scheduleId = some s ∧ s.userId = user.id) :
    (submitEntry env user id st).1 =
      { st with
        entries := st.entries.map (fun x =>
          if x.id = eid then { x with isSubmitted := true } else x) } ∧
    findEntry (submitEntry env user id st).1 eid = some { e with isSubmitted := true } ∧
    (∀ notes, parseNotes env e.notes = some notes →
      (submitEntry env user id st).2 =
        ⟨200, .entry { e with isSubmitted := true } notes⟩) ∧
    (submitEntry env user id (submitEntry env user id st).1).1 =
      (submitEntry env user id st).1 := by
  have hgr := @checkOwner_granted st user e hauth
  have hst := submitEntry_store env user id st eid e hid hfind hgr
  have hfind1 : findEntry (updateEntry st eid (fun x => { x with isSubmitted := true })) eid
      = some { e with isSubmitted := true } := by
    rw [findEntry_updateEntry st eid (fun x => { x with isSubmitted := true })
      (fun _ => rfl), hfind]
    rfl
  refine ⟨hst, ?_, ?_, ?_⟩
  · rw [hst]
    exact hfind1
  · intro notes hn
    have hn1 : parseNotes env ({ e with isSubmitted := true } : TimeEntry).notes =
        some notes := hn
    simp only [submitEntry, hid, hfind, hgr, hn1]
  · rw [hst]
    have hgr1 : checkOwner (updateEntry st eid (fun x => { x with isSubmitted := true }))
        user { e with isSubmitted := true } = .granted := by
      rw [checkOwner_updateEntry st user eid (fun x => { x with isSubmitted := true }) e
        rfl]
      exact hgr
    rw [submitEntry_store env user id _ eid _ hid hfind1 hgr1]
    exact updateEntry_twice st eid _ (fun _ => rfl) (fun _ => rfl)

/-- Witness of C10 (amended): the owner submits the draft sample entry, whose hours
other than `mon` are all zero; the answer is 200 and the entry read back is the same
entry with `isSubmitted = true`. -/
theorem submitEntry_effect_witness :
    findEntry (submitEntry demoEnv alice "1"
        (sampleStore [sampleEntry false defaultNotes])).1 1 =
      some (sampleEntry true defaultNotes) ∧
    (submitEntry demoEnv alice "1"
        (submitEntry demoEnv alice "1"
          (sampleStore [sampleEntry false defaultNotes])).1).1 =
      (submitEntry demoEnv alice "1" (sampleStore [sampleEntry false defaultNotes])).1 :=
  ⟨(submitEntry_effect demoEnv alice "1" (sampleStore [sampleEntry false defaultNotes]) 1
      (sampleEntry false defaultNotes) (by decide) rfl
      (Or.inr ⟨⟨1, 2, "X", true, 0⟩, rfl, rfl⟩)).2.1,
   (submitEntry_effect demoEnv alice "1" (sampleStore [sampleEntry false defaultNotes]) 1
      (sampleEntry false defaultNotes) (by decide) rfl
      (Or.inr ⟨⟨1, 2, "X", true, 0⟩, rfl, rfl⟩)).2.2.2⟩

/-! ## Listings: sorting and mapping -/

theorem orderBy_perm {α : Type} (createdAt : α → Nat) (rows : List α) :
    (orderByCreatedAtDesc createdAt rows).Perm rows :=
  List.perm_insertionSort _ rows

theorem orderBy_sorted {α : Type} (createdAt : α → Nat) (rows : List α) :
    (orderByCreatedAtDesc createdAt rows).Sorted (NewerFirst createdAt) :=
  List.sorted_insertionSort _ rows

theorem mem_orderBy {α : Type} (createdAt : α → Nat) (rows : List α) (a : α) :
    a ∈ orderByCreatedAtDesc createdAt rows ↔ a ∈ rows :=
  (orderBy_perm createdAt rows).mem_iff

theorem mapAll_map {α β : Type} (f : α → Option β) (g : β → α)
    (hfg : ∀ a b, f a = some b → g b = a) :
    ∀ (l : List α) (bs : List β), mapAll f l = some bs → bs.map g = l := by
  intro l
  induction l with
  | nil =>
    intro bs h
    simp only [mapAll, Option.some.injEq] at h
    subst h
    rfl
  | cons a rest ih =>
    intro bs h
    simp only [mapAll] at h
    split at h
    · next b bs1 hb hbs =>
      simp only [Option.some.injEq] at h
      subst h
      simp [hfg a b hb, ih bs1 hbs]
    · simp at h

theorem mapAll_isSome {α β : Type} (f : α → Option β) (l : List α)
    (h : ∀ a ∈ l, (f a).isSome = true) : (mapAll f l).isSome = true := by
  induction l with
  | nil => rfl
  | cons a rest ih =>
    obtain ⟨b, hb⟩ := Option.isSome_iff_exists.mp (h a (by simp))
    obtain ⟨bs, hbs⟩ := Option.isSome_iff_exists.mp
      (ih (fun x hx => h x (List.mem_cons_of_mem _ hx)))
    simp [mapAll, hb, hbs]

/-! ## C11 -/

theorem listEntries_rows (env : JsEnv) (user : Identity) (scheduleId weekEnding : JsVal)
    (st : Store) (rows : List ListedEntry)
    (hok : (listEntries env user scheduleId weekEnding st).body = .entries rows) :
    ∃ p, entriesWhere env user scheduleId weekEnding st = some p ∧
      rows.map (fun r => r.entry) =
        orderByCreatedAtDesc (fun e : TimeEntry => e.createdAt) (st.entries.filter p) := by
  simp only [listEntries] at hok
  split at hok
  · simp [internalError] at hok
  · next p hp =>
    split at hok
    · next parsed hparsed =>
      simp only [Body.entries.injEq] at hok
      subst hok
      refine ⟨p, hp, ?_⟩
      refine mapAll_map _ (fun r => r.entry) ?_ _ _ hparsed
      intro a b hb
      cases hn : parseNotesOrEmpty env a.notes with
      | none => simp [hn] at hb
      | some n =>
        simp only [hn, Option.map_some', Option.some.injEq] at hb
        subst hb
        rfl
    · simp [internalError] at hok

theorem entriesWhere_user (env : JsEnv) (user : Identity) (scheduleId weekEnding : JsVal)
    (st : Store) (p : TimeEntry → Bool) (hr : user.role ≠ "ADMIN")
    (hp : entriesWhere env user scheduleId weekEnding st = some p) (e : TimeEntry)
    (he : p e = true) :
    ∃ s ∈ st.schedules, s.id = e.scheduleId ∧ s.userId = user.id := by
  simp only [entriesWhere, hr, ne_eq, not_false_eq_true, if_true] at hp
  split at hp
  · next p1 q1 hp1 hq1 =>
    simp only [Option.some.injEq] at hp hp1
    subst hp hp1
    simp only [Bool.and_eq_true] at he
    have hc := he.1
    simp only [List.contains_iff_exists_mem_beq, List.mem_map, List.mem_filter,
      decide_eq_true_eq, beq_iff_eq] at hc
    obtain ⟨i, ⟨s, ⟨hs, hu⟩, rfl⟩, hi⟩ := hc
    exact ⟨s, hs, hi.symm, hu⟩
  · simp at hp

theorem entriesWhere_admin (env : JsEnv) (user : Identity) (scheduleId weekEnding : JsVal)
    (st : Store) (p : TimeEntry → Bool) (hr : user.role = "ADMIN")
    (hp : entriesWhere env user scheduleId weekEnding st = some p) (e : TimeEntry) :
    p e = true ↔
      ((truthy scheduleId = true → scheduleId.bind env.parseInt = some e.scheduleId) ∧
       (truthy weekEnding = true → weekEnding.bind env.newDate = some e.weekEnding)) := by
  simp only [entriesWhere, hr, ne_eq, not_true_eq_false, if_false] at hp
  split at hp
  · next p1 q1 hp1 hq1 =>
    simp only [Option.some.injEq] at hp
    subst hp
    simp only [Bool.and_eq_true]
    apply and_congr
    · by_cases hs : truthy scheduleId = true
      · simp only [hs, if_true] at hp1
        cases hv : scheduleId.bind env.parseInt with
        | none => simp [hv] at hp1
        | some sid =>
          simp only [hv, Option.map_some', Option.some.injEq] at hp1
          subst hp1
          simp [hs, eq_comm]
      · simp only [hs, Bool.false_eq_true, if_false, Option.some.injEq] at hp1
        subst hp1
        simp [hs]
    · by_cases hs : truthy weekEnding = true
      · simp only [hs, if_true] at hq1
        cases hv : weekEnding.bind env.newDate with
        | none => simp [hv] at hq1
        | some w =>
          simp only [hv, Option.map_some', Option.some.injEq] at hq1
          subst hq1
          simp [hs, eq_comm]
      · simp only [hs, Bool.false_eq_true, if_false, Option.some.injEq] at hq1
        subst hq1
        simp [hs]
  · simp at hp

/-- C11.  Scoping of `listEntries`.  Whenever the request answers with a list of rows:
the listed entries are entries of the store; for a caller who is no admin, every listed
entry belongs to a schedule whose `userId` is the caller's id (and, schedule ids being
distinct, to no schedule of another user); for an admin, every entry of the store that
matches the filters given in the query is listed. -/
theorem listEntries_scoping (env : JsEnv) (user : Identity) (scheduleId weekEnding : JsVal)
    (st : Store) (rows : List ListedEntry)
    (hok : (listEntries env user scheduleId weekEnding st).body = .entries rows) :
    (∀ r ∈ rows, r.entry ∈ st.entries) ∧
    (user.role ≠ "ADMIN" →
      ∀ r ∈ rows,
        (∃ s ∈ st.schedules, s.id = r.entry.scheduleId ∧ s.userId = user.id) ∧
        ((st.schedules.map (fun s => s.id)).Nodup →
          ∀ s ∈ st.schedules, s.id = r.entry.scheduleId → s.userId = user.id)) ∧
    (user.role = "ADMIN" →
      ∀ e ∈ st.entries,
        (truthy scheduleId = true → scheduleId.bind env.parseInt = some e.scheduleId) →
        (truthy weekEnding = true → weekEnding.bind env.newDate = some e.weekEnding) →
        e ∈ rows.map (fun r => r.entry)) := by
  obtain ⟨p, hp, hrows⟩ := listEntries_rows env user scheduleId weekEnding st rows hok
  have hmem : ∀ r ∈ rows, r.entry ∈ st.entries ∧ p r.entry = true := by
    intro r hr
    have : r.entry ∈ rows.map (fun r => r.entry) := List.mem_map.mpr ⟨r, hr, rfl⟩
    rw [hrows, mem_orderBy] at this
    exact List.mem_filter.mp this
  refine ⟨fun r hr => (hmem r hr).1, ?_, ?_⟩
  · intro hrole r hr
    obtain ⟨s, hs, hid, hu⟩ := entriesWhere_user env user scheduleId weekEnding st p hrole
      hp r.entry (hmem r hr).2
    refine ⟨⟨s, hs, hid, hu⟩, ?_⟩
    intro hnd s1 hs1 hid1
    have : s1 = s := List.inj_on_of_nodup_map hnd hs1 hs (hid1.trans hid.symm)
    rw [this]
    exact hu
  · intro hrole e he h1 h2
    rw [hrows, mem_orderBy]
    exact List.mem_filter.mpr ⟨he,
      (entriesWhere_admin env user scheduleId weekEnding st p hrole hp e).mpr ⟨h1, h2⟩⟩

/-- Witness of C11: `alice` lists the entries of the team store without filter and
gets a list in which every entry belongs to one of her schedules; the admin's list
contains the entry of `bob`. -/
theorem listEntries_scoping_witness :
    (∃ rows, (listEntries demoEnv alice none none teamStore).body = .entries rows ∧
      ∀ r ∈ rows, ∃ s ∈ teamStore.schedules,
        s.id = r.entry.scheduleId ∧ s.userId = alice.id) ∧
    (∃ rows, (listEntries demoEnv root none none teamStore).body = .entries rows ∧
      entryOf 3 3 31 ∈ rows.map (fun r => r.entry)) :=
  ⟨⟨_, rfl, fun r hr =>
      ((listEntries_scoping demoEnv alice none none teamStore _ rfl).2.1 (by decide)
        r hr).1⟩,
   ⟨_, rfl,
      (listEntries_scoping demoEnv root none none teamStore _ rfl).2.2 rfl
        (entryOf 3 3 31) (by simp [teamStore]) (by decide) (by decide)⟩⟩

/-! ## C12 -/

theorem entriesWhere_user_ignores_scheduleId (env : JsEnv) (user : Identity)
    (scheduleId weekEnding : JsVal) (st : Store) (hr : user.role ≠ "ADMIN") :
    entriesWhere env user scheduleId weekEnding st =
      entriesWhere env user none weekEnding st := by
  simp only [entriesWhere, hr, ne_eq, not_false_eq_true, if_true]

/-- For a caller who is no admin the answer of `listEntries` does not depend on the
`scheduleId` of the query. -/
theorem listEntries_user_ignores_scheduleId (env : JsEnv) (user : Identity)
    (scheduleId weekEnding : JsVal) (st : Store) (hr : user.role ≠ "ADMIN") :
    listEntries env user scheduleId weekEnding st =
      listEntries env user none weekEnding st := by
  simp only [listEntries, entriesWhere_user_ignores_scheduleId env user scheduleId
    weekEnding st hr]

/-- C12 (the code departs from the claim).  `alice` owns schedules 1 and 2.  Her
listing with the filter `scheduleId=1` returns the entry of schedule 2 as well: for a
caller who is no admin the `scheduleId` of the query is overwritten by the ownership
filter.  The same query by the admin returns the entry of schedule 1 only. -/
theorem listEntries_user_filter_overwritten :
    (listEntries demoEnv alice (some (.str "1")) none teamStore).listedEntries =
      [(2, 2), (1, 1)] ∧
    (listEntries demoEnv alice none none teamStore).listedEntries = [(2, 2), (1, 1)] ∧
    (listEntries demoEnv root (some (.str "1")) none teamStore).listedEntries =
      [(1, 1)] := by
  refine ⟨by decide, by decide, by decide⟩

/-! ## C18 -/

/-- C18.  `GET /api/schedules` answers 200 with a list that is ordered by `createdAt`
descending; for an admin it holds every schedule of the store, and for any other caller
exactly the schedules whose `userId` is the caller's id; every row carries the
`id` and `username` of the user the schedule's `userId` points to. -/
theorem listSchedules_scoped (user : Identity) (st : Store) :
    ∃ rows : List ListedSchedule,
      listSchedules user st = ⟨200, .schedules rows⟩ ∧
      (rows.map (fun r => r.schedule)).Sorted
        (NewerFirst (fun s : Schedule => s.createdAt)) ∧
      (user.role = "ADMIN" → (rows.map (fun r => r.schedule)).Perm st.schedules) ∧
      (user.role ≠ "ADMIN" →
        (rows.map (fun r => r.schedule)).Perm
          (st.schedules.filter (fun s => decide (s.userId = user.id)))) ∧
      (∀ r ∈ rows, ∀ u, st.users.find? (fun u => decide (u.id = r.schedule.userId)) = some u →
        r.user = some { id := u.id, username := u.username }) := by
  have hmap : ∀ l : List Schedule,
      (l.map (fun s => ({ schedule := s, user := scheduleUser st s } : ListedSchedule))).map
        (fun r => r.schedule) = l := by
    intro l
    rw [List.map_map]
    exact List.map_id _
  refine ⟨_, rfl, ?_, ?_, ?_, ?_⟩
  · rw [hmap]
    exact orderBy_sorted _ _
  · intro hr
    rw [hmap]
    refine (orderBy_perm _ _).trans ?_
    simp [hr]
  · intro hr
    rw [hmap]
    refine (orderBy_perm _ _).trans ?_
    simp [hr]
  · intro r hr u hu
    obtain ⟨s, -, rfl⟩ := List.mem_map.mp hr
    simp only [scheduleUser, hu, Option.map_some']

/-- Witness of C18: `alice` gets a list, newest first, of exactly her schedules in
the team store. -/
theorem listSchedules_scoped_witness :
    ∃ rows : List ListedSchedule,
      listSchedules alice teamStore = ⟨200, .schedules rows⟩ ∧
      (rows.map (fun r => r.schedule)).Sorted
        (NewerFirst (fun s : Schedule => s.createdAt)) ∧
      (rows.map (fun r => r.schedule)).Perm
        (teamStore.schedules.filter (fun s => decide (s.userId = alice.id))) :=
  match listSchedules_scoped alice teamStore with
  | ⟨rows, h1, h2, _, h4, _⟩ => ⟨rows, h1, h2, h4 (by decide)⟩

/-! ## C19 -/

/-- C19.  `listForUser` for the target id the route parameter parses to.  A caller who
is no admin and whose id is not the target id gets 403, whether or not the target
exists.  For an admin, or the user themselves, the answer is 404 when no user has the
target id, and otherwise 200 with the `id` and `username` of a user of that id and the
schedules whose `userId` is the target id, each once, newest first. -/
theorem listForUser_access (env : JsEnv) (user : Identity) (userId : String)
    (st : Store) :
    (user.role ≠ "ADMIN" → env.parseInt (.str userId) ≠ some user.id →
      listForUser env user userId st =
        ⟨403, .error "Not authorized to view another user\x27s schedules"⟩) ∧
    (∀ tid : Int, env.parseInt (.str userId) = some tid →
      (user.role = "ADMIN" ∨ user.id = tid) →
      ((∀ u ∈ st.users, u.id ≠ tid) →
        listForUser env user userId st =
          ⟨404, .error ("User with id " ++ toString tid ++ " not found")⟩) ∧
      ((∃ u ∈ st.users, u.id = tid) →
        ∃ (u : User) (found : List Schedule),
          u ∈ st.users ∧ u.id = tid ∧
          found.Perm (st.schedules.filter (fun s => decide (s.userId = tid))) ∧
          found.Sorted (NewerFirst (fun s : Schedule => s.createdAt)) ∧
          listForUser env user userId st =
            ⟨200, .userSchedules { id := u.id, username := u.username }
              (found.map (fun s =>
                { id := s.id, projectTitle := s.projectTitle,
                  isAssigned := s.isAssigned, createdAt := s.createdAt }))⟩)) := by
  refine ⟨?_, ?_⟩
  · intro hr hne
    have : some user.id ≠ env.parseInt (.str userId) := fun h => hne h.symm
    simp [listForUser, hr, this]
  · intro tid htid hauth
    have hna : ¬ (user.role ≠ "ADMIN" ∧ some user.id ≠ some tid) := by
      rcases hauth with h | h
      · simp [h]
      · simp [h]
    refine ⟨?_, ?_⟩
    · intro hnone
      have hf : st.users.find? (fun u => decide (u.id = tid)) = none := by
        rw [List.find?_eq_none]
        intro u hu
        simpa using hnone u hu
      simp only [listForUser, htid, hna, if_false, hf]
    · rintro ⟨u0, hu0, hid0⟩
      cases hf : st.users.find? (fun u => decide (u.id = tid)) with
      | none =>
        have := List.find?_eq_none.mp hf u0 hu0
        simp [hid0] at this
      | some u =>
        refine ⟨u, orderByCreatedAtDesc (fun s : Schedule => s.createdAt)
          (st.schedules.filter (fun s => decide (s.userId = tid))),
          List.mem_of_find?_eq_some hf, by simpa using List.find?_some hf,
          orderBy_perm _ _, orderBy_sorted _ _, ?_⟩
        simp only [listForUser, htid, hna, if_false, hf]

/-- Witness of C19: `bob` asks for the schedules of user 2 (`alice`) and gets 403;
the admin asks for those of user 9, who does not exist, and gets 404. -/
theorem listForUser_access_witness :
    listForUser demoEnv bob "2" teamStore =
        ⟨403, .error "Not authorized to view another user\x27s schedules"⟩ ∧
    listForUser demoEnv root "9" teamStore =
        ⟨404, .error ("User with id " ++ toString (9 : Int) ++ " not found")⟩ :=
  ⟨(listForUser_access demoEnv bob "2" teamStore).1 (by decide) (by decide),
   ((listForUser_access demoEnv root "9" teamStore).2 9 (by decide) (Or.inl rfl)).1
     (by decide)⟩

/-! ## C20 -/

/-- C20.  Login gives no user-enumeration signal: for non-empty strings as username
and password, every login that fails is answered 401 "Invalid credentials"; so two
failing logins, one for an unknown username and one for a known username with a wrong
password, get the same status and the same error message. -/
theorem login_failure_uniform (env : JsEnv) (st : Store) (u1 p1 u2 p2 : String)
    (hu1 : u1 ≠ "") (hp1 : p1 ≠ "") (hu2 : u2 ≠ "") (hp2 : p2 ≠ "")
    (hf1 : (login env ⟨some (.str u1), some (.str p1)⟩ st).status ≠ 200)
    (hf2 : (login env ⟨some (.str u2), some (.str p2)⟩ st).status ≠ 200) :
    login env ⟨some (.str u1), some (.str p1)⟩ st = ⟨401, .error "Invalid credentials"⟩ ∧
    login env ⟨some (.str u1), some (.str p1)⟩ st =
      login env ⟨some (.str u2), some (.str p2)⟩ st := by
  have key : ∀ u p : String, u ≠ "" → p ≠ "" →
      (login env ⟨some (.str u), some (.str p)⟩ st).status ≠ 200 →
      login env ⟨some (.str u), some (.str p)⟩ st =
        ⟨401, .error "Invalid credentials"⟩ := by
    intro u p hu hp hf
    simp only [login, truthy_str_of_ne hu, truthy_str_of_ne hp, stringColumn,
      Bool.not_true, Bool.or_self, Bool.false_eq_true, if_false] at hf ⊢
    split
    · rfl
    · next user huser =>
      simp only [huser] at hf
      split
      · rfl
      · next hc =>
        simp only [hc, if_false] at hf
        exact absurd rfl hf
  exact ⟨key u1 p1 hu1 hp1 hf1, (key u1 p1 hu1 hp1 hf1).trans (key u2 p2 hu2 hp2 hf2).symm⟩

/-- Witness of C20: in the sample store the login of the unknown `mallory` and the
login of `alice` with a wrong password fail with the same response. -/
theorem login_failure_uniform_witness :
    login demoEnv ⟨some (.str "mallory"), some (.str "guess")⟩ (sampleStore []) =
        ⟨401, .error "Invalid credentials"⟩ ∧
    login demoEnv ⟨some (.str "mallory"), some (.str "guess")⟩ (sampleStore []) =
      login demoEnv ⟨some (.str "alice"), some (.str "guess")⟩ (sampleStore []) :=
  login_failure_uniform demoEnv (sampleStore []) "mallory" "guess" "alice" "guess"
    (by decide) (by decide) (by decide) (by decide) (by decide) (by decide)

/-! ## C16 -/

theorem deleteSchedule_missing (env : JsEnv) (user : Identity) (id : String) (st : Store)
    (sid : Int) (hr : user.role = "ADMIN") (hid : env.parseInt (.str id) = some sid)
    (hnone : findSchedule st sid = none) :
    deleteSchedule env user id st = (st, ⟨500, .exception⟩) := by
  simp [deleteSchedule, hr, hid, hnone, internalError]

/-- C16 (the code departs from the claim).  The admin deletes schedule 99, which the
team store does not have: `schedule.delete` throws, the handler has no test for a
missing schedule, and the `catch` block answers 500, not 404.  The store is
unchanged. -/
theorem deleteSchedule_missing_answers_500 :
    findSchedule teamStore 99 = none ∧
    deleteSchedule demoEnv root "99" teamStore = (teamStore, ⟨500, .exception⟩) ∧
    (deleteSchedule demoEnv root "99" teamStore).2.status ≠ 404 :=
  ⟨rfl, rfl, by decide⟩

/-! ## C15 -/

/-- C15 as stated fails: a `submit-timesheet` request for the unknown user `mallory`
that carries no `weekEnding` is answered 400 by the required-field check, which runs
before the user is looked up. -/
theorem submitTimesheet_validation_before_lookup :
    findUserByName (sampleStore []) "mallory" = none ∧
    (externalSubmitTimesheet demoEnv 5
        { username := some (.str "mallory"), scheduleId := some (.num 1),
          weekEnding := none, mon := none, tue := none, wed := none, thu := none,
          fri := none, sat := none, sun := none, notes := none }
        (sampleStore [])).2.status = 400 :=
  ⟨rfl, by decide⟩

/-- C15 (amended).  External `submit-timesheet` for a request that carries a non-empty
string `username`, a `scheduleId` and a `weekEnding`: when no user has the username the
answer is 404 "User … not found"; when the user exists, `scheduleId` parses to a
number, and no schedule of that id belongs to the user (there is none, or it is
another user's), the answer is 404 "Schedule not found for this user".  In both cases
the store is unchanged. -/
theorem submitTimesheet_lookup_failures (env : JsEnv) (now : Nat) (body : TimesheetBody)
    (st : Store) (username : String)
    (hu : body.username = some (.str username)) (hne : username ≠ "")
    (hs : truthy body.scheduleId = true) (hw : truthy body.weekEnding = true) :
    ((∀ u ∈ st.users, u.username ≠ username) →
      externalSubmitTimesheet env now body st =
        (st, ⟨404, .error ("User \x27" ++ username ++ "\x27 not found")⟩)) ∧
    (∀ (owner : User) (sid : Int),
      findUserByName st username = some owner →
      body.scheduleId.bind env.parseInt = some sid →
      (∀ s ∈ st.schedules, s.id = sid → s.userId ≠ owner.id) →
      externalSubmitTimesheet env now body st =
        (st, ⟨404, .error "Schedule not found for this user"⟩)) := by
  have htu : truthy body.username = true := by rw [hu]; exact truthy_str_of_ne hne
  have hcol : stringColumn body.username = some username := by rw [hu]; rfl
  refine ⟨?_, ?_⟩
  · intro hnone
    have hf : findUserByName st username = none := by
      unfold findUserByName
      rw [List.find?_eq_none]
      intro u hu1
      simpa using hnone u hu1
    simp only [externalSubmitTimesheet, htu, hs, hw, hcol, hf, Bool.not_true, Bool.or_self,
      Bool.false_eq_true, if_false]
  · intro owner sid howner hsid hnone
    have hf : st.schedules.find?
        (fun s => decide (s.id = sid) && decide (s.userId = owner.id)) = none := by
      rw [List.find?_eq_none]
      intro s hs1
      have := hnone s hs1
      simp only [Bool.and_eq_true, decide_eq_true_eq, not_and]
      exact this
    simp only [externalSubmitTimesheet, htu, hs, hw, hcol, howner, hsid, hf, Bool.not_true,
      Bool.or_self, Bool.false_eq_true, if_false]

/-- Witness of C15 (amended): a complete request for the unknown `mallory` is answered
404 and leaves the sample store as it was. -/
theorem submitTimesheet_lookup_failures_witness :
    externalSubmitTimesheet demoEnv 5
        { username := some (.str "mallory"), scheduleId := some (.num 1),
          weekEnding := some (.num 1717718400000), mon := none, tue := none,
          wed := none, thu := none, fri := none, sat := none, sun := none,
          notes := none }
        (sampleStore []) =
      (sampleStore [], ⟨404, .error ("User \x27" ++ "mallory" ++ "\x27 not found")⟩) :=
  (submitTimesheet_lookup_failures demoEnv 5
    { username := some (.str "mallory"), scheduleId := some (.num 1),
      weekEnding := some (.num 1717718400000), mon := none, tue := none,
      wed := none, thu := none, fri := none, sat := none, sun := none,
      notes := none }
    (sampleStore []) "mallory" rfl (by decide) (by decide) (by decide)).1 (by decide)

/-! ## C14 -/

/-- C14 as stated fails: with `entryId: 0` the external `update-note` treats the id as
missing and answers 400, whereas the admin's day-note update of entry `0` reads the
table and answers 404. -/
theorem externalUpdateNote_zero_id :
    (externalUpdateNote demoEnv ⟨some (.num 0), some (.str "mon"), some (.str "B"), none⟩
        (sampleStore [sampleEntry false defaultNotes])).2.status = 400 ∧
    (updateDayNote demoEnv root "0" ⟨some (.str "mon"), some (.str "B"), none⟩
        (sampleStore [sampleEntry false defaultNotes])).2.status = 404 := by
  refine ⟨by decide, by decide⟩

theorem checkOwner_admin (st : Store) (user : Identity) (hr : user.role = "ADMIN")
    (e : TimeEntry) : checkOwner st user e = .granted :=
  checkOwner_granted (Or.inl hr)

/-- C14 (amended).  For a truthy `entryId` (any id but `0`, an empty string, `null` or
`false`) and the route parameter that parses to the same id, the external `update-note`
and `updateDayNote` called by an admin write the same store, answer with the same
status, and one answers with its locked message exactly when the other does.  The
external route makes no ownership test: on a submitted entry a request with a valid day
and a text is answered 400 "Cannot update a submitted entry", whoever owns the entry. -/
theorem externalUpdateNote_as_admin (env : JsEnv) (user : Identity) (id : String)
    (entryId : Json) (day text mode : JsVal) (st : Store)
    (hadmin : user.role = "ADMIN")
    (hid : env.parseInt entryId = env.parseInt (.str id))
    (ht : truthy (some entryId) = true) :
    (externalUpdateNote env ⟨some entryId, day, text, mode⟩ st).1 =
      (updateDayNote env user id ⟨day, text, mode⟩ st).1 ∧
    (externalUpdateNote env ⟨some entryId, day, text, mode⟩ st).2.status =
      (updateDayNote env user id ⟨day, text, mode⟩ st).2.status ∧
    ((externalUpdateNote env ⟨some entryId, day, text, mode⟩ st).2.errorMessage =
        some "Cannot update a submitted entry" ↔
      (updateDayNote env user id ⟨day, text, mode⟩ st).2.errorMessage =
        some "Cannot edit a submitted entry") ∧
    (∀ (eid : Int) (e : TimeEntry) (d : String) (t : Json),
      env.parseInt entryId = some eid → findEntry st eid = some e →
      e.isSubmitted = true → day = some (.str d) → dayKeyOf d ∈ validDays →
      text = some t →
      externalUpdateNote env ⟨some entryId, day, text, mode⟩ st =
        (st, ⟨400, .error "Cannot update a submitted entry"⟩)) := by
  have hgr := checkOwner_admin st user hadmin
  have main : (externalUpdateNote env ⟨some entryId, day, text, mode⟩ st).1 =
      (updateDayNote env user id ⟨day, text, mode⟩ st).1 ∧
    (externalUpdateNote env ⟨some entryId, day, text, mode⟩ st).2.status =
      (updateDayNote env user id ⟨day, text, mode⟩ st).2.status ∧
    ((externalUpdateNote env ⟨some entryId, day, text, mode⟩ st).2.errorMessage =
        some "Cannot update a submitted entry" ↔
      (updateDayNote env user id ⟨day, text, mode⟩ st).2.errorMessage =
        some "Cannot edit a submitted entry") := by
    cases text with
    | none => simp [externalUpdateNote, updateDayNote, ht, Response.errorMessage]
    | some t =>
      cases day with
      | none =>
        have h0 : truthy (none : JsVal) = false := rfl
        simp [externalUpdateNote, updateDayNote, ht, h0, Response.errorMessage]
      | some dv =>
        by_cases htd : truthy (some dv) = true
        · cases dv with
          | str d =>
            by_cases hv : dayKeyOf d ∈ validDays
            · cases hp : env.parseInt entryId with
              | none =>
                have hp1 : env.parseInt (.str id) = none := hid ▸ hp
                simp [externalUpdateNote, updateDayNote, ht, htd, hv, hp, hp1,
                  Response.errorMessage, internalError]
              | some eid =>
                have hp1 : env.parseInt (.str id) = some eid := hid ▸ hp
                cases hf : findEntry st eid with
                | none =>
                  simp [externalUpdateNote, updateDayNote, ht, htd, hv, hp, hp1, hf,
                    Response.errorMessage]
                | some e =>
                  by_cases hsub : e.isSubmitted = true
                  · simp [externalUpdateNote, updateDayNote, ht, htd, hv, hp, hp1, hf,
                      hgr e, hsub, Response.errorMessage]
                  · cases hn : (parseNotesOrEmpty env e.notes).bind
                        (fun cur => applyDayNote env cur (dayKeyOf d) t mode) with
                    | none =>
                      simp [externalUpdateNote, updateDayNote, ht, htd, hv, hp, hp1, hf,
                        hgr e, hsub, hn, Response.errorMessage, internalError]
                    | some cur =>
                      simp [externalUpdateNote, updateDayNote, ht, htd, hv, hp, hp1, hf,
                        hgr e, hsub, hn, Response.errorMessage]
            · have h1 := invalid_day_colon_ne d "Cannot update a submitted entry"
                (by decide)
              have h2 := invalid_day_ne d "Cannot edit a submitted entry" (by decide)
              simp [externalUpdateNote, updateDayNote, ht, htd, hv, Response.errorMessage,
                h1, h2]
          | null =>
            simp [externalUpdateNote, updateDayNote, ht, htd, Response.errorMessage,
              internalError]
          | bool b =>
            simp [externalUpdateNote, updateDayNote, ht, htd, Response.errorMessage,
              internalError]
          | num q =>
            simp [externalUpdateNote, updateDayNote, ht, htd, Response.errorMessage,
              internalError]
          | arr xs =>
            simp [externalUpdateNote, updateDayNote, ht, htd, Response.errorMessage,
              internalError]
          | obj kvs =>
            simp [externalUpdateNote, updateDayNote, ht, htd, Response.errorMessage,
              internalError]
        · simp [externalUpdateNote, updateDayNote, ht, htd, Response.errorMessage]
  refine ⟨main.1, main.2.1, main.2.2, ?_⟩
  intro eid e d t hp hf hsub hday hv htext
  subst hday htext
  simp [externalUpdateNote, ht, truthy_str_of_ne (valid_day_ne_empty hv), hv, hp, hf, hsub]

/-- Witness of C14 (amended): on the draft sample entry, which `alice` owns, the
external note update with `entryId: 1` writes the store that the admin's update of
entry `1` writes, with the same status. -/
theorem externalUpdateNote_as_admin_witness :
    (externalUpdateNote demoEnv ⟨some (.num 1), some (.str "mon"), some (.str "B"), none⟩
        (sampleStore [sampleEntry false defaultNotes])).1 =
      (updateDayNote demoEnv root "1" ⟨some (.str "mon"), some (.str "B"), none⟩
        (sampleStore [sampleEntry false defaultNotes])).1 ∧
    (externalUpdateNote demoEnv ⟨some (.num 1), some (.str "mon"), some (.str "B"), none⟩
        (sampleStore [sampleEntry false defaultNotes])).2.status =
      (updateDayNote demoEnv root "1" ⟨some (.str "mon"), some (.str "B"), none⟩
        (sampleStore [sampleEntry false defaultNotes])).2.status :=
  have h := externalUpdateNote_as_admin demoEnv root "1" (.num 1) (some (.str "mon"))
    (some (.str "B")) none (sampleStore [sampleEntry false defaultNotes]) rfl
    (by decide) (by decide)
  ⟨h.1, h.2.1⟩

/-! ## C17 -/

theorem refStep_refl (st : Store) : RefStep st st :=
  ⟨fun _ h => h, fun e he => Or.inl ⟨e, he, rfl⟩⟩

theorem refStep_updateEntry (st : Store) (i : Int) (f : TimeEntry → TimeEntry)
    (hf : ∀ x, (f x).scheduleId = x.scheduleId) : RefStep st (updateEntry st i f) := by
  refine ⟨fun _ h => h, ?_⟩
  intro e1 h1
  obtain ⟨x, hx, rfl⟩ := List.mem_map.mp h1
  left
  refine ⟨x, hx, ?_⟩
  by_cases h : x.id = i
  · simp [h, hf]
  · simp [h]

theorem refStep_patchNotes (st : Store) (i : Int) {notes : JsVal}
    {data : TimeEntry → TimeEntry} (hd : patchNotesData notes = some data) :
    RefStep st (updateEntry st i data) :=
  refStep_updateEntry st i data (fun x => (patchNotesData_keeps hd x).2.1)

theorem refStep_upsertEntry (st : Store) (sid w : Int) (f : TimeEntry → TimeEntry)
    (c : TimeEntry) (hf : ∀ x, (f x).scheduleId = x.scheduleId)
    (hc : c.scheduleId = sid) (hs : ∃ s ∈ st.schedules, s.id = sid) :
    RefStep st (upsertEntry st sid w f c).1 := by
  refine ⟨fun s h => by rw [(upsertEntry_users st sid w f c).2]; exact h, ?_⟩
  intro e1 h1
  by_cases hex : ∃ e ∈ st.entries, hasKey sid w e = true
  · rw [upsertEntry_of_exists _ _ _ _ _ hex] at h1
    obtain ⟨x, hx, rfl⟩ := List.mem_map.mp h1
    left
    refine ⟨x, hx, ?_⟩
    by_cases h : hasKey sid w x = true
    · simp [h, hf]
    · simp [h]
  · rw [upsertEntry_of_not_exists _ _ _ _ _ hex] at h1
    rcases List.mem_append.mp h1 with h1 | h1
    · exact Or.inl ⟨e1, h1, rfl⟩
    · simp only [List.mem_singleton] at h1
      right
      obtain ⟨s, hs1, hs2⟩ := hs
      exact ⟨s, hs1, by rw [h1, hc, hs2]⟩

theorem find_owned_some {st : Store} {sid uid : Int} {s : Schedule}
    (h : st.schedules.find? (fun s => decide (s.id = sid) && decide (s.userId = uid)) =
      some s) : ∃ s ∈ st.schedules, s.id = sid := by
  refine ⟨s, List.mem_of_find?_eq_some h, ?_⟩
  have := List.find?_some h
  simp only [Bool.and_eq_true, decide_eq_true_eq] at this
  exact this.1

theorem refInt_of_refStep {st st1 : Store} (h : RefStep st st1) (hr : RefInt st) :
    RefInt st1 := by
  intro e1 h1
  rcases h.2 e1 h1 with ⟨e, he, heq⟩ | ⟨s, hs, heq⟩
  · obtain ⟨s, hs, hid⟩ := hr e he
    exact ⟨s, h.1 s hs, hid.trans heq⟩
  · exact ⟨s, h.1 s hs, heq⟩

theorem saveEntry_refStep (env : JsEnv) (now : Nat) (user : Identity) (body : EntryBody)
    (st : Store) : RefStep st (saveEntry env now user body st).1 := by
  simp only [saveEntry]
  repeat' split
  all_goals first
    | exact refStep_refl st
    | exact refStep_upsertEntry st _ _ _ _ (fun _ => rfl) rfl
        ⟨_, (findSchedule_some (by assumption)).1, (findSchedule_some (by assumption)).2⟩

theorem externalSubmitTimesheet_refStep (env : JsEnv) (now : Nat) (body : TimesheetBody)
    (st : Store) : RefStep st (externalSubmitTimesheet env now body st).1 := by
  simp only [externalSubmitTimesheet]
  repeat' split
  all_goals first
    | exact refStep_refl st
    | exact refStep_upsertEntry st _ _ _ _ (fun _ => rfl) rfl
        (find_owned_some (by assumption))

theorem submitEntry_refStep (env : JsEnv) (user : Identity) (id : String) (st : Store) :
    RefStep st (submitEntry env user id st).1 := by
  simp only [submitEntry]
  repeat' split
  all_goals first
    | exact refStep_refl st
    | exact refStep_updateEntry st _ _ (fun _ => rfl)

theorem updateNotes_refStep (env : JsEnv) (user : Identity) (id : String) (notes : JsVal)
    (st : Store) : RefStep st (updateNotes env user id notes st).1 := by
  simp only [updateNotes]
  repeat' split
  all_goals first
    | exact refStep_refl st
    | exact refStep_patchNotes st _ (by assumption)

theorem updateHours_refStep (env : JsEnv) (user : Identity) (id : String)
    (body : HoursBody) (st : Store) : RefStep st (updateHours env user id body st).1 := by
  simp only [updateHours]
  repeat' split
  all_goals first
    | exact refStep_refl st
    | exact refStep_updateEntry st _ _ (fun _ => rfl)

theorem updateDayNote_refStep (env : JsEnv) (user : Identity) (id : String)
    (body : DayNoteBody) (st : Store) :
    RefStep st (updateDayNote env user id body st).1 := by
  simp only [updateDayNote]
  repeat' split
  all_goals first
    | exact refStep_refl st
    | exact refStep_updateEntry st _ _ (fun _ => rfl)

theorem externalUpdateNote_refStep (env : JsEnv) (body : ExternalNoteBody) (st : Store) :
    RefStep st (externalUpdateNote env body st).1 := by
  simp only [externalUpdateNote]
  repeat' split
  all_goals first
    | exact refStep_refl st
    | exact refStep_updateEntry st _ _ (fun _ => rfl)

theorem register_refStep (env : JsEnv) (now : Nat) (user : Identity) (body : RegisterBody)
    (st : Store) : RefStep st (register env now user body st).1 := by
  simp only [register]
  repeat' split
  all_goals exact refStep_refl st

theorem createSchedule_refStep (env : JsEnv) (now : Nat) (user : Identity)
    (body : ScheduleBody) (st : Store) :
    RefStep st (createSchedule env now user body st).1 := by
  simp only [createSchedule]
  repeat' split
  all_goals first
    | exact refStep_refl st
    | exact ⟨fun s h => List.mem_append_left _ h, fun e he => Or.inl ⟨e, he, rfl⟩⟩

theorem deleteSchedule_effect (env : JsEnv) (user : Identity) (id : String) (st : Store) :
    (deleteSchedule env user id st).1 = st ∧ (deleteSchedule env user id st).2.status ≠ 200 ∨
    ∃ sid, env.parseInt (.str id) = some sid ∧
      (deleteSchedule env user id st).1 =
        { st with
          schedules := st.schedules.filter (fun s => !decide (s.id = sid)),
          entries := st.entries.filter (fun e => !decide (e.scheduleId = sid)) } := by
  simp only [deleteSchedule]
  repeat' split
  all_goals first
    | exact Or.inl ⟨rfl, by simp only [internalError]; decide⟩
    | exact Or.inr ⟨_, by assumption, rfl⟩

theorem deleteSchedule_refInt (env : JsEnv) (user : Identity) (id : String) (st : Store)
    (hr : RefInt st) : RefInt (deleteSchedule env user id st).1 := by
  rcases deleteSchedule_effect env user id st with ⟨h, -⟩ | ⟨sid, -, h⟩
  · rw [h]; exact hr
  · rw [h]
    intro e he
    simp only [List.mem_filter, Bool.not_eq_true', decide_eq_false_iff_not] at he
    obtain ⟨s, hs, hid⟩ := hr e he.1
    refine ⟨s, ?_, hid⟩
    simp only [List.mem_filter, Bool.not_eq_true', decide_eq_false_iff_not]
    exact ⟨hs, by rw [hid]; exact he.2⟩

theorem step_refInt (env : JsEnv) (op : Op) (st : Store) (hr : RefInt st) :
    RefInt (step env op st).1 := by
  cases op with
  | register now user body => exact refInt_of_refStep (register_refStep env now user body st) hr
  | createSchedule now user body =>
    exact refInt_of_refStep (createSchedule_refStep env now user body st) hr
  | deleteSchedule user id => exact deleteSchedule_refInt env user id st hr
  | saveEntry now user body =>
    exact refInt_of_refStep (saveEntry_refStep env now user body st) hr
  | submitEntry user id => exact refInt_of_refStep (submitEntry_refStep env user id st) hr
  | updateNotes user id notes =>
    exact refInt_of_refStep (updateNotes_refStep env user id notes st) hr
  | updateHours user id body =>
    exact refInt_of_refStep (updateHours_refStep env user id body st) hr
  | updateDayNote user id body =>
    exact refInt_of_refStep (updateDayNote_refStep env user id body st) hr
  | externalUpdateNote body =>
    exact refInt_of_refStep (externalUpdateNote_refStep env body st) hr
  | externalSubmitTimesheet now body =>
    exact refInt_of_refStep (externalSubmitTimesheet_refStep env now body st) hr

theorem run_refInt (env : JsEnv) (ops : List Op) (st : Store) (hr : RefInt st) :
    RefInt (run env ops st) := by
  induction ops generalizing st with
  | nil => exact hr
  | cons op ops ih => exact ih _ (step_refInt env op st hr)

theorem emptyStore_refInt : RefInt emptyStore := by
  intro e he
  simp [emptyStore] at he

/-- C17.  Referential integrity is an invariant of the reachable stores: from a store
in which every time entry refers to an existing schedule, every finite sequence of
requests leads to such a store.  After a successful deletion of schedule `sid` no time
entry with that `scheduleId` and no schedule with that id remains, and every entry in
the store after `saveEntry` or external `submit-timesheet` has the id of a schedule of
the store as its `scheduleId`. -/
theorem referential_integrity (env : JsEnv) (st : Store) (hr : RefInt st) :
    (∀ ops, RefInt (run env ops st)) ∧
    (∀ (user : Identity) (id : String) (sid : Int),
      env.parseInt (.str id) = some sid →
      (deleteSchedule env user id st).2.status = 200 →
      (∀ e ∈ (deleteSchedule env user id st).1.entries, e.scheduleId ≠ sid) ∧
      (∀ s ∈ (deleteSchedule env user id st).1.schedules, s.id ≠ sid)) ∧
    (∀ (now : Nat) (user : Identity) (body : EntryBody),
      ∀ e ∈ (saveEntry env now user body st).1.entries,
        ∃ s ∈ st.schedules, s.id = e.scheduleId) ∧
    (∀ (now : Nat) (body : TimesheetBody),
      ∀ e ∈ (externalSubmitTimesheet env now body st).1.entries,
        ∃ s ∈ st.schedules, s.id = e.scheduleId) := by
  have created : ∀ st1, RefStep st st1 → ∀ e ∈ st1.entries,
      ∃ s ∈ st.schedules, s.id = e.scheduleId := by
    intro st1 h e1 h1
    rcases h.2 e1 h1 with ⟨e, he, heq⟩ | ⟨s, hs, heq⟩
    · obtain ⟨s, hs, hid⟩ := hr e he
      exact ⟨s, hs, hid.trans heq⟩
    · exact ⟨s, hs, heq⟩
  refine ⟨fun ops => run_refInt env ops st hr, ?_,
    fun now user body => created _ (saveEntry_refStep env now user body st),
    fun now body => created _ (externalSubmitTimesheet_refStep env now body st)⟩
  intro user id sid hid hok
  rcases deleteSchedule_effect env user id st with ⟨-, hne⟩ | ⟨sid1, hid1, h⟩
  · exact absurd hok hne
  · rw [hid] at hid1
    simp only [Option.some.injEq] at hid1
    subst hid1
    rw [h]
    refine ⟨?_, ?_⟩
    · intro e he
      simp only [List.mem_filter, Bool.not_eq_true', decide_eq_false_iff_not] at he
      exact he.2
    · intro s hs
      simp only [List.mem_filter, Bool.not_eq_true', decide_eq_false_iff_not] at hs
      exact hs.2

/-- Witness of C17: from the team store the admin deletes schedule 1 and `alice` then
posts a time entry for it; the store reached still has no entry without schedule. -/
theorem referential_integrity_witness :
    RefInt (run demoEnv
      [.deleteSchedule root "1",
        .saveEntry 5 alice
          (entryBody (some (.num 1)) (some (.num 1717718400000)) (some (.num 4)) none),
        .saveEntry 6 alice
          (entryBody (some (.num 2)) (some (.num 1718323200000)) (some (.num 4)) none)]
      teamStore) :=
  (referential_integrity demoEnv teamStore (by decide)).1 _

/-! ## C13 -/

theorem timesheetNotesStr_eq_save (notes : JsVal) (h : ¬ notes = some .null) :
    timesheetNotesStr notes = saveNotesStr notes := by
  cases notes with
  | none => rfl
  | some v =>
    cases v with
    | null => exact absurd rfl h
    | bool b => cases b <;> rfl
    | num q =>
      by_cases hq : q = 0
      · simp [timesheetNotesStr, saveNotesStr, truthy, isObjectType, hq]
      · simp [timesheetNotesStr, saveNotesStr, truthy, isObjectType, hq]
    | str t =>
      by_cases ht : t = ""
      · simp [timesheetNotesStr, saveNotesStr, truthy, isObjectType, ht]
      · simp [timesheetNotesStr, saveNotesStr, truthy, isObjectType, ht]
    | arr xs => rfl
    | obj kvs => rfl

theorem find_id_of_nodup {l : List TimeEntry} (hnd : (l.map (fun e => e.id)).Nodup)
    {e : TimeEntry} (he : e ∈ l) :
    l.find? (fun x => decide (x.id = e.id)) = some e := by
  cases hf : l.find? (fun x => decide (x.id = e.id)) with
  | none =>
    have := List.find?_eq_none.mp hf e he
    simp at this
  | some x =>
    have hx := List.mem_of_find?_eq_some hf
    have hid : x.id = e.id := by simpa using List.find?_some hf
    rw [nodup_ids_eq hnd hx he hid]

theorem key_eq_of_unique {l : List TimeEntry}
    (hk : (l.map (fun e => (e.scheduleId, e.weekEnding))).Nodup) {sid w : Int}
    {a b : TimeEntry} (ha : a ∈ l) (hb : b ∈ l) (hka : hasKey sid w a = true)
    (hkb : hasKey sid w b = true) : a = b := by
  simp only [hasKey, Bool.and_eq_true, decide_eq_true_eq] at hka hkb
  exact List.inj_on_of_nodup_map hk ha hb (by simp [hka.1, hka.2, hkb.1, hkb.2])

/-- An upsert followed by a rewriting `submit` of the row it wrote gives the store
that one upsert with the combined rewriting gives. -/
theorem upsert_then_submit (st : Store) (sid w : Int) (fs fx : TimeEntry → TimeEntry)
    (cs cx : TimeEntry) (submit : TimeEntry → TimeEntry)
    (hids : EntryIdsOk st) (hkey : KeyUnique st)
    (hfs : ∀ x, (fs x).id = x.id ∧ hasKey sid w (fs x) = hasKey sid w x)
    (hsub : ∀ x, submit (fs x) = fx x) (hcsub : submit cs = cx)
    (hcid : cs.id = st.nextEntryId) (hck : hasKey sid w cs = true) :
    ∃ e, (upsertEntry st sid w fs cs).1.entries.find? (hasKey sid w) = some e ∧
      updateEntry (upsertEntry st sid w fs cs).1 e.id submit =
        (upsertEntry st sid w fx cx).1 := by
  cases hfind : st.entries.find? (hasKey sid w) with
  | some e0 =>
    have he0 := List.mem_of_find?_eq_some hfind
    have hk0 : hasKey sid w e0 = true := List.find?_some hfind
    refine ⟨fs e0, ?_, ?_⟩
    · simp only [upsertEntry, hfind, List.find?_map]
      have hcomp : (hasKey sid w ∘ fun x => if hasKey sid w x = true then fs x else x) =
          hasKey sid w := by
        funext x
        by_cases hx : hasKey sid w x = true
        · simp [hx, (hfs x).2]
        · simp [hx]
      rw [hcomp, hfind]
      simp [hk0]
    · simp only [upsertEntry, hfind, updateEntry, List.map_map]
      congr 1
      apply List.map_congr_left
      intro x hx
      by_cases hkx : hasKey sid w x = true
      · have : x = e0 := key_eq_of_unique hkey hx he0 hkx hk0
        subst this
        simp [hkx, (hfs x).1, hsub]
      · have hne : x.id ≠ e0.id := by
          intro hid
          have : x = e0 := nodup_ids_eq hids.1 hx he0 hid
          rw [this] at hkx
          exact hkx hk0
        simp [hkx, (hfs e0).1, hne]
  | none =>
    refine ⟨cs, ?_, ?_⟩
    · simp only [upsertEntry, hfind, List.find?_append, Option.none_or]
      simp [List.find?, hck]
    · simp only [upsertEntry, hfind, updateEntry, List.map_append, List.map_cons,
        List.map_nil]
      have hold : st.entries.map (fun e => if e.id = cs.id then submit e else e) =
          st.entries := by
        conv_rhs => rw [← List.map_id st.entries]
        apply List.map_congr_left
        intro x hx
        have : x.id ≠ cs.id := by
          rw [hcid]
          exact ne_of_lt (hids.2 x hx)
        simp [this]
      rw [hold]
      simp [hcsub]

/-- C13 (the code departs from the claim).  For `notes: null` the two paths normalize
the notes differently.  On the sample store without entries, `submit-timesheet` for
`alice`, schedule 1 and the sample week takes `null` as absent and stores the default
notes, in which `mon` has a note.  `saveEntry` with the same fields, performed as
`alice`, tests `typeof notes === 'object'` before the default applies and stores the
text `null`, in which `mon` has none, and `submitEntry` on the saved entry keeps that:
the two stores differ in the notes of entry 2. -/
theorem submitTimesheet_null_notes_differs :
    (externalSubmitTimesheet demoEnv 5
        { username := some (.str "alice"), scheduleId := some (.num 1),
          weekEnding := some (.num 1717718400000), mon := some (.num 8), tue := none,
          wed := none, thu := none, fri := none, sat := none, sun := none,
          notes := some .null }
        (sampleStore [])).1.entries.map
        (fun e => (e.id, e.isSubmitted, (storedNote demoEnv e "mon").isSome)) =
      [(2, true, true)] ∧
    (submitEntry demoEnv alice "2" (storeAfterSave (some .null))).1.entries.map
        (fun e => (e.id, e.isSubmitted, (storedNote demoEnv e "mon").isSome)) =
      [(2, true, false)] := by
  refine ⟨by decide, by decide⟩

/-- The two paths agree on every `notes` other than `null`.  For a store with distinct
entry ids and keys, a `submit-timesheet` request whose `username` names a user who owns
the schedule and whose `notes` is not `null`: if the request gets to the upsert
(`scheduleId` and `weekEnding` present, `weekEnding` a date, notes normalizing to a
string), then `saveEntry` with the same fields, performed as that user, leaves an entry
for the key, and `submitEntry` on that entry gives the store that `submit-timesheet`
gives; otherwise `saveEntry` and `submit-timesheet` both leave the store unchanged. -/
theorem submitTimesheet_is_save_then_submit (env : JsEnv) (now : Nat)
    (body : TimesheetBody) (st : Store) (username : String) (owner : User) (sid : Int)
    (schedule : Schedule)
    (hu : body.username = some (.str username)) (hne : username ≠ "")
    (huser : findUserByName st username = some owner)
    (hsid : body.scheduleId.bind env.parseInt = some sid)
    (hsch : findSchedule st sid = some schedule) (hown : schedule.userId = owner.id)
    (hnull : ¬ body.notes = some .null)
    (hids : EntryIdsOk st) (hkey : KeyUnique st) :
    (¬ (truthy body.scheduleId = true ∧ truthy body.weekEnding = true ∧
        (body.weekEnding.bind env.newDate).isSome = true ∧
        (saveNotesStr body.notes).isSome = true) →
      (saveEntry env now owner.identity body.toEntryBody st).1 = st ∧
      (externalSubmitTimesheet env now body st).1 = st) ∧
    (truthy body.scheduleId = true → truthy body.weekEnding = true →
      ∀ (w : Int) (n : NotesCol), body.weekEnding.bind env.newDate = some w →
      saveNotesStr body.notes = some n →
      ∃ e, (saveEntry env now owner.identity body.toEntryBody st).1.entries.find?
          (hasKey sid w) = some e ∧
        ∀ id : String, env.parseInt (.str id) = some e.id →
          (submitEntry env owner.identity id
            (saveEntry env now owner.identity body.toEntryBody st).1).1 =
          (externalSubmitTimesheet env now body st).1) := by
  have htu : truthy body.username = true := by rw [hu]; exact truthy_str_of_ne hne
  have hcol : stringColumn body.username = some username := by rw [hu]; rfl
  have hnotes := timesheetNotesStr_eq_save body.notes hnull
  obtain ⟨s1, hs1⟩ : ∃ s1, st.schedules.find?
      (fun s => decide (s.id = sid) && decide (s.userId = owner.id)) = some s1 := by
    cases hf : st.schedules.find?
        (fun s => decide (s.id = sid) && decide (s.userId = owner.id)) with
    | some s1 => exact ⟨s1, rfl⟩
    | none =>
      have := List.find?_eq_none.mp hf schedule (findSchedule_some hsch).1
      simp [(findSchedule_some hsch).2, hown] at this
  have hna : ¬ (owner.identity.role ≠ "ADMIN" ∧ schedule.userId ≠ owner.identity.id) := by
    intro h
    exact h.2 hown
  refine ⟨?_, ?_⟩
  · intro hnot
    by_cases hs : truthy body.scheduleId = true
    · by_cases hw : truthy body.weekEnding = true
      · have hsb : truthy body.toEntryBody.scheduleId = true := hs
        have hwb : truthy body.toEntryBody.weekEnding = true := hw
        have hsidb : body.toEntryBody.scheduleId.bind env.parseInt = some sid := hsid
        cases hd : body.weekEnding.bind env.newDate with
        | none =>
          have hdb : body.toEntryBody.weekEnding.bind env.newDate = none := hd
          constructor
          · simp only [saveEntry, hsb, hwb, hsidb, hsch, hna, hdb, Bool.not_true,
              Bool.or_self, Bool.false_eq_true, if_false]
          · simp only [externalSubmitTimesheet, htu, hs, hw, hcol, huser, hsid, hs1, hd,
              Bool.not_true, Bool.or_self, Bool.false_eq_true, if_false]
        | some w =>
          cases hn : saveNotesStr body.notes with
          | none =>
            have hnb : saveNotesStr body.toEntryBody.notes = none := hn
            have hdb : body.toEntryBody.weekEnding.bind env.newDate = some w := hd
            constructor
            · simp only [saveEntry, hsb, hwb, hsidb, hsch, hna, hdb, hnb, Bool.not_true,
                Bool.or_self, Bool.false_eq_true, if_false]
            · simp only [externalSubmitTimesheet, htu, hs, hw, hcol, huser, hsid, hs1, hd,
                hnotes, hn, Bool.not_true, Bool.or_self, Bool.false_eq_true, if_false]
          | some n =>
            exact absurd ⟨hs, hw, by simp [hd], by simp [hn]⟩ hnot
      · constructor
        · have hwb : truthy body.toEntryBody.weekEnding = false := by simpa using hw
          simp [saveEntry, hwb]
        · simp [externalSubmitTimesheet, hw]
    · constructor
      · have hsb : truthy body.toEntryBody.scheduleId = false := by simpa using hs
        simp [saveEntry, hsb]
      · simp [externalSubmitTimesheet, hs]
  · intro hs hw w n hd hn
    have hsave := saveEntry_store env now owner.identity body.toEntryBody st sid schedule
      w n hs hw hsid hsch (Or.inr hown) hd hn
    have hext := externalSubmitTimesheet_store env now body st username owner sid s1 w n
      hu hne hs hw huser hsid hs1 hd (hnotes.trans hn)
    obtain ⟨e, hfind, heq⟩ := upsert_then_submit st sid w
      (fun e => { setHours env body.mon body.tue body.wed body.thu body.fri body.sat
                    body.sun e with notes := n })
      (fun e => { setHours env body.mon body.tue body.wed body.thu body.fri body.sat
                    body.sun e with notes := n, isSubmitted := true })
      { id := st.nextEntryId, scheduleId := sid, weekEnding := w,
        mon := hoursOf env body.mon, tue := hoursOf env body.tue,
        wed := hoursOf env body.wed, thu := hoursOf env body.thu,
        fri := hoursOf env body.fri, sat := hoursOf env body.sat,
        sun := hoursOf env body.sun, notes := n,
        isSubmitted := false, createdAt := now }
      { id := st.nextEntryId, scheduleId := sid, weekEnding := w,
        mon := hoursOf env body.mon, tue := hoursOf env body.tue,
        wed := hoursOf env body.wed, thu := hoursOf env body.thu,
        fri := hoursOf env body.fri, sat := hoursOf env body.sat,
        sun := hoursOf env body.sun, notes := n,
        isSubmitted := true, createdAt := now }
      (fun x => { x with isSubmitted := true })
      hids hkey (fun x => ⟨rfl, rfl⟩) (fun x => rfl) rfl rfl (by simp [hasKey])
    have hsave1 : (saveEntry env now owner.identity body.toEntryBody st).1 =
        (upsertEntry st sid w
          (fun e => { setHours env body.mon body.tue body.wed body.thu body.fri body.sat
                        body.sun e with notes := n })
          { id := st.nextEntryId, scheduleId := sid, weekEnding := w,
            mon := hoursOf env body.mon, tue := hoursOf env body.tue,
            wed := hoursOf env body.wed, thu := hoursOf env body.thu,
            fri := hoursOf env body.fri, sat := hoursOf env body.sat,
            sun := hoursOf env body.sun, notes := n,
            isSubmitted := false, createdAt := now }).1 := hsave
    rw [hsave1, hext]
    refine ⟨e, hfind, ?_⟩
    intro id hid
    have hmem := List.mem_of_find?_eq_some hfind
    have hk : hasKey sid w e = true := List.find?_some hfind
    have hids1 := evolve_idsOk (evolve_upsertEntry st sid w
      (fun e => { setHours env body.mon body.tue body.wed body.thu body.fri body.sat
                    body.sun e with notes := n })
      { id := st.nextEntryId, scheduleId := sid, weekEnding := w,
        mon := hoursOf env body.mon, tue := hoursOf env body.tue,
        wed := hoursOf env body.wed, thu := hoursOf env body.thu,
        fri := hoursOf env body.fri, sat := hoursOf env body.sat,
        sun := hoursOf env body.sun, notes := n,
        isSubmitted := false, createdAt := now }
      (fun _ => ⟨rfl, rfl, rfl, fun h => h⟩) ⟨rfl, rfl, rfl⟩) hids
    have hfe := find_id_of_nodup hids1.1 hmem
    have hsched : e.scheduleId = sid := by
      simp only [hasKey, Bool.and_eq_true, decide_eq_true_eq] at hk
      exact hk.1
    have hgr : checkOwner (upsertEntry st sid w
        (fun e => { setHours env body.mon body.tue body.wed body.thu body.fri body.sat
                      body.sun e with notes := n })
        { id := st.nextEntryId, scheduleId := sid, weekEnding := w,
          mon := hoursOf env body.mon, tue := hoursOf env body.tue,
          wed := hoursOf env body.wed, thu := hoursOf env body.thu,
          fri := hoursOf env body.fri, sat := hoursOf env body.sat,
          sun := hoursOf env body.sun, notes := n,
          isSubmitted := false, createdAt := now }).1 owner.identity e = .granted := by
      apply checkOwner_granted
      right
      refine ⟨schedule, ?_, hown⟩
      unfold findSchedule
      rw [(upsertEntry_users _ _ _ _ _).2, hsched]
      exact hsch
    rw [submitEntry_store env owner.identity id _ e.id e hid hfe hgr]
    exact heq

/-- An instance of the agreement: on the sample store with the draft sample entry,
saving `mon = 4` as `alice` and then submitting entry 1 gives the store that the
external submission of the same week gives. -/
theorem submitTimesheet_is_save_then_submit_witness :
    (submitEntry demoEnv alice "1"
        (saveEntry demoEnv 5 alice (timesheetBody (some (.num 4)) none).toEntryBody
          (sampleStore [sampleEntry false defaultNotes])).1).1 =
      (externalSubmitTimesheet demoEnv 5 (timesheetBody (some (.num 4)) none)
        (sampleStore [sampleEntry false defaultNotes])).1 :=
  match (submitTimesheet_is_save_then_submit demoEnv 5 (timesheetBody (some (.num 4)) none)
      (sampleStore [sampleEntry false defaultNotes]) "alice"
      ⟨2, "alice", "hash:user123", "USER", 0⟩ 1 ⟨1, 2, "X", true, 0⟩
      rfl (by decide) rfl (by decide) rfl rfl (fun h => nomatch h) (by decide)
      (by decide)).2 (by decide) (by decide) 1717718400000 defaultNotes (by decide) rfl with
  | ⟨e, hfind, h⟩ =>
    have he : e = { sampleEntry false defaultNotes with mon := 4 } :=
      Option.some.inj (hfind.symm.trans rfl)
    h "1" (by rw [he]; decide)

/-! ## C24 -/

theorem findEntry_updateEntry_ne (st : Store) (i j : Int) (f : TimeEntry → TimeEntry)
    (hf : ∀ x, (f x).id = x.id) (hij : j ≠ i) :
    findEntry (updateEntry st i f) j = findEntry st j := by
  unfold findEntry updateEntry
  show (st.entries.map (fun e => if e.id = i then f e else e)).find?
      (fun e => decide (e.id = j)) = st.entries.find? (fun e => decide (e.id = j))
  induction st.entries with
  | nil => rfl
  | cons x rest ih =>
    rw [List.map_cons, List.find?_cons, List.find?_cons, ih]
    by_cases h : x.id = i
    · have hx : ¬ x.id = j := fun hxj => hij (hxj.symm.trans h)
      rw [if_pos h, hf, decide_eq_false hx]
    · rw [if_neg h]

/-- C24: `updateHours` is a partial update.  On a draft entry and for an authorized
caller (an administrator or the owner of the entry's schedule), a request that supplies
no day field is answered 400 and leaves the store unchanged; a request that supplies at
least one day field changes the row of that entry only: each supplied day holds its
normalized value `parseFloat(x) || 0`, each day that was not supplied holds its old
value, the notes, `isSubmitted` and the key of the row are as before, every other row
reads as before, and the user and schedule tables are untouched. -/
theorem updateHours_partial_update (env : JsEnv) (user : Identity) (id : String)
    (body : HoursBody) (st : Store) (eid : Int) (e : TimeEntry)
    (hid : env.parseInt (.str id) = some eid) (hfind : findEntry st eid = some e)
    (hdraft : e.isSubmitted = false)
    (hauth : user.role = "ADMIN" ∨
      ∃ s, findSchedule st e.scheduleId = some s ∧ s.userId = user.id) :
    ((body.mon = none ∧ body.tue = none ∧ body.wed = none ∧ body.thu = none ∧
        body.fri = none ∧ body.sat = none ∧ body.sun = none) →
      updateHours env user id body st =
        (st, ⟨400, .error "At least one day field (mon–sun) is required"⟩)) ∧
    (¬ (body.mon = none ∧ body.tue = none ∧ body.wed = none ∧ body.thu = none ∧
        body.fri = none ∧ body.sat = none ∧ body.sun = none) →
      ∃ e1, findEntry (updateHours env user id body st).1 eid = some e1 ∧
        e1.mon = (if body.mon.isSome then hoursOf env body.mon else e.mon) ∧
        e1.tue = (if body.tue.isSome then hoursOf env body.tue else e.tue) ∧
        e1.wed = (if body.wed.isSome then hoursOf env body.wed else e.wed) ∧
        e1.thu = (if body.thu.isSome then hoursOf env body.thu else e.thu) ∧
        e1.fri = (if body.fri.isSome then hoursOf env body.fri else e.fri) ∧
        e1.sat = (if body.sat.isSome then hoursOf env body.sat else e.sat) ∧
        e1.sun = (if body.sun.isSome then hoursOf env body.sun else e.sun) ∧
        e1.notes = e.notes ∧ e1.isSubmitted = e.isSubmitted ∧ e1.id = e.id ∧
        e1.scheduleId = e.scheduleId ∧ e1.weekEnding = e.weekEnding ∧
        e1.createdAt = e.createdAt ∧
        (∀ j, j ≠ eid → findEntry (updateHours env user id body st).1 j = findEntry st j) ∧
        (updateHours env user id body st).1.entries.map (fun x => x.id) =
          st.entries.map (fun x => x.id) ∧
        (updateHours env user id body st).1.users = st.users ∧
        (updateHours env user id body st).1.schedules = st.schedules) := by
  have hgr := @checkOwner_granted st user e hauth
  constructor
  · rintro ⟨h1, h2, h3, h4, h5, h6, h7⟩
    simp [updateHours, hid, hfind, hgr, hdraft, noHoursSupplied, h1, h2, h3, h4, h5, h6, h7]
  · intro hsome
    have hno : noHoursSupplied body = false := by
      cases h1 : body.mon <;> cases h2 : body.tue <;> cases h3 : body.wed <;>
        cases h4 : body.thu <;> cases h5 : body.fri <;> cases h6 : body.sat <;>
        cases h7 : body.sun <;> simp_all [noHoursSupplied]
    have hst : (updateHours env user id body st).1 =
        updateEntry st eid (patchHours env body) := by
      simp only [updateHours, hid, hfind, hgr, hdraft, hno, Bool.false_eq_true, if_false]
      split <;> rfl
    rw [hst]
    refine ⟨patchHours env body e, ?_, ?_, ?_, ?_, ?_, ?_, ?_, ?_, rfl, rfl, rfl, rfl, rfl,
      rfl, ?_, ?_, rfl, rfl⟩
    · rw [findEntry_updateEntry st eid (patchHours env body) (fun _ => rfl), hfind]
      rfl
    · cases h : body.mon <;> simp [patchHours, h]
    · cases h : body.tue <;> simp [patchHours, h]
    · cases h : body.wed <;> simp [patchHours, h]
    · cases h : body.thu <;> simp [patchHours, h]
    · cases h : body.fri <;> simp [patchHours, h]
    · cases h : body.sat <;> simp [patchHours, h]
    · cases h : body.sun <;> simp [patchHours, h]
    · intro j hj
      exact findEntry_updateEntry_ne st eid j (patchHours env body) (fun _ => rfl) hj
    · unfold updateEntry
      simp only [List.map_map]
      apply List.map_congr_left
      intro x _
      by_cases h : x.id = eid <;> simp [h, patchHours]

/-- Witness of C24: on the sample store with the draft sample entry (`mon = 8`), the
owner sends `tue = 3` alone: the row reads `mon = 8`, `tue = 3` afterwards and is still
a draft. -/
theorem updateHours_partial_update_witness :
    ((findEntry (updateHours demoEnv alice "1"
        { mon := none, tue := some (.num 3), wed := none, thu := none, fri := none,
          sat := none, sun := none }
        (sampleStore [sampleEntry false defaultNotes])).1 1).map
      (fun x => (x.mon, x.tue, x.isSubmitted))) = some (8, 3, false) :=
  match (updateHours_partial_update demoEnv alice "1"
      { mon := none, tue := some (.num 3), wed := none, thu := none, fri := none,
        sat := none, sun := none }
      (sampleStore [sampleEntry false defaultNotes]) 1 (sampleEntry false defaultNotes)
      (by decide) rfl rfl (Or.inr ⟨⟨1, 2, "X", true, 0⟩, rfl, rfl⟩)).2
      (fun h => nomatch h.2.1) with
  | ⟨e1, hf, hmon, htue, _, _, _, _, _, _, hsub, _⟩ => by
    rw [hf]
    simp only [Option.map_some']
    rw [hmon, htue, hsub]
    decide

/-! ## C21 -/

theorem findUserByName_isSome {st : Store} {u : String}
    (h : ∃ x ∈ st.users, x.username = u) : (findUserByName st u).isSome = true := by
  obtain ⟨x, hx, hu⟩ := h
  unfold findUserByName
  rw [List.find?_isSome]
  exact ⟨x, hx, by simpa using hu⟩

theorem findUserByName_not_isSome {st : Store} {u : String}
    (h : ¬ (findUserByName st u).isSome = true) : ∀ x ∈ st.users, x.username ≠ u := by
  intro x hx hu
  exact h (findUserByName_isSome ⟨x, hx, hu⟩)

theorem usernamesUnique_of_users_eq {st st1 : Store} (h : st1.users = st.users)
    (hu : UsernamesUnique st) : UsernamesUnique st1 := by
  unfold UsernamesUnique at *
  rw [h]
  exact hu

theorem usernamesUnique_append {st : Store} {c : User} (hu : UsernamesUnique st)
    (hc : ∀ x ∈ st.users, x.username ≠ c.username) (n : Int) :
    UsernamesUnique { st with users := st.users ++ [c], nextUserId := n } := by
  unfold UsernamesUnique at *
  show ((st.users ++ [c]).map (fun u => u.username)).Nodup
  rw [List.map_append, List.nodup_append]
  refine ⟨hu, by simp, ?_⟩
  intro a ha hb
  simp only [List.map_cons, List.map_nil, List.mem_singleton] at hb
  obtain ⟨x, hx, hxa⟩ := List.mem_map.mp ha
  exact hc x hx (hxa.trans hb)

theorem register_usernamesUnique (env : JsEnv) (now : Nat) (user : Identity)
    (body : RegisterBody) (st : Store) (hu : UsernamesUnique st) :
    UsernamesUnique (register env now user body st).1 := by
  simp only [register]
  repeat' split
  all_goals first
    | exact hu
    | exact usernamesUnique_append hu (findUserByName_not_isSome (by assumption)) _

theorem saveEntry_users (env : JsEnv) (now : Nat) (user : Identity) (body : EntryBody)
    (st : Store) : (saveEntry env now user body st).1.users = st.users := by
  simp only [saveEntry]
  repeat' split
  all_goals first
    | rfl
    | exact (upsertEntry_users st _ _ _ _).1

theorem externalSubmitTimesheet_users (env : JsEnv) (now : Nat) (body : TimesheetBody)
    (st : Store) : (externalSubmitTimesheet env now body st).1.users = st.users := by
  simp only [externalSubmitTimesheet]
  repeat' split
  all_goals first
    | rfl
    | exact (upsertEntry_users st _ _ _ _).1

theorem step_users (env : JsEnv) (op : Op) (st : Store)
    (hop : ∀ now user body, op ≠ .register now user body) :
    (step env op st).1.users = st.users := by
  cases op with
  | register now user body => exact absurd rfl (hop now user body)
  | createSchedule now user body =>
    simp only [step, createSchedule]
    repeat' split
    all_goals rfl
  | deleteSchedule user id =>
    simp only [step, deleteSchedule]
    repeat' split
    all_goals rfl
  | saveEntry now user body => exact saveEntry_users env now user body st
  | submitEntry user id =>
    simp only [step, submitEntry]
    repeat' split
    all_goals rfl
  | updateNotes user id notes =>
    simp only [step, updateNotes]
    repeat' split
    all_goals rfl
  | updateHours user id body =>
    simp only [step, updateHours]
    repeat' split
    all_goals rfl
  | updateDayNote user id body =>
    simp only [step, updateDayNote]
    repeat' split
    all_goals rfl
  | externalUpdateNote body =>
    simp only [step, externalUpdateNote]
    repeat' split
    all_goals rfl
  | externalSubmitTimesheet now body => exact externalSubmitTimesheet_users env now body st

theorem step_usernamesUnique (env : JsEnv) (op : Op) (st : Store)
    (hu : UsernamesUnique st) : UsernamesUnique (step env op st).1 := by
  by_cases hop : ∀ now user body, op ≠ .register now user body
  · exact usernamesUnique_of_users_eq (step_users env op st hop) hu
  · push_neg at hop
    obtain ⟨now, user, body, rfl⟩ := hop
    exact register_usernamesUnique env now user body st hu

theorem run_usernamesUnique (env : JsEnv) (ops : List Op) (st : Store)
    (hu : UsernamesUnique st) : UsernamesUnique (run env ops st) := by
  induction ops generalizing st with
  | nil => exact hu
  | cons op ops ih => exact ih _ (step_usernamesUnique env op st hu)

theorem stringColumn_some {v : JsVal} {s : String} (h : stringColumn v = some s) :
    v = some (.str s) := by
  cases v with
  | none => simp [stringColumn] at h
  | some j => cases j <;> simp_all [stringColumn]

/-- Counterexample to C21 as stated: the administrator registers the existing username
`alice` and sends no password.  The required-field test comes before the store is
asked, so the answer is 400 `Username and password required`, not 409. -/
theorem register_duplicate_without_password :
    (findUserByName (sampleStore []) "alice").isSome = true ∧
    (register demoEnv 5 root
        { username := some (.str "alice"), password := none, role := none }
        (sampleStore [])).2.status = 400 ∧
    (register demoEnv 5 root
        { username := some (.str "alice"), password := none, role := none }
        (sampleStore [])).2.errorMessage = some "Username and password required" := by
  decide

/-- C21 (amended): for an administrator, a `register` request whose username is a
non-empty string already in the store, whose password is a non-empty string and whose
role is falsy or a non-empty string, the resulting role being accepted by the role
column, is answered 409 `Username already exists` and leaves the store unchanged (the
tests for the caller's role, 403, and for the two required fields, 400, come first).
Usernames are pairwise distinct in every store reached from a store with pairwise
distinct usernames by any sequence of requests.  A `register` request answered 201 adds
exactly one user, under a username no user had, whose stored password is the bcrypt
hash `env.hash` of the supplied password. -/
theorem register_duplicate_username (env : JsEnv) :
    (∀ (now : Nat) (user : Identity) (body : RegisterBody) (st : Store) (u p r : String),
      user.role = "ADMIN" → body.username = some (.str u) → u ≠ "" →
      body.password = some (.str p) → p ≠ "" →
      (truthy body.role = false ∧ r = "USER" ∨ body.role = some (.str r) ∧ r ≠ "") →
      env.validRole r = true →
      (∃ x ∈ st.users, x.username = u) →
      register env now user body st = (st, ⟨409, .error "Username already exists"⟩)) ∧
    (∀ (ops : List Op) (st : Store), UsernamesUnique st →
      UsernamesUnique (run env ops st)) ∧
    (∀ (now : Nat) (user : Identity) (body : RegisterBody) (st : Store),
      (register env now user body st).2.status = 201 →
      ∃ u p r, body.username = some (.str u) ∧ body.password = some (.str p) ∧
        (∀ x ∈ st.users, x.username ≠ u) ∧
        (register env now user body st).1.users =
          st.users ++ [⟨st.nextUserId, u, env.hash p, r, now⟩]) := by
  refine ⟨?_, fun ops st hu => run_usernamesUnique env ops st hu, ?_⟩
  · intro now user body st u p r hadmin hu hune hp hpne hrole hvalid hdup
    have h1 := truthy_str_of_ne hune
    have h2 := truthy_str_of_ne hpne
    have h3 := findUserByName_isSome hdup
    rcases hrole with ⟨hr, rfl⟩ | ⟨hr, hrne⟩
    · simp [register, hadmin, hu, hp, h1, h2, hr, stringColumn, hvalid, h3]
    · have h4 := truthy_str_of_ne hrne
      simp [register, hadmin, hu, hp, h1, h2, hr, h4, stringColumn, hvalid, h3]
  · intro now user body st
    simp only [register]
    repeat' split
    all_goals first
      | (intro h; simp [internalError] at h; done)
      | (intro _
         exact ⟨_, _, _, stringColumn_some (by assumption), stringColumn_some (by assumption),
           findUserByName_not_isSome (by assumption), rfl⟩)

/-- Witness of C21 (amended): the administrator registers `alice` again, with a
password and no role, on the sample store: 409, and the store is the sample store. -/
theorem register_duplicate_username_witness :
    register demoEnv 5 root
        { username := some (.str "alice"), password := some (.str "pw"), role := none }
        (sampleStore []) =
      (sampleStore [], ⟨409, .error "Username already exists"⟩) :=
  (register_duplicate_username demoEnv).1 5 root
    { username := some (.str "alice"), password := some (.str "pw"), role := none }
    (sampleStore []) "alice" "pw" "USER" rfl rfl (by decide) rfl (by decide)
    (Or.inl ⟨rfl, rfl⟩) rfl ⟨⟨2, "alice", "hash:user123", "USER", 0⟩, .tail _ (.head _), rfl⟩

/-! ## C22 -/

theorem roleColumn_true {r : String} (h : ¬ (!roleColumn r) = true) :
    r = "ADMIN" ∨ r = "USER" := by
  have h1 : ¬ r = "ADMIN" → r = "USER" := by simpa [roleColumn] using h
  by_cases ha : r = "ADMIN"
  · exact Or.inl ha
  · exact Or.inr (h1 ha)

theorem role_default {v : JsVal} {r : String}
    (h : (if truthy v = true then stringColumn v else some "USER") = some r)
    (hf : truthy v = false) : r = "USER" := by
  rw [hf] at h
  simpa using h.symm

/-- C22: with the role column of the spec (it accepts `ADMIN` and `USER` only), every
`register` request answered 201 adds exactly one user, the one the response describes,
whose stored role is `ADMIN` or `USER`; the stored role is `USER` when the request
gives no role (or a falsy one). -/
theorem register_role_range (env : JsEnv) (now : Nat) (user : Identity)
    (body : RegisterBody) (st : Store) (hschema : env.validRole = roleColumn)
    (hok : (register env now user body st).2.status = 201) :
    ∃ created : User,
      (register env now user body st).1.users = st.users ++ [created] ∧
      (register env now user body st).2.body =
        .user created.id created.username created.role ∧
      (created.role = "ADMIN" ∨ created.role = "USER") ∧
      (truthy body.role = false → created.role = "USER") := by
  revert hok
  simp only [register, hschema]
  repeat' split
  all_goals first
    | (intro h; simp [internalError] at h; done)
    | (intro _
       exact ⟨_, rfl, rfl, roleColumn_true (by assumption),
         fun hf => role_default (by assumption) hf⟩)

/-- Witness of C22: the administrator registers `carol` without a role on the sample
store; the new user has role `USER`. -/
theorem register_role_range_witness :
    ∃ created : User,
      (register schemaEnv 5 root
        { username := some (.str "carol"), password := some (.str "pw"), role := none }
        (sampleStore [])).1.users = (sampleStore []).users ++ [created] ∧
      (register schemaEnv 5 root
        { username := some (.str "carol"), password := some (.str "pw"), role := none }
        (sampleStore [])).2.body = .user created.id created.username created.role ∧
      (created.role = "ADMIN" ∨ created.role = "USER") ∧
      (truthy (none : JsVal) = false → created.role = "USER") :=
  register_role_range schemaEnv 5 root
    { username := some (.str "carol"), password := some (.str "pw"), role := none }
    (sampleStore []) rfl (by decide)

/-! ## C23 -/

theorem splitSpace_of_no_space (l : List Char) (h : ∀ c ∈ l, c ≠ Char.ofNat 32) :
    splitSpace l = [l] := by
  induction l with
  | nil => rfl
  | cons c cs ih =>
    have hc : c ≠ Char.ofNat 32 := h c (List.mem_cons_self _ _)
    have hcs := ih (fun x hx => h x (List.mem_cons_of_mem _ hx))
    simp [splitSpace, hc, hcs]

theorem splitSpace_append (l r : List Char) (h : ∀ c ∈ l, c ≠ Char.ofNat 32) :
    splitSpace (l ++ Char.ofNat 32 :: r) = l :: splitSpace r := by
  induction l with
  | nil => simp [splitSpace]
  | cons c cs ih =>
    have hc : c ≠ Char.ofNat 32 := h c (List.mem_cons_self _ _)
    have hcs := ih (fun x hx => h x (List.mem_cons_of_mem _ hx))
    simp [splitSpace, hc, hcs]

/-- The header `Bearer <token>` carries the token, for a token without a space. -/
theorem bearerToken_bearer (t : String) (h : ∀ c ∈ t.data, c ≠ Char.ofNat 32) :
    bearerToken (some ("Bearer " ++ t)) = some t := by
  have hne : "Bearer " ++ t ≠ "" := by
    intro h0
    have := congrArg String.data h0
    rw [String.data_append] at this
    exact absurd this (by simp [show "Bearer ".data = [Char.ofNat 66, Char.ofNat 101,
      Char.ofNat 97, Char.ofNat 114, Char.ofNat 101, Char.ofNat 114, Char.ofNat 32] from rfl])
  have hsplit : splitSpace ("Bearer " ++ t).data =
      [[Char.ofNat 66, Char.ofNat 101, Char.ofNat 97, Char.ofNat 114, Char.ofNat 101,
        Char.ofNat 114], t.data] := by
    rw [String.data_append]
    show splitSpace ([Char.ofNat 66, Char.ofNat 101, Char.ofNat 97, Char.ofNat 114,
      Char.ofNat 101, Char.ofNat 114] ++ Char.ofNat 32 :: t.data) = _
    rw [splitSpace_append _ _ (by decide), splitSpace_of_no_space _ h]
  simp only [bearerToken, hne, if_false, hsplit]
  rfl

/-- Counterexample to C23 as stated: a request carrying the token `forged`, which does
not verify, is answered 403 `Invalid or expired token` by the middleware, not 401; no
role or ownership test is involved, and the store is not touched. -/
theorem invalid_token_answers_403 :
    bearerToken (some "Bearer forged") = some "forged" ∧
    demoEnv.verify "forged" = none ∧
    (withToken demoEnv (some "Bearer forged") (fun user => submitEntry demoEnv user "1")
      (sampleStore [sampleEntry false defaultNotes])).2.status = 403 ∧
    (withToken demoEnv (some "Bearer forged") (fun user => submitEntry demoEnv user "1")
      (sampleStore [sampleEntry false defaultNotes])).2.errorMessage =
        some "Invalid or expired token" ∧
    (withToken demoEnv (some "Bearer forged") (fun user => submitEntry demoEnv user "1")
      (sampleStore [sampleEntry false defaultNotes])).1.entries.map
        (fun e => e.isSubmitted) = [false] := by
  decide

/-- C23 (amended): token authentication tells the two failure kinds apart.  A request
with no bearer token (no `authorization` header, or a header whose second
space-separated piece is missing or empty) is answered 401 `Access token required`; a
request whose token fails verification is answered 403 `Invalid or expired token`, so
403 is produced for a token failure as well as for role and ownership violations; in
both cases no handler runs and the store is unchanged.  A request whose token verifies
is handled with the identity `id`, `username`, `role` encoded in the token. -/
theorem authenticateToken_outcomes (env : JsEnv) (authHeader : Option String)
    (handler : Identity → Store → Store × Response) (st : Store) :
    ((bearerToken authHeader = none ∨ bearerToken authHeader = some "") →
      withToken env authHeader handler st =
        (st, ⟨401, .error "Access token required"⟩)) ∧
    (∀ token, bearerToken authHeader = some token → token ≠ "" →
      env.verify token = none →
      withToken env authHeader handler st =
        (st, ⟨403, .error "Invalid or expired token"⟩)) ∧
    (∀ token id username role, bearerToken authHeader = some token → token ≠ "" →
      env.verify token = some (id, username, role) →
      withToken env authHeader handler st =
        handler { id := id, username := username, role := role } st) := by
  refine ⟨?_, ?_, ?_⟩
  · rintro (h | h) <;> simp [withToken, authenticateToken, h]
  · intro token h hne hv
    simp [withToken, authenticateToken, h, hne, hv]
  · intro token id username role h hne hv
    simp [withToken, authenticateToken, h, hne, hv]

/-- Witness of C23 (amended): the token of `alice` verifies, and her request to submit
entry 1 is handled under her identity. -/
theorem authenticateToken_outcomes_witness :
    withToken demoEnv (some "Bearer token:alice") (fun user => submitEntry demoEnv user "1")
        (sampleStore [sampleEntry false defaultNotes]) =
      submitEntry demoEnv alice "1" (sampleStore [sampleEntry false defaultNotes]) :=
  (authenticateToken_outcomes demoEnv (some "Bearer token:alice")
    (fun user => submitEntry demoEnv user "1")
    (sampleStore [sampleEntry false defaultNotes])).2.2 "token:alice" 2 "alice" "USER"
    (by decide) (by decide) (by decide)

/-! ## C27 -/

/-- C27 (the code departs from the claim).  Both note-writing handlers write first and
parse the written notes afterwards, inside the same `try`.  With `notes` the string
`hello`, which is not JSON, the owner saves a first entry on the sample store: the
answer is 500, and the store holds a new entry (id 2, `mon = 8`) whose notes do not
parse.  The owner then sends the same `notes` to `updateNotes` for the draft sample
entry: the answer is 500, and the notes of the entry, which parsed before, no longer
parse. -/
theorem note_write_then_failure :
    (saveEntry demoEnv 5 alice
        (entryBody (some (.num 1)) (some (.num 1717718400000)) (some (.num 8))
          (some (.str "hello")))
        (sampleStore [])).2.status = 500 ∧
    (sampleStore []).entries.map (fun e => (e.id, e.mon)) = [] ∧
    (saveEntry demoEnv 5 alice
        (entryBody (some (.num 1)) (some (.num 1717718400000)) (some (.num 8))
          (some (.str "hello")))
        (sampleStore [])).1.entries.map
      (fun e => (e.id, e.mon, (parseNotes demoEnv e.notes).isSome)) = [(2, 8, false)] ∧
    (updateNotes demoEnv alice "1" (some (.str "hello"))
        (sampleStore [sampleEntry false defaultNotes])).2.status = 500 ∧
    (sampleStore [sampleEntry false defaultNotes]).entries.map
      (fun e => (e.id, (parseNotes demoEnv e.notes).isSome)) = [(1, true)] ∧
    (updateNotes demoEnv alice "1" (some (.str "hello"))
        (sampleStore [sampleEntry false defaultNotes])).1.entries.map
      (fun e => (e.id, (parseNotes demoEnv e.notes).isSome)) = [(1, false)] :=
  ⟨by decide, by decide, by decide, by decide, by decide, by decide⟩

/-! ## C26 -/

/-- Counterexample to C26 as stated: the owner saves a first entry on the sample store
with `notes` the object with the single key `mon`.  The request is answered 200 and the
object is stored as it is: the persisted notes have no key `tue`. -/
theorem saveEntry_stores_partial_notes :
    (saveEntry demoEnv 5 alice
        (entryBody (some (.num 1)) (some (.num 1717718400000)) (some (.num 8))
          (some (.obj [("mon", .str "x")])))
        (sampleStore [])).2.status = 200 ∧
    (storeAfterSave (some (.obj [("mon", .str "x")]))).entries.map
      (fun e => (e.id, NotesShape e.notes, (storedNote demoEnv e "mon").isSome,
        (storedNote demoEnv e "tue").isSome)) = [(2, false, true, false)] := by
  decide

theorem sevenDayKeys_iff (kvs : List (String × Json)) :
    sevenDayKeys kvs = true ↔
      (∀ p ∈ kvs, p.1 ∈ validDays ∧ isStr p.2 = true) ∧
      (∀ d ∈ validDays, ∃ p ∈ kvs, p.1 = d) := by
  unfold sevenDayKeys
  simp only [Bool.and_eq_true, List.all_eq_true, List.any_eq_true, List.elem_eq_mem,
    List.contains_eq_any_beq, beq_iff_eq, decide_eq_true_eq]

theorem sevenDayKeys_setKey {kvs : List (String × Json)} {k : String} {v : Json}
    (h : sevenDayKeys kvs = true) (hk : k ∈ validDays) (hv : isStr v = true) :
    sevenDayKeys (setKey k v kvs) = true := by
  rw [sevenDayKeys_iff] at h ⊢
  obtain ⟨hall, hex⟩ := h
  unfold setKey
  split
  · refine ⟨?_, ?_⟩
    · intro p hp
      obtain ⟨q, hq, rfl⟩ := List.mem_map.mp hp
      by_cases hqk : q.1 = k
      · rw [if_pos hqk]
        exact ⟨(hall q hq).1, hv⟩
      · rw [if_neg hqk]
        exact hall q hq
    · intro d hd
      obtain ⟨q, hq, hqd⟩ := hex d hd
      refine ⟨_, List.mem_map.mpr ⟨q, hq, rfl⟩, ?_⟩
      by_cases hqk : q.1 = k
      · rw [if_pos hqk]
        exact hqd
      · rw [if_neg hqk]
        exact hqd
  · refine ⟨?_, ?_⟩
    · intro p hp
      rcases List.mem_append.mp hp with hp | hp
      · exact hall p hp
      · simp only [List.mem_singleton] at hp
        rw [hp]
        exact ⟨hk, hv⟩
    · intro d hd
      obtain ⟨q, hq, hqd⟩ := hex d hd
      exact ⟨q, List.mem_append_left _ hq, hqd⟩

theorem notesShape_json {c : NotesCol} (h : NotesShape c = true) :
    ∃ kvs, c = .json (.obj kvs) ∧ sevenDayKeys kvs = true := by
  cases c with
  | text s => simp [NotesShape] at h
  | json v =>
    cases v with
    | obj kvs => exact ⟨kvs, rfl, h⟩
    | _ => simp [NotesShape] at h

theorem isStr_str {v : Json} (h : isStr v = true) : ∃ s, v = .str s := by
  cases v with
  | str s => exact ⟨s, rfl⟩
  | _ => simp [isStr] at h

/-- The day-note assignment keeps the seven-day shape when the key is a day key and the
text is a string. -/
theorem dayNote_shape (env : JsEnv) {c : NotesCol} {dayKey : String} {text r : Json}
    {mode : JsVal} (hc : NotesShape c = true) (hk : validDays.contains dayKey = true)
    (ht : isStr text = true)
    (h : (parseNotesOrEmpty env c).bind
      (fun cur => applyDayNote env cur dayKey text mode) = some r) :
    NotesShape (.json r) = true := by
  obtain ⟨kvs, rfl, hkvs⟩ := notesShape_json hc
  have hk1 : dayKey ∈ validDays := by simpa using hk
  simp only [parseNotesOrEmpty, Option.some_bind, applyDayNote] at h
  repeat' split at h
  all_goals
    simp only [Option.some.injEq] at h
    subst h
    first
      | exact sevenDayKeys_setKey hkvs hk1 ht
      | exact sevenDayKeys_setKey hkvs hk1 rfl

theorem shapedNotes_save {notes : JsVal} {n : NotesCol} (hw : shapedNotes notes = true)
    (h : saveNotesStr notes = some n) : NotesShape n = true := by
  cases notes with
  | none =>
    simp [saveNotesStr, isObjectType, truthy] at h
    subst h
    decide
  | some v =>
    cases v with
    | obj kvs =>
      simp [saveNotesStr, isObjectType, jsonStringify] at h
      subst h
      exact hw
    | _ => simp [shapedNotes] at hw

theorem shapedNotes_timesheet {notes : JsVal} {n : NotesCol}
    (hw : shapedNotes notes = true) (h : timesheetNotesStr notes = some n) :
    NotesShape n = true := by
  cases notes with
  | none =>
    simp [timesheetNotesStr, truthy] at h
    subst h
    decide
  | some v =>
    cases v with
    | obj kvs =>
      simp [timesheetNotesStr, isObjectType, jsonStringify, truthy] at h
      subst h
      exact hw
    | _ => simp [shapedNotes] at hw

theorem shapedNotes_patch {notes : JsVal} {data : TimeEntry → TimeEntry}
    (hw : shapedNotes notes = true) (h : patchNotesData notes = some data)
    (x : TimeEntry) (hx : NotesShape x.notes = true) : NotesShape (data x).notes = true := by
  cases notes with
  | none =>
    simp [patchNotesData, isObjectType] at h
    subst h
    exact hx
  | some v =>
    cases v with
    | obj kvs =>
      simp [patchNotesData, isObjectType, jsonStringify] at h
      subst h
      exact hw
    | _ => simp [shapedNotes] at hw

theorem notesInv_updateEntry {st : Store} (h : NotesInv st) (i : Int)
    (f : TimeEntry → TimeEntry)
    (hf : ∀ x, NotesShape x.notes = true → NotesShape (f x).notes = true) :
    NotesInv (updateEntry st i f) := by
  intro e he
  obtain ⟨x, hx, rfl⟩ := List.mem_map.mp he
  by_cases hxi : x.id = i
  · rw [if_pos hxi]
    exact hf x (h x hx)
  · rw [if_neg hxi]
    exact h x hx

theorem notesInv_upsertEntry {st : Store} (h : NotesInv st) (sid w : Int)
    (f : TimeEntry → TimeEntry) (c : TimeEntry)
    (hf : ∀ x, NotesShape (f x).notes = true) (hc : NotesShape c.notes = true) :
    NotesInv (upsertEntry st sid w f c).1 := by
  unfold upsertEntry
  split
  · intro e he
    obtain ⟨x, hx, rfl⟩ := List.mem_map.mp he
    by_cases hxk : hasKey sid w x = true
    · rw [if_pos hxk]
      exact hf x
    · rw [if_neg hxk]
      exact h x hx
  · intro e he
    rcases List.mem_append.mp he with he | he
    · exact h e he
    · simp only [List.mem_singleton] at he
      rw [he]
      exact hc

theorem contains_of_not_not {k : String} (h : ¬ (!validDays.contains k) = true) :
    validDays.contains k = true := by
  simpa using h

theorem stringText_some {bt : JsVal} {text : Json} (hw : stringText bt = true)
    (heq : bt = some text) : isStr text = true := by
  subst heq
  exact hw

theorem saveEntry_notesInv (env : JsEnv) (now : Nat) (user : Identity) (body : EntryBody)
    (st : Store) (hw : shapedNotes body.notes = true) (hinv : NotesInv st) :
    NotesInv (saveEntry env now user body st).1 := by
  simp only [saveEntry]
  repeat' split
  all_goals first
    | exact hinv
    | exact notesInv_upsertEntry hinv _ _ _ _
        (fun _ => shapedNotes_save hw (by assumption)) (shapedNotes_save hw (by assumption))

theorem externalSubmitTimesheet_notesInv (env : JsEnv) (now : Nat) (body : TimesheetBody)
    (st : Store) (hw : shapedNotes body.notes = true) (hinv : NotesInv st) :
    NotesInv (externalSubmitTimesheet env now body st).1 := by
  simp only [externalSubmitTimesheet]
  repeat' split
  all_goals first
    | exact hinv
    | exact notesInv_upsertEntry hinv _ _ _ _
        (fun _ => shapedNotes_timesheet hw (by assumption))
        (shapedNotes_timesheet hw (by assumption))

theorem updateNotes_notesInv (env : JsEnv) (user : Identity) (id : String) (notes : JsVal)
    (st : Store) (hw : shapedNotes notes = true) (hinv : NotesInv st) :
    NotesInv (updateNotes env user id notes st).1 := by
  simp only [updateNotes]
  repeat' split
  all_goals first
    | exact hinv
    | exact notesInv_updateEntry hinv _ _ (shapedNotes_patch hw (by assumption))

theorem updateHours_notesInv (env : JsEnv) (user : Identity) (id : String)
    (body : HoursBody) (st : Store) (hinv : NotesInv st) :
    NotesInv (updateHours env user id body st).1 := by
  simp only [updateHours]
  repeat' split
  all_goals first
    | exact hinv
    | exact notesInv_updateEntry hinv _ _ (fun _ hx => hx)

theorem submitEntry_notesInv (env : JsEnv) (user : Identity) (id : String) (st : Store)
    (hinv : NotesInv st) : NotesInv (submitEntry env user id st).1 := by
  simp only [submitEntry]
  repeat' split
  all_goals first
    | exact hinv
    | exact notesInv_updateEntry hinv _ _ (fun _ hx => hx)

theorem updateDayNote_notesInv (env : JsEnv) (user : Identity) (id : String)
    (body : DayNoteBody) (st : Store) (hw : stringText body.text = true)
    (hinv : NotesInv st) : NotesInv (updateDayNote env user id body st).1 := by
  simp only [updateDayNote]
  repeat' split
  all_goals first
    | exact hinv
    | exact notesInv_updateEntry hinv _ _ (fun _ _ =>
        dayNote_shape env (hinv _ (findEntry_some (by assumption)).1)
          (contains_of_not_not (by assumption)) (stringText_some hw (by assumption))
          (by assumption))

theorem externalUpdateNote_notesInv (env : JsEnv) (body : ExternalNoteBody) (st : Store)
    (hw : stringText body.text = true) (hinv : NotesInv st) :
    NotesInv (externalUpdateNote env body st).1 := by
  simp only [externalUpdateNote]
  repeat' split
  all_goals first
    | exact hinv
    | exact notesInv_updateEntry hinv _ _ (fun _ _ =>
        dayNote_shape env (hinv _ (findEntry_some (by assumption)).1)
          (contains_of_not_not (by assumption)) (stringText_some hw (by assumption))
          (by assumption))

theorem notesInv_of_subset {st st1 : Store} (h : ∀ e ∈ st1.entries, e ∈ st.entries)
    (hinv : NotesInv st) : NotesInv st1 :=
  fun e he => hinv e (h e he)

theorem step_notesInv (env : JsEnv) (op : Op) (st : Store) (hw : op.shaped = true)
    (hinv : NotesInv st) : NotesInv (step env op st).1 := by
  cases op with
  | register now user body =>
    simp only [step, register]
    repeat' split
    all_goals exact hinv
  | createSchedule now user body =>
    simp only [step, createSchedule]
    repeat' split
    all_goals exact hinv
  | deleteSchedule user id =>
    simp only [step, deleteSchedule]
    repeat' split
    all_goals first
      | exact hinv
      | exact notesInv_of_subset (fun e he => List.mem_of_mem_filter he) hinv
  | saveEntry now user body => exact saveEntry_notesInv env now user body st hw hinv
  | submitEntry user id => exact submitEntry_notesInv env user id st hinv
  | updateNotes user id notes => exact updateNotes_notesInv env user id notes st hw hinv
  | updateHours user id body => exact updateHours_notesInv env user id body st hinv
  | updateDayNote user id body => exact updateDayNote_notesInv env user id body st hw hinv
  | externalUpdateNote body => exact externalUpdateNote_notesInv env body st hw hinv
  | externalSubmitTimesheet now body =>
    exact externalSubmitTimesheet_notesInv env now body st hw hinv

theorem run_notesInv (env : JsEnv) (ops : List Op) (st : Store)
    (hw : ∀ op ∈ ops, op.shaped = true) (hinv : NotesInv st) :
    NotesInv (run env ops st) := by
  induction ops generalizing st with
  | nil => exact hinv
  | cons op ops ih =>
    exact ih _ (fun o ho => hw o (List.mem_cons_of_mem _ ho))
      (step_notesInv env op st (hw op (List.mem_cons_self _ _)) hinv)

theorem upsertEntry_mem (st : Store) (sid w : Int) (f : TimeEntry → TimeEntry)
    (c : TimeEntry) :
    (upsertEntry st sid w f c).2 ∈ (upsertEntry st sid w f c).1.entries := by
  unfold upsertEntry
  split
  · next e he =>
    have hmem := List.mem_of_find?_eq_some he
    have hkey := List.find?_some he
    exact List.mem_map.mpr ⟨e, hmem, by simp [hkey]⟩
  · simp

theorem upsertEntry_snd_notes (st : Store) (sid w : Int) (f : TimeEntry → TimeEntry)
    (c : TimeEntry) (n : NotesCol) (hf : ∀ x, (f x).notes = n) (hc : c.notes = n) :
    (upsertEntry st sid w f c).2.notes = n := by
  unfold upsertEntry
  split
  · exact hf _
  · exact hc

/-- A `saveEntry` request answered 200 returns the written row, which is a row of the
store afterwards and holds the notes string computed from the request. -/
theorem saveEntry_ok_entry (env : JsEnv) (now : Nat) (user : Identity) (body : EntryBody)
    (st : Store) (hok : (saveEntry env now user body st).2.status = 200) :
    ∃ (n : NotesCol) (e : TimeEntry) (notes : Json),
      saveNotesStr body.notes = some n ∧
      (saveEntry env now user body st).2.body = .entry e notes ∧
      e.notes = n ∧ parseNotes env e.notes = some notes ∧
      e ∈ (saveEntry env now user body st).1.entries := by
  revert hok
  simp only [saveEntry]
  repeat' split
  all_goals first
    | (intro h; simp [internalError] at h; done)
    | (intro _
       exact ⟨_, _, _, by assumption, rfl,
         upsertEntry_snd_notes _ _ _ _ _ _ (fun _ => rfl) rfl, by assumption,
         upsertEntry_mem _ _ _ _ _⟩)

/-- C26 (amended): the server stores the notes it is sent without checking their shape,
so the seven-day shape is an invariant only of the requests that respect the transport
format.  From a store in which the notes of every entry are the serialization of an
object with exactly the keys `mon`, …, `sun` and string values, every sequence of
requests in which the `notes` of `saveEntry`, `updateNotes` and external
`submit-timesheet` are absent or such an object, and the `text` of `updateDayNote` and
external `update-note` is a string, leads to such a store.  A `saveEntry` request
without `notes` that is answered 200 writes a row whose notes are the seven keys with
empty strings, and answers with that row. -/
theorem notes_shape_invariant (env : JsEnv) :
    (∀ (ops : List Op) (st : Store), (∀ op ∈ ops, op.shaped = true) → NotesInv st →
      NotesInv (run env ops st)) ∧
    (∀ (now : Nat) (user : Identity) (body : EntryBody) (st : Store),
      body.notes = none → (saveEntry env now user body st).2.status = 200 →
      ∃ e : TimeEntry,
        (saveEntry env now user body st).2.body =
          .entry e (.obj [("mon", .str ""), ("tue", .str ""), ("wed", .str ""),
            ("thu", .str ""), ("fri", .str ""), ("sat", .str ""), ("sun", .str "")]) ∧
        e.notes = defaultNotes ∧
        e ∈ (saveEntry env now user body st).1.entries) := by
  refine ⟨fun ops st hw hinv => run_notesInv env ops st hw hinv, ?_⟩
  intro now user body st hnone hok
  obtain ⟨n, e, notes, hn, hbody, hen, hparse, hmem⟩ :=
    saveEntry_ok_entry env now user body st hok
  have hdef : n = defaultNotes := by
    rw [hnone] at hn
    simpa [saveNotesStr, isObjectType, truthy] using hn.symm
  subst hdef
  rw [hen] at hparse
  have hnotes : notes = .obj [("mon", .str ""), ("tue", .str ""), ("wed", .str ""),
      ("thu", .str ""), ("fri", .str ""), ("sat", .str ""), ("sun", .str "")] := by
    simpa [parseNotes, defaultNotes] using hparse.symm
  subst hnotes
  exact ⟨e, hbody, hen, hmem⟩

/-- Witness of C26 (amended): the owner saves a first entry without notes on the sample
store, then sets the Monday note of that entry; the two entries of the resulting store
have notes of the seven-day shape. -/
theorem notes_shape_invariant_witness :
    NotesInv (run demoEnv
      [.saveEntry 5 alice (entryBody (some (.num 1)) (some (.num 1717804800000))
          (some (.num 8)) none),
       .updateDayNote alice "2"
          { day := some (.str "mon"), text := some (.str "a"), mode := none }]
      (sampleStore [sampleEntry false defaultNotes])) :=
  (notes_shape_invariant demoEnv).1
    [.saveEntry 5 alice (entryBody (some (.num 1)) (some (.num 1717804800000))
        (some (.num 8)) none),
     .updateDayNote alice "2"
        { day := some (.str "mon"), text := some (.str "a"), mode := none }]
    (sampleStore [sampleEntry false defaultNotes]) (by decide) (by decide)

/-! ## C28 -/

theorem replaceAll_flatMap (c : Char) (r : String) (f : Char → List Char)
    (l : List Char) :
    replaceAll c r (l.flatMap f) = l.flatMap (fun x => replaceAll c r (f x)) := by
  unfold replaceAll
  induction l with
  | nil => rfl
  | cons x xs ih => simp [List.flatMap_cons, List.flatMap_append, ih]

theorem escChar_eq (x : Char) :
    replaceAll (Char.ofNat 34) "&quot;"
      (replaceAll (Char.ofNat 62) "&gt;"
        (replaceAll (Char.ofNat 60) "&lt;"
          (if x = Char.ofNat 38 then "&amp;".data else [x]))) = escChar x := by
  unfold escChar
  by_cases h1 : x = Char.ofNat 38
  · subst h1
    decide
  · by_cases h2 : x = Char.ofNat 60
    · subst h2
      decide
    · by_cases h3 : x = Char.ofNat 62
      · subst h3
        decide
      · by_cases h4 : x = Char.ofNat 34
        · subst h4
          decide
        · simp [replaceAll, h1, h2, h3, h4]

theorem escHtml_data (s : String) : (escHtml s).data = s.data.flatMap escChar := by
  show replaceAll (Char.ofNat 34) "&quot;"
      (replaceAll (Char.ofNat 62) "&gt;"
        (replaceAll (Char.ofNat 60) "&lt;"
          (replaceAll (Char.ofNat 38) "&amp;" s.data))) = _
  rw [show replaceAll (Char.ofNat 38) "&amp;" s.data =
      s.data.flatMap (fun x => if x = Char.ofNat 38 then "&amp;".data else [x]) from rfl,
    replaceAll_flatMap, replaceAll_flatMap, replaceAll_flatMap]
  congr 1
  funext x
  exact escChar_eq x

/-- The characters `escHtml` writes for one character: the character itself when it is
none of the four, and otherwise `&` followed by the rest of an entity, which has no
`&`. -/
theorem escChar_cases (c : Char) :
    (escChar c = [c] ∧ c ≠ Char.ofNat 38 ∧ c ≠ Char.ofNat 60 ∧ c ≠ Char.ofNat 62 ∧
      c ≠ Char.ofNat 34) ∨
    (c = Char.ofNat 38 ∧ escChar c = Char.ofNat 38 :: "amp;".data) ∨
    (c = Char.ofNat 60 ∧ escChar c = Char.ofNat 38 :: "lt;".data) ∨
    (c = Char.ofNat 62 ∧ escChar c = Char.ofNat 38 :: "gt;".data) ∨
    (c = Char.ofNat 34 ∧ escChar c = Char.ofNat 38 :: "quot;".data) := by
  by_cases h1 : c = Char.ofNat 38
  · subst h1
    exact Or.inr (Or.inl ⟨rfl, by decide⟩)
  · by_cases h2 : c = Char.ofNat 60
    · subst h2
      exact Or.inr (Or.inr (Or.inl ⟨rfl, by decide⟩))
    · by_cases h3 : c = Char.ofNat 62
      · subst h3
        exact Or.inr (Or.inr (Or.inr (Or.inl ⟨rfl, by decide⟩)))
      · by_cases h4 : c = Char.ofNat 34
        · subst h4
          exact Or.inr (Or.inr (Or.inr (Or.inr ⟨rfl, by decide⟩)))
        · exact Or.inl ⟨by simp [escChar, h1, h2, h3, h4], h1, h2, h3, h4⟩

theorem unescChars_cons_of_ne (c : Char) (r : List Char) (h : c ≠ Char.ofNat 38) :
    unescChars (c :: r) = c :: unescChars r := by
  have h' : ¬ c = '&' := h
  conv_lhs => unfold unescChars
  split <;> simp_all

theorem unescChars_escChar (c : Char) (r : List Char) :
    unescChars (escChar c ++ r) = c :: unescChars r := by
  rcases escChar_cases c with ⟨h, h1, -⟩ | ⟨rfl, h⟩ | ⟨rfl, h⟩ | ⟨rfl, h⟩ | ⟨rfl, h⟩
  · rw [h]
    exact unescChars_cons_of_ne c r h1
  · rw [h]
    show unescChars ('&' :: 'a' :: 'm' :: 'p' :: ';' :: r) = _
    rw [unescChars]
  · rw [h]
    show unescChars ('&' :: 'l' :: 't' :: ';' :: r) = _
    rw [unescChars]
  · rw [h]
    show unescChars ('&' :: 'g' :: 't' :: ';' :: r) = _
    rw [unescChars]
  · rw [h]
    show unescChars ('&' :: 'q' :: 'u' :: 'o' :: 't' :: ';' :: r) = _
    rw [unescChars]

theorem unescChars_flatMap (l : List Char) : unescChars (l.flatMap escChar) = l := by
  induction l with
  | nil => rfl
  | cons c cs ih => rw [List.flatMap_cons, unescChars_escChar, ih]

theorem unescHtml_escHtml (s : String) : unescHtml (escHtml s) = s := by
  unfold unescHtml
  rw [escHtml_data, unescChars_flatMap]

theorem escChar_no_markup (c x : Char) (hx : x ∈ escChar c) :
    x ≠ Char.ofNat 60 ∧ x ≠ Char.ofNat 62 ∧ x ≠ Char.ofNat 34 := by
  rcases escChar_cases c with ⟨h, -, h2, h3, h4⟩ | ⟨-, h⟩ | ⟨-, h⟩ | ⟨-, h⟩ | ⟨-, h⟩
  · rw [h, List.mem_singleton] at hx
    subst hx
    exact ⟨h2, h3, h4⟩
  all_goals
    rw [h] at hx
    revert x
    decide

/-- If a list without `&` followed by `rest` reads as `pre`, `&`, `post`, the `&` lies
in `rest`. -/
theorem amp_after (e rest pre post : List Char)
    (h : e ++ rest = pre ++ Char.ofNat 38 :: post) (he : ∀ x ∈ e, x ≠ Char.ofNat 38) :
    ∃ pre1, pre = e ++ pre1 ∧ rest = pre1 ++ Char.ofNat 38 :: post := by
  induction e generalizing pre with
  | nil => exact ⟨pre, rfl, h⟩
  | cons a e ih =>
    cases pre with
    | nil =>
      simp only [List.cons_append, List.nil_append, List.cons.injEq] at h
      exact absurd h.1 (he a (List.mem_cons_self _ _))
    | cons b pre =>
      simp only [List.cons_append, List.cons.injEq] at h
      obtain ⟨pre1, hp, hr⟩ := ih pre h.2 (fun x hx => he x (List.mem_cons_of_mem _ hx))
      exact ⟨pre1, by rw [h.1, hp]; rfl, hr⟩

theorem amp_begins_entity (l pre post : List Char)
    (h : l.flatMap escChar = pre ++ Char.ofNat 38 :: post) :
    ∃ rest, post = "amp;".data ++ rest ∨ post = "lt;".data ++ rest ∨
      post = "gt;".data ++ rest ∨ post = "quot;".data ++ rest := by
  induction l generalizing pre with
  | nil =>
    simp only [List.flatMap_nil] at h
    exact absurd h (by simp)
  | cons c cs ih =>
    rw [List.flatMap_cons] at h
    cases pre with
    | nil =>
      rcases escChar_cases c with ⟨hc, h1, -⟩ | ⟨-, hc⟩ | ⟨-, hc⟩ | ⟨-, hc⟩ | ⟨-, hc⟩
      · rw [hc] at h
        simp only [List.cons_append, List.nil_append, List.cons.injEq] at h
        exact absurd h.1 h1
      all_goals
        rw [hc] at h
        simp only [List.cons_append, List.nil_append, List.cons.injEq, true_and] at h
        refine ⟨cs.flatMap escChar, ?_⟩
        rw [← h]
        simp
    | cons b pre =>
      rcases escChar_cases c with ⟨hc, -⟩ | ⟨-, hc⟩ | ⟨-, hc⟩ | ⟨-, hc⟩ | ⟨-, hc⟩
      · rw [hc] at h
        simp only [List.cons_append, List.nil_append, List.cons.injEq] at h
        exact ih pre h.2
      · rw [hc] at h
        obtain ⟨pre1, -, hr⟩ := amp_after "amp;".data _ pre post (List.cons.inj h).2
          (by decide)
        exact ih pre1 hr
      · rw [hc] at h
        obtain ⟨pre1, -, hr⟩ := amp_after "lt;".data _ pre post (List.cons.inj h).2
          (by decide)
        exact ih pre1 hr
      · rw [hc] at h
        obtain ⟨pre1, -, hr⟩ := amp_after "gt;".data _ pre post (List.cons.inj h).2
          (by decide)
        exact ih pre1 hr
      · rw [hc] at h
        obtain ⟨pre1, -, hr⟩ := amp_after "quot;".data _ pre post (List.cons.inj h).2
          (by decide)
        exact ih pre1 hr

/-- C28: `escHtml` neutralizes markup and loses no information.  For every string `s`,
`escHtml(s)` contains none of the characters `<`, `>` and `"`; every `&` in it is
followed by `amp;`, `lt;`, `gt;` or `quot;`, so it begins one of the four entities;
replacing the four entities by their characters in `escHtml(s)` gives back `s`; hence
two strings with the same image are equal. -/
theorem escHtml_neutral_and_injective (s : String) :
    (∀ c ∈ (escHtml s).data,
      c ≠ Char.ofNat 60 ∧ c ≠ Char.ofNat 62 ∧ c ≠ Char.ofNat 34) ∧
    (∀ pre post : List Char, (escHtml s).data = pre ++ Char.ofNat 38 :: post →
      ∃ rest, post = "amp;".data ++ rest ∨ post = "lt;".data ++ rest ∨
        post = "gt;".data ++ rest ∨ post = "quot;".data ++ rest) ∧
    unescHtml (escHtml s) = s ∧
    (∀ t : String, escHtml s = escHtml t → s = t) := by
  refine ⟨?_, ?_, unescHtml_escHtml s, ?_⟩
  · intro c hc
    rw [escHtml_data, List.mem_flatMap] at hc
    obtain ⟨x, -, hx⟩ := hc
    exact escChar_no_markup x c hx
  · intro pre post h
    rw [escHtml_data] at h
    exact amp_begins_entity s.data pre post h
  · intro t h
    rw [← unescHtml_escHtml s, ← unescHtml_escHtml t, h]

/-- Witness of C28: the text `a<b & "c"` is escaped to
`a&lt;b &amp; &quot;c&quot;`, whose `&` at position 1 begins `&lt;`, and unescaping
gives the text back. -/
theorem escHtml_neutral_and_injective_witness :
    escHtml "a<b & \"c\"" = "a&lt;b &amp; &quot;c&quot;" ∧
    (∃ rest, "lt;b &amp; &quot;c&quot;".data = "amp;".data ++ rest ∨
      "lt;b &amp; &quot;c&quot;".data = "lt;".data ++ rest ∨
      "lt;b &amp; &quot;c&quot;".data = "gt;".data ++ rest ∨
      "lt;b &amp; &quot;c&quot;".data = "quot;".data ++ rest) ∧
    unescHtml (escHtml "a<b & \"c\"") = "a<b & \"c\"" :=
  ⟨by decide,
    (escHtml_neutral_and_injective "a<b & \"c\"").2.1 "a".data
      "lt;b &amp; &quot;c&quot;".data (by decide),
    (escHtml_neutral_and_injective "a<b & \"c\"").2.2.1⟩

/-! ## C25 -/

theorem keeps_refl (st : Store) : Keeps st st :=
  fun e he => ⟨e, he, rfl, fun h => h⟩

theorem keeps_trans {st st1 st2 : Store} (h1 : Keeps st st1) (h2 : Keeps st1 st2) :
    Keeps st st2 := by
  intro e he
  obtain ⟨e1, he1, hid1, hs1⟩ := h1 e he
  obtain ⟨e2, he2, hid2, hs2⟩ := h2 e1 he1
  exact ⟨e2, he2, hid2.trans hid1, fun h => hs2 (hs1 h)⟩

theorem keeps_updateEntry (st : Store) (i : Int) (f : TimeEntry → TimeEntry)
    (hf : ∀ x, (f x).id = x.id ∧ (x.isSubmitted = true → (f x).isSubmitted = true)) :
    Keeps st (updateEntry st i f) := by
  intro e he
  refine ⟨if e.id = i then f e else e, List.mem_map.mpr ⟨e, he, rfl⟩, ?_⟩
  by_cases h : e.id = i
  · rw [if_pos h]
    exact hf e
  · rw [if_neg h]
    exact ⟨rfl, fun h => h⟩

theorem keeps_upsertEntry (st : Store) (sid w : Int) (f : TimeEntry → TimeEntry)
    (c : TimeEntry)
    (hf : ∀ x, (f x).id = x.id ∧ (x.isSubmitted = true → (f x).isSubmitted = true)) :
    Keeps st (upsertEntry st sid w f c).1 := by
  unfold upsertEntry
  split
  · intro e he
    refine ⟨if hasKey sid w e then f e else e, List.mem_map.mpr ⟨e, he, rfl⟩, ?_⟩
    by_cases h : hasKey sid w e = true
    · rw [if_pos h]
      exact hf e
    · rw [if_neg h]
      exact ⟨rfl, fun h => h⟩
  · intro e he
    exact ⟨e, List.mem_append_left _ he, rfl, fun h => h⟩

theorem saveEntry_keeps (env : JsEnv) (now : Nat) (user : Identity) (body : EntryBody)
    (st : Store) : Keeps st (saveEntry env now user body st).1 := by
  simp only [saveEntry]
  repeat' split
  all_goals first
    | exact keeps_refl st
    | exact keeps_upsertEntry st _ _ _ _ (fun _ => ⟨rfl, fun h => h⟩)

theorem submitEntry_keeps (env : JsEnv) (user : Identity) (id : String) (st : Store) :
    Keeps st (submitEntry env user id st).1 := by
  simp only [submitEntry]
  repeat' split
  all_goals first
    | exact keeps_refl st
    | exact keeps_updateEntry st _ _ (fun _ => ⟨rfl, fun _ => rfl⟩)

theorem withToken_keeps (env : JsEnv) (authHeader : Option String)
    (handler : Identity → Store → Store × Response) (st : Store)
    (h : ∀ user, Keeps st (handler user st).1) :
    Keeps st (withToken env authHeader handler st).1 := by
  unfold withToken
  split
  · exact keeps_refl st
  · exact h _

theorem serve_keeps (env : JsEnv) (now : Nat) (authHeader : Option String)
    (req : Request) (st : Store) : Keeps st (serve env now authHeader req st).1 := by
  cases req with
  | saveEntry body =>
    exact withToken_keeps env authHeader _ st (fun user => saveEntry_keeps env now user body st)
  | submitEntry id =>
    exact withToken_keeps env authHeader _ st (fun user => submitEntry_keeps env user id st)

theorem authenticateToken_error (env : JsEnv) (authHeader : Option String)
    (r : Response) (h : authenticateToken env authHeader = .error r) : r.ok = false := by
  revert h
  simp only [authenticateToken]
  repeat' split
  all_goals
    intro h
    first
      | (cases h; rfl)
      | exact absurd h (by simp)

theorem withToken_ok (env : JsEnv) (authHeader : Option String)
    (handler : Identity → Store → Store × Response) (st : Store)
    (h : (withToken env authHeader handler st).2.ok = true) :
    ∃ user, withToken env authHeader handler st = handler user st := by
  unfold withToken at h ⊢
  split at h
  · next r hr =>
    rw [authenticateToken_error env authHeader r hr] at h
    exact absurd h (by simp)
  · next user hu => exact ⟨user, rfl⟩

theorem saveEntry_ok_200 (env : JsEnv) (now : Nat) (user : Identity) (body : EntryBody)
    (st : Store) (h : (saveEntry env now user body st).2.ok = true) :
    (saveEntry env now user body st).2.status = 200 := by
  revert h
  simp only [saveEntry]
  repeat' split
  all_goals
    intro h
    first
      | rfl
      | simp [Response.ok, internalError] at h

theorem submitEntry_ok (env : JsEnv) (user : Identity) (id : String) (st : Store)
    (h : (submitEntry env user id st).2.ok = true) :
    ∃ eid entry, env.parseInt (.str id) = some eid ∧ findEntry st eid = some entry ∧
      (submitEntry env user id st).1 =
        updateEntry st eid (fun e => { e with isSubmitted := true }) := by
  revert h
  simp only [submitEntry]
  repeat' split
  all_goals
    intro h
    first
      | (simp [Response.ok, internalError] at h; done)
      | exact ⟨_, _, by assumption, by assumption, rfl⟩

/-- A save request answered `ok` returns an entry that is in the store afterwards. -/
theorem serve_save_ok (env : JsEnv) (now : Nat) (authHeader : Option String)
    (body : EntryBody) (st : Store)
    (h : (serve env now authHeader (.saveEntry body) st).2.ok = true) :
    ∃ id, (serve env now authHeader (.saveEntry body) st).2.body.id = some id ∧
      ∃ e ∈ (serve env now authHeader (.saveEntry body) st).1.entries, e.id = id := by
  obtain ⟨user, hu⟩ := withToken_ok env authHeader _ st h
  have hs : serve env now authHeader (.saveEntry body) st = saveEntry env now user body st :=
    hu
  rw [hs] at h ⊢
  obtain ⟨n, e, notes, -, hbody, -, -, hmem⟩ :=
    saveEntry_ok_entry env now user body st (saveEntry_ok_200 env now user body st h)
  exact ⟨e.id, by rw [hbody]; rfl, e, hmem, rfl⟩

/-- A submit request answered `ok` leaves the entry it addressed submitted. -/
theorem serve_submit_ok (env : JsEnv) (now : Nat) (authHeader : Option String)
    (id : String) (st : Store)
    (h : (serve env now authHeader (.submitEntry id) st).2.ok = true) :
    ∃ eid, env.parseInt (.str id) = some eid ∧
      ∃ e ∈ (serve env now authHeader (.submitEntry id) st).1.entries,
        e.id = eid ∧ e.isSubmitted = true := by
  obtain ⟨user, hu⟩ := withToken_ok env authHeader _ st h
  have hs : serve env now authHeader (.submitEntry id) st = submitEntry env user id st := hu
  rw [hs] at h ⊢
  obtain ⟨eid, entry, hid, hfind, hst⟩ := submitEntry_ok env user id st h
  refine ⟨eid, hid, { entry with isSubmitted := true }, ?_, (findEntry_some hfind).2, rfl⟩
  rw [hst]
  exact List.mem_map.mpr ⟨entry, (findEntry_some hfind).1,
    by simp [(findEntry_some hfind).2]⟩

theorem rowKept_of_keeps {env : JsEnv} {andSubmit : Bool} {row : EntryRow}
    {st st1 : Store} (hk : Keeps st st1) (h : RowKept env andSubmit row st) :
    RowKept env andSubmit row st1 := by
  obtain ⟨id, hid, ⟨e, he, hei⟩, hsub⟩ := h
  obtain ⟨e1, he1, hid1, -⟩ := hk e he
  refine ⟨id, hid, ⟨e1, he1, hid1.trans hei⟩, ?_⟩
  intro ha
  obtain ⟨eid, hp, x, hx, hxi, hxs⟩ := hsub ha
  obtain ⟨x1, hx1, hid2, hs2⟩ := hk x hx
  exact ⟨eid, hp, x1, hx1, hid2.trans hxi, hs2 hxs⟩

theorem replay_append (env : JsEnv) (now : Nat) (authHeader : Option String)
    (a b : List Request) (st : Store) :
    replay env now authHeader (a ++ b) st =
      ((replay env now authHeader b (replay env now authHeader a st).1).1,
        (replay env now authHeader a st).2 ++
          (replay env now authHeader b (replay env now authHeader a st).1).2) := by
  induction a generalizing st with
  | nil => rfl
  | cons q qs ih =>
    show replay env now authHeader (q :: (qs ++ b)) st = _
    simp only [replay, ih, List.cons_append]

theorem saveRow_save_failed (env : JsEnv) (now : Nat) (authHeader : Option String)
    (weekEnding : JsVal) (andSubmit : Bool) (row : EntryRow) (st : Store)
    (h1 : (serve env now authHeader (.saveEntry (row.body weekEnding)) st).2.ok = false) :
    saveRow env now authHeader weekEnding andSubmit row st =
      { store := (serve env now authHeader (.saveEntry (row.body weekEnding)) st).1,
        row := row,
        log := [(.saveEntry (row.body weekEnding),
          (serve env now authHeader (.saveEntry (row.body weekEnding)) st).2)],
        thrown := some (serve env now authHeader (.saveEntry (row.body weekEnding)) st).2 } := by
  simp [saveRow, h1]

theorem saveRow_saved (env : JsEnv) (now : Nat) (authHeader : Option String)
    (weekEnding : JsVal) (row : EntryRow) (st : Store)
    (h1 : (serve env now authHeader (.saveEntry (row.body weekEnding)) st).2.ok = true) :
    saveRow env now authHeader weekEnding false row st =
      { store := (serve env now authHeader (.saveEntry (row.body weekEnding)) st).1,
        row := { row with entryId :=
          (serve env now authHeader (.saveEntry (row.body weekEnding)) st).2.body.id },
        log := [(.saveEntry (row.body weekEnding),
          (serve env now authHeader (.saveEntry (row.body weekEnding)) st).2)],
        thrown := none } := by
  simp [saveRow, h1]

theorem saveRow_submit_failed (env : JsEnv) (now : Nat) (authHeader : Option String)
    (weekEnding : JsVal) (row : EntryRow) (st : Store)
    (h1 : (serve env now authHeader (.saveEntry (row.body weekEnding)) st).2.ok = true)
    (h2 : (serve env now authHeader
      (.submitEntry (idText
        (serve env now authHeader (.saveEntry (row.body weekEnding)) st).2.body.id))
      (serve env now authHeader (.saveEntry (row.body weekEnding)) st).1).2.ok = false) :
    saveRow env now authHeader weekEnding true row st =
      { store := (serve env now authHeader
          (.submitEntry (idText
            (serve env now authHeader (.saveEntry (row.body weekEnding)) st).2.body.id))
          (serve env now authHeader (.saveEntry (row.body weekEnding)) st).1).1,
        row := { row with entryId :=
          (serve env now authHeader (.saveEntry (row.body weekEnding)) st).2.body.id },
        log := [(.saveEntry (row.body weekEnding),
            (serve env now authHeader (.saveEntry (row.body weekEnding)) st).2),
          (.submitEntry (idText
              (serve env now authHeader (.saveEntry (row.body weekEnding)) st).2.body.id),
            (serve env now authHeader
              (.submitEntry (idText
                (serve env now authHeader (.saveEntry (row.body weekEnding)) st).2.body.id))
              (serve env now authHeader (.saveEntry (row.body weekEnding)) st).1).2)],
        thrown := some (serve env now authHeader
          (.submitEntry (idText
            (serve env now authHeader (.saveEntry (row.body weekEnding)) st).2.body.id))
          (serve env now authHeader (.saveEntry (row.body weekEnding)) st).1).2 } := by
  simp [saveRow, h1, h2]

theorem saveRow_submitted (env : JsEnv) (now : Nat) (authHeader : Option String)
    (weekEnding : JsVal) (row : EntryRow) (st : Store)
    (h1 : (serve env now authHeader (.saveEntry (row.body weekEnding)) st).2.ok = true)
    (h2 : (serve env now authHeader
      (.submitEntry (idText
        (serve env now authHeader (.saveEntry (row.body weekEnding)) st).2.body.id))
      (serve env now authHeader (.saveEntry (row.body weekEnding)) st).1).2.ok = true) :
    saveRow env now authHeader weekEnding true row st =
      { store := (serve env now authHeader
          (.submitEntry (idText
            (serve env now authHeader (.saveEntry (row.body weekEnding)) st).2.body.id))
          (serve env now authHeader (.saveEntry (row.body weekEnding)) st).1).1,
        row := { row with
          entryId :=
            (serve env now authHeader (.saveEntry (row.body weekEnding)) st).2.body.id,
          isSubmitted := true },
        log := [(.saveEntry (row.body weekEnding),
            (serve env now authHeader (.saveEntry (row.body weekEnding)) st).2),
          (.submitEntry (idText
              (serve env now authHeader (.saveEntry (row.body weekEnding)) st).2.body.id),
            (serve env now authHeader
              (.submitEntry (idText
                (serve env now authHeader (.saveEntry (row.body weekEnding)) st).2.body.id))
              (serve env now authHeader (.saveEntry (row.body weekEnding)) st).1).2)],
        thrown := none } := by
  simp [saveRow, h1, h2]

/-- One iteration of the loop: the store afterwards is the store reached by serving the
logged requests, no entry is lost, and the row is left done or failed. -/
theorem saveRow_spec (env : JsEnv) (now : Nat) (authHeader : Option String)
    (weekEnding : JsVal) (andSubmit : Bool) (row : EntryRow) (st : Store)
    (res : RowResult) (hres : saveRow env now authHeader weekEnding andSubmit row st = res) :
    replay env now authHeader (res.log.map Prod.fst) st =
      (res.store, res.log.map Prod.snd) ∧
    Keeps st res.store ∧
    (res.thrown = none →
      RowDone andSubmit weekEnding row (res.row, res.log) ∧
      RowKept env andSubmit res.row res.store) ∧
    (∀ r, res.thrown = some r → RowFailed andSubmit weekEnding row (res.row, res.log) r) := by
  subst hres
  cases h1 : (serve env now authHeader (.saveEntry (row.body weekEnding)) st).2.ok with
  | false =>
    rw [saveRow_save_failed env now authHeader weekEnding andSubmit row st h1]
    refine ⟨rfl, serve_keeps env now authHeader _ st, fun h => absurd h (by simp), ?_⟩
    intro r hr
    cases hr
    exact ⟨h1, Or.inl ⟨rfl, rfl⟩⟩
  | true =>
    obtain ⟨id, hid, e, he, hei⟩ := serve_save_ok env now authHeader _ st h1
    cases andSubmit with
    | false =>
      rw [saveRow_saved env now authHeader weekEnding row st h1]
      refine ⟨rfl, serve_keeps env now authHeader _ st, fun _ => ⟨?_, ?_⟩,
        fun r hr => absurd hr (by simp)⟩
      · exact ⟨_, h1, by simp⟩
      · exact ⟨id, hid, ⟨e, he, hei⟩, fun h => absurd h (by simp)⟩
    | true =>
      cases h2 : (serve env now authHeader
          (.submitEntry (idText
            (serve env now authHeader (.saveEntry (row.body weekEnding)) st).2.body.id))
          (serve env now authHeader (.saveEntry (row.body weekEnding)) st).1).2.ok with
      | false =>
        rw [saveRow_submit_failed env now authHeader weekEnding row st h1 h2]
        refine ⟨rfl, keeps_trans (serve_keeps env now authHeader _ st)
          (serve_keeps env now authHeader _ _), fun h => absurd h (by simp), ?_⟩
        intro r hr
        cases hr
        exact ⟨h2, Or.inr ⟨rfl, _, h1, rfl, rfl⟩⟩
      | true =>
        rw [saveRow_submitted env now authHeader weekEnding row st h1 h2]
        refine ⟨rfl, keeps_trans (serve_keeps env now authHeader _ st)
          (serve_keeps env now authHeader _ _), fun _ => ⟨?_, ?_⟩, fun r hr => absurd hr (by simp)⟩
        · exact ⟨_, h1, by rw [if_pos rfl]; exact ⟨_, h2, rfl, rfl⟩⟩
        · obtain ⟨e1, he1, hid1, -⟩ := serve_keeps env now authHeader
            (.submitEntry (idText
              (serve env now authHeader (.saveEntry (row.body weekEnding)) st).2.body.id))
            _ e he
          obtain ⟨eid, hp, x, hx, hxi, hxs⟩ := serve_submit_ok env now authHeader _ _ h2
          refine ⟨id, hid, ⟨e1, he1, hid1.trans hei⟩, fun _ => ⟨eid, ?_, x, hx, hxi, hxs⟩⟩
          rw [← hid]
          exact hp

theorem saveLoop_thrown (env : JsEnv) (now : Nat) (authHeader : Option String)
    (weekEnding : JsVal) (andSubmit : Bool) (row : EntryRow) (rows : List EntryRow)
    (st : Store) (r : Response)
    (ht : (saveRow env now authHeader weekEnding andSubmit row st).thrown = some r) :
    saveLoop env now authHeader weekEnding andSubmit (row :: rows) st =
      { store := (saveRow env now authHeader weekEnding andSubmit row st).store,
        processed := [((saveRow env now authHeader weekEnding andSubmit row st).row,
          (saveRow env now authHeader weekEnding andSubmit row st).log)],
        rest := rows, thrown := some r } := by
  simp only [saveLoop, ht]

theorem saveLoop_next (env : JsEnv) (now : Nat) (authHeader : Option String)
    (weekEnding : JsVal) (andSubmit : Bool) (row : EntryRow) (rows : List EntryRow)
    (st : Store)
    (ht : (saveRow env now authHeader weekEnding andSubmit row st).thrown = none) :
    saveLoop env now authHeader weekEnding andSubmit (row :: rows) st =
      { store := (saveLoop env now authHeader weekEnding andSubmit rows
          (saveRow env now authHeader weekEnding andSubmit row st).store).store,
        processed :=
          ((saveRow env now authHeader weekEnding andSubmit row st).row,
            (saveRow env now authHeader weekEnding andSubmit row st).log) ::
          (saveLoop env now authHeader weekEnding andSubmit rows
            (saveRow env now authHeader weekEnding andSubmit row st).store).processed,
        rest := (saveLoop env now authHeader weekEnding andSubmit rows
          (saveRow env now authHeader weekEnding andSubmit row st).store).rest,
        thrown := (saveLoop env now authHeader weekEnding andSubmit rows
          (saveRow env now authHeader weekEnding andSubmit row st).store).thrown } := by
  simp only [saveLoop, ht]

/-- The loop: the store afterwards is the store reached by serving the logged requests
in order, no entry is lost, and either every row is done, or the rows before the first
failing one are done, that row is failed and the rows after it are not reached; the
entries of the rows that are done are in the store afterwards. -/
theorem saveLoop_spec (env : JsEnv) (now : Nat) (authHeader : Option String)
    (weekEnding : JsVal) (andSubmit : Bool) (rows : List EntryRow) (st : Store)
    (l : LoopResult) (hl : saveLoop env now authHeader weekEnding andSubmit rows st = l) :
    replay env now authHeader ((l.processed.flatMap Prod.snd).map Prod.fst) st =
      (l.store, (l.processed.flatMap Prod.snd).map Prod.snd) ∧
    Keeps st l.store ∧
    (l.thrown = none →
      l.rest = [] ∧ List.Forall₂ (RowDone andSubmit weekEnding) rows l.processed ∧
      ∀ p ∈ l.processed, RowKept env andSubmit p.1 l.store) ∧
    (∀ r, l.thrown = some r →
      ∃ done row pd p, rows = done ++ row :: l.rest ∧ l.processed = pd ++ [p] ∧
        List.Forall₂ (RowDone andSubmit weekEnding) done pd ∧
        RowFailed andSubmit weekEnding row p r ∧
        ∀ q ∈ pd, RowKept env andSubmit q.1 l.store) := by
  induction rows generalizing st l with
  | nil =>
    subst hl
    exact ⟨rfl, keeps_refl st, fun _ => ⟨rfl, List.Forall₂.nil, fun p hp => nomatch hp⟩,
      fun r hr => nomatch hr⟩
  | cons row rows ih =>
    obtain ⟨hrep, hkeep, hdone, hfail⟩ :=
      saveRow_spec env now authHeader weekEnding andSubmit row st _ rfl
    cases ht : (saveRow env now authHeader weekEnding andSubmit row st).thrown with
    | some r =>
      subst hl
      rw [saveLoop_thrown env now authHeader weekEnding andSubmit row rows st r ht]
      refine ⟨?_, hkeep, fun h => absurd h (by simp), ?_⟩
      · simpa using hrep
      · intro r1 hr1
        cases hr1
        exact ⟨[], row, [], _, rfl, rfl, List.Forall₂.nil, hfail r ht,
          fun q hq => nomatch hq⟩
    | none =>
      obtain ⟨hrep2, hkeep2, hdone2, hfail2⟩ :=
        ih (saveRow env now authHeader weekEnding andSubmit row st).store _ rfl
      subst hl
      rw [saveLoop_next env now authHeader weekEnding andSubmit row rows st ht]
      refine ⟨?_, keeps_trans hkeep hkeep2, ?_, ?_⟩
      · simp only [List.flatMap_cons, List.map_append, replay_append, hrep, hrep2]
      · intro h
        obtain ⟨hrest, hf2, hk2⟩ := hdone2 h
        refine ⟨hrest, List.Forall₂.cons (hdone ht).1 hf2, ?_⟩
        intro p hp
        rcases List.mem_cons.mp hp with rfl | hp
        · exact rowKept_of_keeps hkeep2 (hdone ht).2
        · exact hk2 p hp
      · intro r hr
        obtain ⟨done, row1, pd, p, hrows, hproc, hf2, hfl, hk⟩ := hfail2 r hr
        refine ⟨row :: done, row1,
          ((saveRow env now authHeader weekEnding andSubmit row st).row,
            (saveRow env now authHeader weekEnding andSubmit row st).log) :: pd, p,
          ?_, ?_, List.Forall₂.cons (hdone ht).1 hf2, hfl, ?_⟩
        · show row :: rows = row :: (done ++ row1 :: _)
          rw [← hrows]
        · show _ :: _ = _ :: (pd ++ [p])
          rw [← hproc]
        · intro q hq
          rcases List.mem_cons.mp hq with rfl | hq
          · exact rowKept_of_keeps hkeep2 (hdone ht).2
          · exact hk q hq

theorem saveTimeEntries_thrown (env : JsEnv) (now : Nat) (andSubmit : Bool)
    (state : ClientState) (st : Store) (r : Response)
    (hweek : truthy state.weekEnding = true) (hrows : state.entryRows.isEmpty = false)
    (ht : (saveLoop env now (authorization state.token) state.weekEnding andSubmit
      state.entryRows st).thrown = some r) :
    saveTimeEntries env now andSubmit state st =
      { state := { state with entryRows :=
          (saveLoop env now (authorization state.token) state.weekEnding andSubmit
            state.entryRows st).processed.map Prod.fst ++
          (saveLoop env now (authorization state.token) state.weekEnding andSubmit
            state.entryRows st).rest },
        store := (saveLoop env now (authorization state.token) state.weekEnding andSubmit
          state.entryRows st).store,
        log := (saveLoop env now (authorization state.token) state.weekEnding andSubmit
          state.entryRows st).processed.map Prod.snd,
        toast := .error r } := by
  simp only [saveTimeEntries, hweek, hrows, ht, Bool.not_true, Bool.false_eq_true, if_false]

theorem saveTimeEntries_done (env : JsEnv) (now : Nat) (andSubmit : Bool)
    (state : ClientState) (st : Store)
    (hweek : truthy state.weekEnding = true) (hrows : state.entryRows.isEmpty = false)
    (ht : (saveLoop env now (authorization state.token) state.weekEnding andSubmit
      state.entryRows st).thrown = none) :
    saveTimeEntries env now andSubmit state st =
      { state :=
          { state with
            entryRows :=
              (saveLoop env now (authorization state.token) state.weekEnding andSubmit
                state.entryRows st).processed.map Prod.fst ++
              (saveLoop env now (authorization state.token) state.weekEnding andSubmit
                state.entryRows st).rest,
            isSubmitted := andSubmit || state.isSubmitted,
            currentEntryId :=
              (saveLoop env now (authorization state.token) state.weekEnding andSubmit
                state.entryRows st).processed.getLast?.bind (fun p => p.1.entryId) },
        store := (saveLoop env now (authorization state.token) state.weekEnding andSubmit
          state.entryRows st).store,
        log := (saveLoop env now (authorization state.token) state.weekEnding andSubmit
          state.entryRows st).processed.map Prod.snd,
        toast := .success
          (if andSubmit then "Timesheet submitted successfully! All entries are now locked."
           else "Time entries saved successfully!") } := by
  simp only [saveTimeEntries, hweek, hrows, ht, Bool.not_true, Bool.false_eq_true, if_false]

/-- Counterexample to C25 as stated: no week is selected (`state.weekEnding` is the
empty string) and the table has one row.  `saveTimeEntries` shows a warning and sends
no request: no request fails, and the row has not been saved.  With the week selected,
the same call saves the row as entry 2. -/
theorem saveTimeEntries_without_week :
    (saveTimeEntries demoEnv 5 false (aliceClient (some (.str "")) [sampleRow 1])
      (sampleStore [])).toast = .warning "Please select a week ending date." ∧
    (saveTimeEntries demoEnv 5 false (aliceClient (some (.str "")) [sampleRow 1])
      (sampleStore [])).log.length = 0 ∧
    (saveTimeEntries demoEnv 5 false (aliceClient (some (.str "")) [sampleRow 1])
      (sampleStore [])).store.entries.length = 0 ∧
    (saveTimeEntries demoEnv 5 false (aliceClient (some (.str "")) [sampleRow 1])
      (sampleStore [])).state.entryRows.map (fun row => row.entryId) = [none] ∧
    (saveTimeEntries demoEnv 5 false
      (aliceClient (some (.num 1717718400000)) [sampleRow 1])
      (sampleStore [])).state.entryRows.map (fun row => row.entryId) = [some 2] :=
  ⟨rfl, by decide, by decide, by decide, by decide⟩

/-- C25 (amended): multi-row save has no rollback.  When a week is selected and the
table has rows, `saveTimeEntries` sends the requests of the rows in row order, and the
store afterwards is the store reached by serving exactly the logged requests.  Either
`api` throws on a response `r` that is not `ok`: then the rows split into the rows
`done` before the failing row `row` and the rows `rest` after it; for every row of
`done` the save request (and, when submitting, the submit request) was answered `ok`
and the row holds the saved id (and `isSubmitted`); the entries of these rows are in
the store afterwards (submitted, when submitting); the last logged request is the one
answered `r`, so no request is sent for `rest`, whose rows are unchanged; the toast
reports the failure; and `state.isSubmitted` and `state.currentEntryId` are unchanged.
Or no request fails: then every row is done in this sense, the success toast is shown,
and `state.isSubmitted` is set when submitting. -/
theorem saveTimeEntries_no_rollback (env : JsEnv) (now : Nat) (andSubmit : Bool)
    (state : ClientState) (st : Store) (res : SaveResult)
    (hweek : truthy state.weekEnding = true) (hrows : state.entryRows ≠ [])
    (hres : saveTimeEntries env now andSubmit state st = res) :
    replay env now (authorization state.token) (res.log.flatten.map Prod.fst) st =
      (res.store, res.log.flatten.map Prod.snd) ∧
    ((∃ (r : Response) (done : List EntryRow) (row : EntryRow) (rest : List EntryRow)
        (pd : List (EntryRow × List (Request × Response)))
        (p : EntryRow × List (Request × Response)),
        res.toast = .error r ∧
        state.entryRows = done ++ row :: rest ∧
        List.Forall₂ (RowDone andSubmit state.weekEnding) done pd ∧
        RowFailed andSubmit state.weekEnding row p r ∧
        res.log = pd.map Prod.snd ++ [p.2] ∧
        res.state.entryRows = pd.map Prod.fst ++ p.1 :: rest ∧
        (∀ q ∈ pd, RowKept env andSubmit q.1 res.store) ∧
        res.state.isSubmitted = state.isSubmitted ∧
        res.state.currentEntryId = state.currentEntryId) ∨
     (∃ (msg : String) (pd : List (EntryRow × List (Request × Response))),
        res.toast = .success msg ∧
        List.Forall₂ (RowDone andSubmit state.weekEnding) state.entryRows pd ∧
        res.log = pd.map Prod.snd ∧
        res.state.entryRows = pd.map Prod.fst ∧
        (∀ q ∈ pd, RowKept env andSubmit q.1 res.store) ∧
        res.state.isSubmitted = (andSubmit || state.isSubmitted))) := by
  have hemp : state.entryRows.isEmpty = false := by
    cases hr : state.entryRows with
    | nil => exact absurd hr hrows
    | cons _ _ => rfl
  obtain ⟨hrep, -, hdone, hfail⟩ :=
    saveLoop_spec env now (authorization state.token) state.weekEnding andSubmit
      state.entryRows st _ rfl
  cases ht : (saveLoop env now (authorization state.token) state.weekEnding andSubmit
      state.entryRows st).thrown with
  | some r =>
    subst hres
    rw [saveTimeEntries_thrown env now andSubmit state st r hweek hemp ht]
    refine ⟨hrep, Or.inl ?_⟩
    obtain ⟨done, row, pd, p, hsplit, hproc, hf, hfl, hk⟩ := hfail r ht
    refine ⟨r, done, row, _, pd, p, rfl, hsplit, hf, hfl, ?_, ?_, hk, rfl, rfl⟩
    · show List.map Prod.snd _ = _
      rw [hproc, List.map_append]
      rfl
    · show List.map Prod.fst _ ++ _ = _
      rw [hproc, List.map_append, List.append_assoc]
      rfl
  | none =>
    subst hres
    rw [saveTimeEntries_done env now andSubmit state st hweek hemp ht]
    refine ⟨hrep, Or.inr ?_⟩
    obtain ⟨hrest, hf, hk⟩ := hdone ht
    refine ⟨_, _, rfl, hf, rfl, ?_, hk, rfl⟩
    show List.map Prod.fst _ ++ _ = _
    rw [hrest, List.append_nil]

/-- Witness of C25 (amended): `alice` submits two rows, the second for a schedule that
does not exist.  The store afterwards is the one reached by the three logged requests:
the first row is saved as entry 2 and submitted, and stays so. -/
theorem saveTimeEntries_no_rollback_witness :
    (saveTimeEntries demoEnv 5 true
      (aliceClient (some (.num 1717718400000)) [sampleRow 1, sampleRow 9])
      (sampleStore [])).log.map List.length = [2, 1] ∧
    (saveTimeEntries demoEnv 5 true
      (aliceClient (some (.num 1717718400000)) [sampleRow 1, sampleRow 9])
      (sampleStore [])).store.entries.map (fun e => (e.id, e.isSubmitted)) = [(2, true)] ∧
    replay demoEnv 5 (authorization (some "token:alice"))
      ((saveTimeEntries demoEnv 5 true
        (aliceClient (some (.num 1717718400000)) [sampleRow 1, sampleRow 9])
        (sampleStore [])).log.flatten.map Prod.fst) (sampleStore []) =
      ((saveTimeEntries demoEnv 5 true
        (aliceClient (some (.num 1717718400000)) [sampleRow 1, sampleRow 9])
        (sampleStore [])).store,
       (saveTimeEntries demoEnv 5 true
        (aliceClient (some (.num 1717718400000)) [sampleRow 1, sampleRow 9])
        (sampleStore [])).log.flatten.map Prod.snd) :=
  ⟨by decide, by decide,
    (saveTimeEntries_no_rollback demoEnv 5 true
      (aliceClient (some (.num 1717718400000)) [sampleRow 1, sampleRow 9])
      (sampleStore []) _ (by decide) (fun h => nomatch h) rfl).1⟩

end PSA
